import Mathlib

/-!
The `ByteSpan` lexical primitives of svgandme (`src/svg/bspan.h`), the loading and binding
of its gradient elements (`src/svg/svggradient.h`) and the positioning of its text
(`src/svg/svgtext.h`).

A shallow embedding of `waavs::ByteSpan` and of the free functions that tokenise, trim and
parse numbers over it, of `SVGGradient` with its linear and radial subclasses, and of
`SVGFontSelection` and `SVGTSpanNode` (the conventions of the gradient part and of the text
part stand above their definitions).

* Memory is a flat, byte-addressed store (`Memory`); a pointer is an address (`Nat`),
  `nullptr` is address `0`.
* A `ByteSpan` is the pair of pointers `fStart`, `fEnd` of the source; it owns nothing,
  so every operation that reads bytes takes the memory as an argument. A span may be a
  view into a larger buffer: the memory is defined beyond `fEnd` too.
* Pointer and `size_t` arithmetic on caller supplied sizes (`start + sz` in `subSpan`,
  `size() - b.size()` in `endsWith`) is reduced modulo `2^64` (`SIZE_MOD`); increments
  that the source guards by `n <= size()` or by `tokenEnd < end` stay inside
  `[fStart, fEnd + 1]` and are plain additions. A pointer difference is the difference
  of the addresses.
* A function that takes `ByteSpan&` and moves it returns the span left behind next to
  its result.
* Loops run on a fuel argument that the calling function sets to `size()`; the lemmas
  `tokenEndLoop_spec`, `i64Loop_digits` and `u64Loop_digits` show that this fuel is never
  exhausted before the loop condition fails.
* `uint64_t` is `Nat` reduced modulo `2^64`, `int64_t` and `long long` are `Int` reduced
  to the two's complement range, `double` is `ℚ` (exact arithmetic).
-/

namespace waavs

/-- The byte stored at every address. -/
abbrev Memory := Nat → Nat

/-- The number of values of `size_t` (and of a pointer) on the 64-bit targets. -/
def SIZE_MOD : Nat := 18446744073709551616

/-- The struct `ByteSpan`: the two pointers `fStart` and `fEnd`. -/
structure ByteSpan where
  fStart : Nat
  fEnd : Nat
deriving DecidableEq, Repr

namespace ByteSpan

/-- The default constructor `ByteSpan()`: both pointers are `nullptr`. -/
def null : ByteSpan := { fStart := 0, fEnd := 0 }

/-- The conversion `explicit operator bool()`: `(fEnd - fStart) > 0`. -/
def toBool (s : ByteSpan) : Bool :=
  decide (((s.fEnd : Int) - (s.fStart : Int)) > 0)

/-- The member `size()`: `ptrdiff_t sz = fEnd - fStart; if (sz < 0) return 0; return sz;`. -/
def size (s : ByteSpan) : Nat :=
  let sz : Int := (s.fEnd : Int) - (s.fStart : Int)
  if sz < 0 then 0 else sz.toNat

/-- The member `empty()`: `fStart == fEnd`. -/
def empty (s : ByteSpan) : Bool :=
  decide (s.fStart = s.fEnd)

/-- The member `operator*`: the byte at `fStart` when `fStart < fEnd`, else the static zero. -/
def peek (mem : Memory) (s : ByteSpan) : Nat :=
  if s.fStart < s.fEnd then mem s.fStart else 0

/-- The member `operator+=`: `if (n > size()) n = size(); fStart += n;`. -/
def advance (s : ByteSpan) (n : Nat) : ByteSpan :=
  let n := if n > s.size then s.size else n
  { s with fStart := s.fStart + n }

/-- The members `operator++()` and `operator++(int)`: both are `operator+=(1)`. -/
def inc (s : ByteSpan) : ByteSpan :=
  s.advance 1

end ByteSpan

/-- The libc `memcmp(p, q, n)`: zero when the first `n` bytes agree, else the difference
of the first pair of bytes (as unsigned char) that differ. -/
def memcmp (mem : Memory) : Nat → Nat → Nat → Int
  | _, _, 0 => 0
  | p, q, n + 1 =>
    if mem p = mem q then memcmp mem (p + 1) (q + 1) n
    else (mem p : Int) - (mem q : Int)

namespace ByteSpan

/-- The member `operator==(const ByteSpan&)`. -/
def eq (mem : Memory) (a b : ByteSpan) : Bool :=
  if a.size ≠ b.size then false
  else decide (memcmp mem a.fStart b.fStart a.size = 0)

/-- The member `operator!=(const ByteSpan&)`. -/
def ne (mem : Memory) (a b : ByteSpan) : Bool :=
  if a.size ≠ b.size then true
  else decide (memcmp mem a.fStart b.fStart a.size ≠ 0)

/-- The local `maxBytes` of the ordering operators: `size() < b.size() ? size() : b.size()`. -/
def maxBytes (a b : ByteSpan) : Nat :=
  if a.size < b.size then a.size else b.size

/-- The member `operator<`. -/
def lt (mem : Memory) (a b : ByteSpan) : Bool :=
  decide (memcmp mem a.fStart b.fStart (maxBytes a b) < 0)

/-- The member `operator>`. -/
def gt (mem : Memory) (a b : ByteSpan) : Bool :=
  decide (memcmp mem a.fStart b.fStart (maxBytes a b) > 0)

/-- The member `operator<=`. -/
def le (mem : Memory) (a b : ByteSpan) : Bool :=
  decide (memcmp mem a.fStart b.fStart (maxBytes a b) ≤ 0)

/-- The member `operator>=`. -/
def ge (mem : Memory) (a b : ByteSpan) : Bool :=
  decide (memcmp mem a.fStart b.fStart (maxBytes a b) ≥ 0)

/-- The member `subSpan(startAt, sz)`. The pointer sum `start + sz` is a 64-bit sum. -/
def subSpan (s : ByteSpan) (startAt sz : Nat) : ByteSpan :=
  if startAt < s.size then
    let start := (s.fStart + startAt) % SIZE_MOD
    if (start + sz) % SIZE_MOD < s.fEnd then
      { fStart := start, fEnd := (start + sz) % SIZE_MOD }
    else
      { fStart := start, fEnd := s.fEnd }
  else
    { fStart := s.fEnd, fEnd := s.fEnd }

/-- The member `take(n)`. -/
def take (s : ByteSpan) (n : Nat) : ByteSpan :=
  s.subSpan 0 n

/-- The member `startsWith(b)`: `subSpan((size_t)0, b.size()) == b`. -/
def startsWith (mem : Memory) (s b : ByteSpan) : Bool :=
  eq mem (s.subSpan 0 b.size) b

/-- The member `endsWith(b)`: `subSpan(size() - b.size(), b.size()) == b`, the difference
being a `size_t` difference. -/
def endsWith (mem : Memory) (s b : ByteSpan) : Bool :=
  eq mem (s.subSpan ((s.size + SIZE_MOD - b.size) % SIZE_MOD) b.size) b

/-- The bytes a span views: those at `fStart`, `fStart + 1`, ..., `fEnd - 1`. -/
def bytes (mem : Memory) (s : ByteSpan) : List Nat :=
  (List.range s.size).map fun i => mem (s.fStart + i)

/-- Both pointers of the span are addresses of the 64-bit address space. -/
def inAddressSpace (s : ByteSpan) : Prop :=
  s.fStart < SIZE_MOD ∧ s.fEnd < SIZE_MOD

instance (s : ByteSpan) : Decidable s.inAddressSpace := by
  unfold inAddressSpace; infer_instance

end ByteSpan

/-- Modelled from the spec: the character class `chrDecDigits` of `charset.h`, a header
that is not among the sources. The spec (§2, "Charset/classifier") names it as the bitset
predicate for digits; `chunk_to_u64` subtracts `'0'` from a member, so the members are the
ten bytes `'0'` .. `'9'`. -/
def chrDecDigits (c : Nat) : Bool :=
  decide (48 ≤ c ∧ c ≤ 57)

/-- The loop `while (tokenEnd < end && !delims(*tokenEnd)) ++tokenEnd;` of `chunk_token`
and `chunk_token_char`, run for at most `fuel` rounds; it yields the final `tokenEnd`. -/
def tokenEndLoop (mem : Memory) (delims : Nat → Bool) (stop : Nat) : Nat → Nat → Nat
  | 0, tokenEnd => tokenEnd
  | fuel + 1, tokenEnd =>
    if tokenEnd < stop ∧ delims (mem tokenEnd) = false then
      tokenEndLoop mem delims stop fuel (tokenEnd + 1)
    else tokenEnd

/-- The function `chunk_token(ByteSpan& a, const charset& delims)`: the token returned and
the span `a` left behind. The test after the loop reads `*tokenEnd` through the raw
pointer, whatever `tokenEnd` is. -/
def chunk_token (mem : Memory) (a : ByteSpan) (delims : Nat → Bool) : ByteSpan × ByteSpan :=
  if a.toBool = false then (ByteSpan.null, ByteSpan.null)
  else
    let start := a.fStart
    let tokenEnd := tokenEndLoop mem delims a.fEnd a.size start
    if delims (mem tokenEnd) then
      ({ fStart := start, fEnd := tokenEnd }, { a with fStart := tokenEnd + 1 })
    else
      ({ fStart := start, fEnd := tokenEnd }, { a with fStart := tokenEnd })

/-- The comparison `*tokenEnd == delim` of `chunk_token_char`: the byte is an unsigned
char and `delim` a `char`, both promoted to `int`. -/
def isDelimChar (delim : Int) (c : Nat) : Bool :=
  decide ((c : Int) = delim)

/-- The function `chunk_token_char(ByteSpan& a, const char delim)`: the token returned and
the span `a` left behind. -/
def chunk_token_char (mem : Memory) (a : ByteSpan) (delim : Int) : ByteSpan × ByteSpan :=
  if a.toBool = false then (ByteSpan.null, ByteSpan.null)
  else
    let start := a.fStart
    let tokenEnd := tokenEndLoop mem (isDelimChar delim) a.fEnd a.size start
    if isDelimChar delim (mem tokenEnd) then
      ({ fStart := start, fEnd := tokenEnd }, { a with fStart := tokenEnd + 1 })
    else
      ({ fStart := start, fEnd := tokenEnd }, { a with fStart := tokenEnd })

/-- The loop `while (s && decDigits[*s]) { v = v * 10 + (uint64_t)(*s - '0'); s++; }` of
`chunk_to_u64`, run for at most `fuel` rounds; `v` is a `uint64_t`. -/
def u64Loop (mem : Memory) : Nat → Nat → ByteSpan → Nat × ByteSpan
  | 0, v, s => (v, s)
  | fuel + 1, v, s =>
    if s.toBool ∧ chrDecDigits (s.peek mem) then
      u64Loop mem fuel ((v * 10 + (s.peek mem - 48)) % SIZE_MOD) s.inc
    else (v, s)

/-- The function `chunk_to_u64(ByteSpan& s)`: the value returned and the span left behind. -/
def chunk_to_u64 (mem : Memory) (s : ByteSpan) : Nat × ByteSpan :=
  u64Loop mem s.size 0 s

/-- A value reduced to the range of `int64_t` (two's complement). -/
def wrapI64 (x : Int) : Int :=
  (x + 9223372036854775808) % 18446744073709551616 - 9223372036854775808

/-- The loop `while (s && chrDecDigits(*s)) { v = v * 10 + (int64_t)(*s - '0'); s++; }` of
`chunk_to_i64`, run for at most `fuel` rounds; `v` is an `int64_t`. -/
def i64Loop (mem : Memory) : Nat → Int → ByteSpan → Int × ByteSpan
  | 0, v, s => (v, s)
  | fuel + 1, v, s =>
    if s.toBool ∧ chrDecDigits (s.peek mem) then
      i64Loop mem fuel (wrapI64 (v * 10 + ((s.peek mem : Int) - 48))) s.inc
    else (v, s)

/-- The function `chunk_to_i64(ByteSpan& s)`: the value returned and the span left behind. -/
def chunk_to_i64 (mem : Memory) (s : ByteSpan) : Int × ByteSpan :=
  let negative := s.toBool && s.peek mem == 45
  let s := if negative then s.inc else s
  let r := i64Loop mem s.size 0 s
  (if negative then wrapI64 (-r.1) else r.1, r.2)

/-- The conversion of a `uint64_t` to `long long` (two's complement), as in
`long long intPart = chunk_to_u64(s)`. -/
def toLongLong (n : Nat) : Int :=
  if n % SIZE_MOD < 9223372036854775808 then ((n % SIZE_MOD : Nat) : Int)
  else ((n % SIZE_MOD : Nat) : Int) - 18446744073709551616

/-- Modelled from the spec: the function `powd` of `maths.h`, a header that is not among
the sources. `chunk_to_double` calls it with base ten and an integer-valued exponent; in
exact arithmetic it is the integer power. -/
def powd (base : ℚ) (e : Int) : ℚ :=
  base ^ e

/-- The state of `chunk_to_double` between its stages: the cursor `s` and the locals. -/
structure DoubleParse where
  s : ByteSpan
  sign : ℚ
  res : ℚ
  hasIntPart : Bool
  hasFracPart : Bool

/-- The stage "Parse optional sign" of `chunk_to_double`. -/
def parseSign (mem : Memory) (inChunk : ByteSpan) : DoubleParse :=
  let s := inChunk
  if s.peek mem = 43 then
    { s := s.inc, sign := 1, res := 0, hasIntPart := false, hasFracPart := false }
  else if s.peek mem = 45 then
    { s := s.inc, sign := -1, res := 0, hasIntPart := false, hasFracPart := false }
  else
    { s := s, sign := 1, res := 0, hasIntPart := false, hasFracPart := false }

/-- The stage "Parse integer part" of `chunk_to_double`: `intPart` is a `long long`. -/
def parseIntPart (mem : Memory) (st : DoubleParse) : DoubleParse :=
  if chrDecDigits (st.s.peek mem) then
    let r := chunk_to_u64 mem st.s
    let intPart : Int := toLongLong r.1
    { st with s := r.2, res := (intPart : ℚ), hasIntPart := true }
  else st

/-- The stage "Parse fractional part" of `chunk_to_double`: `fracPart` is a `uint64_t`
and `diff` the number of bytes `chunk_to_u64` moved the cursor. -/
def parseFracPart (mem : Memory) (st : DoubleParse) : DoubleParse :=
  if st.s.peek mem = 46 then
    let s := st.s.inc
    let sentinel := s.fStart
    if chrDecDigits (s.peek mem) then
      let r := chunk_to_u64 mem s
      let fracPart : Nat := r.1
      let ending := r.2.fStart
      let diff : Int := (ending : Int) - (sentinel : Int)
      { st with s := r.2, res := st.res + (fracPart : ℚ) / powd 10 diff, hasFracPart := true }
    else { st with s := s }
  else st

/-- The stage "Parse optional exponent" of `chunk_to_double`: `expPart` is a `long long`. -/
def parseExponent (mem : Memory) (st : DoubleParse) : DoubleParse :=
  if st.s.peek mem = 101 ∨ st.s.peek mem = 69 then
    let s := st.s.inc
    let signed : Int × ByteSpan :=
      if s.peek mem = 43 then (1, s.inc)
      else if s.peek mem = 45 then (-1, s.inc)
      else (1, s)
    let expSign := signed.1
    let s := signed.2
    if chrDecDigits (s.peek mem) then
      let r := chunk_to_u64 mem s
      let expPart : Int := toLongLong r.1
      { st with s := r.2, res := st.res * powd 10 (expSign * expPart) }
    else { st with s := s }
  else st

/-- The body of `chunk_to_double`: the value returned together with the final state of the
local cursor `ByteSpan s = inChunk`. -/
def chunk_to_double_local (mem : Memory) (inChunk : ByteSpan) : ℚ × ByteSpan :=
  let st := parseFracPart mem (parseIntPart mem (parseSign mem inChunk))
  if st.hasIntPart = false ∧ st.hasFracPart = false then (0, st.s)
  else
    let st := parseExponent mem st
    (st.res * st.sign, st.s)

/-- The function `chunk_to_double(const ByteSpan& inChunk)`: the value returned and the
span left with the caller. The parameter is a reference to const and the cursor is a local
copy, so the caller keeps `inChunk`. -/
def chunk_to_double (mem : Memory) (inChunk : ByteSpan) : ℚ × ByteSpan :=
  ((chunk_to_double_local mem inChunk).1, inChunk)

/-- The truncation contract of `subSpan` at one call: the size is `min(sz, size - startAt)`
when `startAt < size` and `0` otherwise, and the bytes are those of `s` from `startAt` on. -/
def ByteSpan.SubSpanTruncates (mem : Memory) (s : ByteSpan) (startAt sz : Nat) : Prop :=
  (s.subSpan startAt sz).size = (if startAt < s.size then min sz (s.size - startAt) else 0) ∧
  (s.subSpan startAt sz).bytes mem = ((s.bytes mem).drop startAt).take sz

/-- The statement that the ordering is total and consistent with equality at one pair of
spans: exactly one of `a < b`, `a == b`, `b < a` holds, and `a <= b` together with `b <= a`
implies `a == b`. -/
def ByteSpan.TotalOrderAt (mem : Memory) (a b : ByteSpan) : Prop :=
  ((ByteSpan.lt mem a b = true ∧ ByteSpan.eq mem a b = false ∧ ByteSpan.lt mem b a = false) ∨
   (ByteSpan.lt mem a b = false ∧ ByteSpan.eq mem a b = true ∧ ByteSpan.lt mem b a = false) ∨
   (ByteSpan.lt mem a b = false ∧ ByteSpan.eq mem a b = false ∧ ByteSpan.lt mem b a = true)) ∧
  (ByteSpan.le mem a b = true → ByteSpan.le mem b a = true → ByteSpan.eq mem a b = true)

/-- One step of reading a decimal number: the value so far times ten plus the digit. -/
def decimalStep (v d : Nat) : Nat :=
  v * 10 + (d - 48)

/-- The value of a run of decimal digit bytes, most significant digit first. -/
def decimalValue (digits : List Nat) : Nat :=
  digits.foldl decimalStep 0

/-- The optional sign of a number text: absent, '+' or '-'. -/
inductive NumSign where
  | absent
  | plus
  | minus
deriving DecidableEq, Repr

/-- The bytes of an optional sign. -/
def NumSign.bytes : NumSign → List Nat
  | NumSign.absent => []
  | NumSign.plus => [43]
  | NumSign.minus => [45]

/-- The factor an optional sign stands for. -/
def NumSign.value : NumSign → Int
  | NumSign.absent => 1
  | NumSign.plus => 1
  | NumSign.minus => -1

/-- The exponent of a number text: the letter 'e' or 'E', an optional sign and digits. -/
structure ExponentText where
  letter : Nat
  sign : NumSign
  digits : List Nat
deriving DecidableEq, Repr

/-- A text of the form `[+|-] digits [. digits] [(e|E) [+|-] digits]`. -/
structure NumberText where
  sign : NumSign
  intDigits : List Nat
  frac : Option (List Nat)
  exp : Option ExponentText
deriving DecidableEq, Repr

namespace NumberText

/-- The digits after the decimal point (none when there is no point). -/
def fracDigits (n : NumberText) : List Nat :=
  n.frac.getD []

/-- The digits of the exponent (none when there is no exponent). -/
def expDigits (n : NumberText) : List Nat :=
  match n.exp with
  | none => []
  | some e => e.digits

/-- The sign of the exponent (absent when there is no exponent). -/
def expSign (n : NumberText) : NumSign :=
  match n.exp with
  | none => NumSign.absent
  | some e => e.sign

/-- The bytes of the optional fraction: the point and the digits after it. -/
def fracBytes : Option (List Nat) → List Nat
  | none => []
  | some f => 46 :: f

/-- The bytes of the optional exponent: the letter, the optional sign and the digits. -/
def expBytes : Option ExponentText → List Nat
  | none => []
  | some e => e.letter :: (e.sign.bytes ++ e.digits)

/-- The bytes of the text. -/
def bytes (n : NumberText) : List Nat :=
  n.sign.bytes ++ (n.intDigits ++ (fracBytes n.frac ++ expBytes n.exp))

/-- The exponent letter, when there is an exponent, is 'e' or 'E'. -/
def expLetterOk (n : NumberText) : Bool :=
  match n.exp with
  | none => true
  | some e => e.letter == 101 || e.letter == 69

/-- Every digit run holds decimal digits only, the exponent letter is 'e' or 'E', and there
is at least one integer or fraction digit. -/
def WellFormed (n : NumberText) : Prop :=
  (∀ d, d ∈ n.intDigits → chrDecDigits d = true) ∧
  (∀ d, d ∈ n.fracDigits → chrDecDigits d = true) ∧
  (∀ d, d ∈ n.expDigits → chrDecDigits d = true) ∧
  n.expLetterOk = true ∧
  (n.intDigits ≠ [] ∨ n.fracDigits ≠ [])

instance (n : NumberText) : Decidable n.WellFormed := by
  unfold WellFormed
  infer_instance

/-- The number the text denotes, in exact arithmetic:
`sign * (int + frac / 10^(number of fraction digits)) * 10^(signed exponent)`. -/
def value (n : NumberText) : ℚ :=
  (n.sign.value : ℚ) *
    ((decimalValue n.intDigits : ℚ) +
      (decimalValue n.fracDigits : ℚ) / (10 : ℚ) ^ n.fracDigits.length) *
    (10 : ℚ) ^ (n.expSign.value * (decimalValue n.expDigits : Int))

end NumberText

/-- A memory holding the bytes `bs` from address `base` on and zero elsewhere. -/
def memOf (base : Nat) (bs : List Nat) : Memory :=
  fun a => if a < base then 0 else bs.getD (a - base) 0

/-- The bytes of a string literal. -/
def cstr (str : String) : List Nat :=
  str.toList.map Char.toNat

/-- The bytes of a text after its optional leading '+' or '-'. -/
def afterOptionalSign : List Nat → List Nat
  | [] => []
  | c :: r => if c = 43 ∨ c = 45 then r else c :: r

/-- The text starts a number: a leading decimal digit, or a '.' immediately followed by a
decimal digit. -/
def startsNumber : List Nat → Bool
  | [] => false
  | c :: r => chrDecDigits c || (c == 46 && chrDecDigits (r.headD 0))

/-! The gradient nodes of `src/svg/svggradient.h`.

* Blend2D is a library outside the repository: `BLGradient` is embedded as the record of
  what it stores (type, extend mode, values, stops, transform) and its members as record
  updates; `hasTransform()` is "the transform is not the identity".
* A document owns its nodes; a gradient is addressed by its index and the states of all
  gradients form a `GradientStore`. Binding one gradient may bind others (its template),
  so every binding function maps a store to a store.
* The calls `resolveReference -> getVariant -> bindToContext -> bindSelfToContext ->
  resolveReference` are recursive; `getVariant` takes a fuel argument that bounds the depth
  of nested `getVariant` calls, and `none` stands for "fuel exhausted".
* Conic gradients (not part of SVG) are not embedded.
-/

/-- Blend2D `BLRect`. -/
structure BLRect where
  x : ℚ
  y : ℚ
  w : ℚ
  h : ℚ
deriving DecidableEq, Repr

/-- Blend2D `BLMatrix2D`: the six coefficients of an affine transform. -/
structure BLMatrix2D where
  m00 : ℚ
  m01 : ℚ
  m10 : ℚ
  m11 : ℚ
  m20 : ℚ
  m21 : ℚ
deriving DecidableEq, Repr

/-- Blend2D `BLMatrix2D::makeIdentity()`. -/
def BLMatrix2D.makeIdentity : BLMatrix2D :=
  { m00 := 1, m01 := 0, m10 := 0, m11 := 1, m20 := 0, m21 := 0 }

/-- Blend2D `BLExtendMode`, the simple modes. -/
inductive BLExtendMode where
  | BL_EXTEND_MODE_PAD
  | BL_EXTEND_MODE_REPEAT
  | BL_EXTEND_MODE_REFLECT
deriving DecidableEq, Repr

/-- Blend2D `BLGradientType`. -/
inductive BLGradientType where
  | BL_GRADIENT_TYPE_LINEAR
  | BL_GRADIENT_TYPE_RADIAL
  | BL_GRADIENT_TYPE_CONIC
deriving DecidableEq, Repr

/-- Blend2D `BLGradientStop`: an offset and a colour (`BLRgba32` value). -/
structure BLGradientStop where
  offset : ℚ
  rgba : Nat
deriving DecidableEq, Repr

/-- The values a `BLGradient` stores: `linear()` reads `x0, y0, x1, y1`, `radial()` reads
these and `r0`. -/
structure BLGradientValues where
  x0 : ℚ
  y0 : ℚ
  x1 : ℚ
  y1 : ℚ
  r0 : ℚ
deriving DecidableEq, Repr

/-- Blend2D `BLGradient`. -/
structure BLGradient where
  gradientType : BLGradientType
  extendMode : BLExtendMode
  values : BLGradientValues
  stops : List BLGradientStop
  transform : BLMatrix2D
deriving DecidableEq, Repr

namespace BLGradient

/-- The member `hasTransform()`: the transform is not the identity. -/
def hasTransform (g : BLGradient) : Bool :=
  decide (g.transform ≠ BLMatrix2D.makeIdentity)

/-- The member `resetStops()`. -/
def resetStops (g : BLGradient) : BLGradient :=
  { g with stops := [] }

/-- The member `assignStops(stops, n)`, given stops that come out of another gradient. -/
def assignStops (g : BLGradient) (stops : List BLGradientStop) : BLGradient :=
  { g with stops := stops }

/-- The member `setTransform(m)`. -/
def setTransform (g : BLGradient) (m : BLMatrix2D) : BLGradient :=
  { g with transform := m }

/-- The member `setExtendMode(mode)`. -/
def setExtendMode (g : BLGradient) (mode : BLExtendMode) : BLGradient :=
  { g with extendMode := mode }

/-- The member `setValues(const BLLinearGradientValues&)`: it stores `x0, y0, x1, y1`. -/
def setLinearValues (g : BLGradient) (x0 y0 x1 y1 : ℚ) : BLGradient :=
  { g with values := { g.values with x0 := x0, y0 := y0, x1 := x1, y1 := y1 } }

/-- The member `setValues(const BLRadialGradientValues&)`. -/
def setRadialValues (g : BLGradient) (v : BLGradientValues) : BLGradient :=
  { g with values := v }

end BLGradient

/-- Blend2D `BLVar`, as far as gradients use it: empty, or holding a gradient. -/
inductive BLVar where
  | null
  | gradient (g : BLGradient)
deriving DecidableEq, Repr

/-- The member `BLVar::isGradient()`. -/
def BLVar.isGradient : BLVar → Bool
  | BLVar.null => false
  | BLVar.gradient _ => true

/-- The enum `SpaceUnitsKind`: the two coordinate spaces of paint geometry. -/
inductive SpaceUnitsKind where
  | SVG_SPACE_USER
  | SVG_SPACE_OBJECT
deriving DecidableEq, Repr

/-- The unit of an `SVGDimension`: a bare number, or some other unit (percentage, px, em
and so on; the code under study only tests for `SVG_LENGTHTYPE_NUMBER`). -/
inductive SVGLengthKind where
  | SVG_LENGTHTYPE_NUMBER
  | otherUnit (code : Nat)
deriving DecidableEq, Repr

/-- Modelled from the spec: the struct `SVGDimension` of a header that is not among the
sources. Spec §3: a dimension is a numeric value with a unit kind, possibly unset, and is
resolved to pixels only given a reference length and a dpi. The fields are those the
sources read: `value()`, `fUnits`, `isSet()`. -/
structure SVGDimension where
  fValue : ℚ
  fUnits : SVGLengthKind
  fHasValue : Bool
deriving DecidableEq, Repr

/-- The member `SVGDimension::isSet()`. -/
def SVGDimension.isSet (d : SVGDimension) : Bool :=
  d.fHasValue

/-- The member `SVGDimension::value()`. -/
def SVGDimension.value (d : SVGDimension) : ℚ :=
  d.fValue

/-- What the attribute store of a gradient element yields: the bytes of `href` and
`xlink:href` (empty when absent), the dimensions `loadFromChunk` reads from the geometry
attributes, and the results of `getEnumValue` and `parseTransform` on `spreadMethod`,
`gradientUnits` and `gradientTransform` (`none` when the parser reports no value and leaves
its output argument alone). The store does not change after construction. -/
structure GradientAttributes where
  href : List Nat
  xlinkHref : List Nat
  x1 : SVGDimension
  y1 : SVGDimension
  x2 : SVGDimension
  y2 : SVGDimension
  cx : SVGDimension
  cy : SVGDimension
  r : SVGDimension
  fx : SVGDimension
  fy : SVGDimension
  spreadMethod : Option BLExtendMode
  gradientUnits : Option SpaceUnitsKind
  gradientTransform : Option BLMatrix2D
deriving DecidableEq, Repr

/-- The concrete class of a gradient node, which selects its `bindSelfToContext`. -/
inductive GradientKind where
  | linearGradient
  | radialGradient
deriving DecidableEq, Repr

/-- The struct `SVGGradient` with the state of its base class that the sources use: the
attributes and the `needsBinding` flag. -/
structure SVGGradient where
  kind : GradientKind
  attrs : GradientAttributes
  needsBinding : Bool
  fHasGradientTransform : Bool
  fGradientTransform : BLMatrix2D
  fGradient : BLGradient
  fGradientVar : BLVar
  fSpreadMethod : BLExtendMode
  fGradientUnits : SpaceUnitsKind
  fTemplateReference : List Nat
deriving DecidableEq, Repr

/-- The states of the gradients of a document, by node index. -/
abbrev GradientStore := Nat → SVGGradient

/-- The store with the state of one gradient replaced. -/
def GradientStore.set (store : GradientStore) (i : Nat) (g : SVGGradient) : GradientStore :=
  fun j => if j = i then g else store j

/-- What `findNodeByHref` finds and `dynamic_pointer_cast<SVGGradient>` makes of it: a
gradient node, or a node of another class. -/
inductive NodeRef where
  | gradient (index : Nat)
  | otherNode
deriving DecidableEq, Repr

/-- The context of a binding: the rendering context (`objectFrame()`, `viewport()`), the
document root (`dpi()`, `findNodeByHref`, `none` for a null pointer), and the functions of
headers that are not among the sources, taken as parameters: `SVGDimension::calculatePixels
(length, orig, dpi)` and `calculateDistance`. The document root is
present (`resolveReference` dereferences it unconditionally), so `dpi` is `groot->dpi()`.
The flag `skipWhenBound` selects the reading of `bindToContext`. -/
structure BindEnv where
  objectFrame : BLRect
  viewport : BLRect
  dpi : ℚ
  findNodeByHref : List Nat → Option NodeRef
  calculatePixels : SVGDimension → ℚ → ℚ → ℚ → ℚ
  calculateDistance : ℚ → ℚ → ℚ → ℚ
  skipWhenBound : Bool

/-- The constructors `SVGLinearGradient(groot)` and `SVGRadialGradient(groot)` on top of
`SVGGradient(groot)`: extend mode pad, `needsBinding(true)`, the type of the subclass, and
the default member initialisers. -/
def SVGGradient.construct (kind : GradientKind) (attrs : GradientAttributes) : SVGGradient :=
  { kind := kind
    attrs := attrs
    needsBinding := true
    fHasGradientTransform := false
    fGradientTransform := BLMatrix2D.makeIdentity
    fGradient :=
      { gradientType :=
          match kind with
          | GradientKind.linearGradient => BLGradientType.BL_GRADIENT_TYPE_LINEAR
          | GradientKind.radialGradient => BLGradientType.BL_GRADIENT_TYPE_RADIAL
        extendMode := BLExtendMode.BL_EXTEND_MODE_PAD
        values := { x0 := 0, y0 := 0, x1 := 0, y1 := 0, r0 := 0 }
        stops := []
        transform := BLMatrix2D.makeIdentity }
    fGradientVar := BLVar.null
    fSpreadMethod := BLExtendMode.BL_EXTEND_MODE_PAD
    fGradientUnits := SpaceUnitsKind.SVG_SPACE_OBJECT
    fTemplateReference := [] }

/-- The member `SVGGradient::fixupSelfStyleAttributes`. -/
def SVGGradient.fixupSelfStyleAttributes (g : SVGGradient) : SVGGradient :=
  if g.attrs.href ≠ [] then { g with fTemplateReference := g.attrs.href }
  else if g.attrs.xlinkHref ≠ [] then { g with fTemplateReference := g.attrs.xlinkHref }
  else g

/-- The member `SVGGradient::resolveReference`, on the gradient at index `self`. The call
`node->getVariant(ctx, groot)` is the argument `getVariantRec`; `none` means that it does
not return. -/
def SVGGradient.resolveReference (env : BindEnv)
    (getVariantRec : GradientStore → Nat → Option (BLVar × GradientStore))
    (store : GradientStore) (self : Nat) : Option GradientStore :=
  if (store self).fTemplateReference = [] then some store
  else
    match env.findNodeByHref (store self).fTemplateReference with
    | some (NodeRef.gradient gnode) =>
      match getVariantRec store gnode with
      | none => none
      | some (aVar, store1) =>
        let this1 := { store1 self with fGradientUnits := (store1 gnode).fGradientUnits }
        let this2 :=
          match aVar with
          | BLVar.gradient tmpGradient =>
            let g1 := (this1.fGradient.resetStops).assignStops tmpGradient.stops
            let g2 := if tmpGradient.hasTransform then g1.setTransform tmpGradient.transform
              else g1
            { this1 with fGradient := g2 }
          | BLVar.null => this1
        some (store1.set self this2)
    | _ => some store

/-- The object-space pattern that `bindSelfToContext` repeats for x1, y1, x2, y2, cx, cy,
fx and fy: `if (d.isSet()) { if (d.fUnits == SVG_LENGTHTYPE_NUMBER) { if (d.value() <= 1.0)
o + (d.value() * extent); else o + d.value(); } else o + d.calculatePixels(extent, 0, dpi);
} else unset`. -/
def objectCoordinate (env : BindEnv) (d : SVGDimension) (origin extent unset : ℚ) : ℚ :=
  if d.isSet then
    if d.fUnits = SVGLengthKind.SVG_LENGTHTYPE_NUMBER then
      if d.value ≤ 1 then origin + d.value * extent else origin + d.value
    else origin + env.calculatePixels d extent 0 env.dpi
  else unset

/-- The statements of `bindSelfToContext` that read `spreadMethod`, `gradientUnits` and
`gradientTransform`, the same in the linear and the radial gradient. -/
def SVGGradient.readCommonAttributes (g : SVGGradient) : SVGGradient :=
  let a := g.attrs
  let g1 :=
    match a.spreadMethod with
    | some m => { g with fSpreadMethod := m, fGradient := g.fGradient.setExtendMode m }
    | none => g
  let g2 :=
    match a.gradientUnits with
    | some u => { g1 with fGradientUnits := u }
    | none => g1
  match a.gradientTransform with
  | some m => { g2 with fHasGradientTransform := true, fGradientTransform := m }
  | none => { g2 with fHasGradientTransform := false }

/-- The body of `SVGLinearGradient::bindSelfToContext` after `resolveReference`, on the
state of the gradient itself. -/
def SVGLinearGradient.bindSelfLocal (env : BindEnv) (g0 : SVGGradient) : SVGGradient :=
  let a := g0.attrs
  let g := g0.readCommonAttributes
  let values : ℚ × ℚ × ℚ × ℚ :=
    match g.fGradientUnits with
    | SpaceUnitsKind.SVG_SPACE_OBJECT =>
      let w := env.objectFrame.w
      let h := env.objectFrame.h
      let x := env.objectFrame.x
      let y := env.objectFrame.y
      (objectCoordinate env a.x1 x w (x + 0),
       objectCoordinate env a.y1 y h (y + 0),
       objectCoordinate env a.x2 x w (x + w),
       objectCoordinate env a.y2 y h (y + 0))
    | SpaceUnitsKind.SVG_SPACE_USER =>
      let w := env.viewport.w
      let h := env.viewport.h
      (if a.x1.isSet then env.calculatePixels a.x1 w 0 env.dpi else 0,
       if a.y1.isSet then env.calculatePixels a.y1 h 0 env.dpi else 0,
       if a.x2.isSet then env.calculatePixels a.x2 w 0 env.dpi else 0,
       if a.y2.isSet then env.calculatePixels a.y2 h 0 env.dpi else 1)
  let gr := g.fGradient.setLinearValues values.1 values.2.1 values.2.2.1 values.2.2.2
  let gr := if g.fHasGradientTransform then gr.setTransform g.fGradientTransform else gr
  { g with fGradient := gr, fGradientVar := BLVar.gradient gr }

/-- The body of `SVGRadialGradient::bindSelfToContext` after `resolveReference`, on the
state of the gradient itself. -/
def SVGRadialGradient.bindSelfLocal (env : BindEnv) (g0 : SVGGradient) : SVGGradient :=
  let a := g0.attrs
  let g := g0.readCommonAttributes
  let values : BLGradientValues :=
    match g.fGradientUnits with
    | SpaceUnitsKind.SVG_SPACE_OBJECT =>
      let w := env.objectFrame.w
      let h := env.objectFrame.h
      let x := env.objectFrame.x
      let y := env.objectFrame.y
      let x0 := objectCoordinate env a.cx x w (x + w * (1 / 2))
      let y0 := objectCoordinate env a.cy y h (y + h * (1 / 2))
      let r0 :=
        if a.r.isSet then
          if a.r.fUnits = SVGLengthKind.SVG_LENGTHTYPE_NUMBER then
            if a.r.value ≤ 1 then env.calculateDistance (a.r.value * 100) w h
            else a.r.value
          else env.calculatePixels a.r w 0 env.dpi
        else w * (1 / 2)
      let x1 := objectCoordinate env a.fx x w x0
      let y1 := objectCoordinate env a.fy y h y0
      { x0 := x0, y0 := y0, x1 := x1, y1 := y1, r0 := r0 }
    | SpaceUnitsKind.SVG_SPACE_USER =>
      let w := env.viewport.w
      let h := env.viewport.h
      let x0 := env.calculatePixels a.cx w 0 env.dpi
      let y0 := env.calculatePixels a.cy h 0 env.dpi
      let r0 := env.calculatePixels a.r w 0 env.dpi
      let x1 := if a.fx.isSet then env.calculatePixels a.fx w 0 env.dpi else x0
      let y1 := if a.fy.isSet then env.calculatePixels a.fy h 0 env.dpi else y0
      { x0 := x0, y0 := y0, x1 := x1, y1 := y1, r0 := r0 }
  let gr := g.fGradient.setRadialValues values
  { g with fGradient := gr, fGradientVar := BLVar.gradient gr }

/-- The body of the virtual member `bindSelfToContext` after `resolveReference`, selected
by the class of the gradient. -/
def SVGGradient.bindSelfLocal (env : BindEnv) (g : SVGGradient) : SVGGradient :=
  match g.kind with
  | GradientKind.linearGradient => SVGLinearGradient.bindSelfLocal env g
  | GradientKind.radialGradient => SVGRadialGradient.bindSelfLocal env g

/-- The virtual member `bindSelfToContext` of the gradient at index `self`:
`resolveReference` first, then the body of the linear or the radial gradient. -/
def SVGGradient.bindSelfToContext (env : BindEnv)
    (getVariantRec : GradientStore → Nat → Option (BLVar × GradientStore))
    (store : GradientStore) (self : Nat) : Option GradientStore :=
  match SVGGradient.resolveReference env getVariantRec store self with
  | none => none
  | some store1 => some (store1.set self (SVGGradient.bindSelfLocal env (store1 self)))

/-- Modelled from the spec: the member `bindToContext` of the base class
`SVGGraphicsElement`, whose header is not among the sources. Spec §2 and §4.5: the deferred
binding of a node triggers the attribute cascade and the node's own resolution, and "after
a successful bind the node's needsBinding flag clears". The spec does not say whether the
operation first tests the flag; with `env.skipWhenBound` it returns at once for a node
whose flag is clear, without it the node is bound on every call. -/
def SVGGradient.bindToContext (env : BindEnv)
    (getVariantRec : GradientStore → Nat → Option (BLVar × GradientStore))
    (store : GradientStore) (self : Nat) : Option GradientStore :=
  if env.skipWhenBound = true ∧ (store self).needsBinding = false then some store
  else
    let store0 := store.set self (store self).fixupSelfStyleAttributes
    match SVGGradient.bindSelfToContext env getVariantRec store0 self with
    | none => none
    | some store1 => some (store1.set self { store1 self with needsBinding := false })

/-- The body of `SVGGradient::getVariant`: `bindToContext(ctx, groot); needsBinding(true);
BLVar tmpVar{}; tmpVar = fGradient; return tmpVar;`. -/
def SVGGradient.getVariantBody (env : BindEnv)
    (getVariantRec : GradientStore → Nat → Option (BLVar × GradientStore))
    (store : GradientStore) (self : Nat) : Option (BLVar × GradientStore) :=
  match SVGGradient.bindToContext env getVariantRec store self with
  | none => none
  | some store1 =>
    let store2 := store1.set self { store1 self with needsBinding := true }
    some (BLVar.gradient (store2 self).fGradient, store2)

/-- The member `SVGGradient::getVariant`, with fuel for the depth of the nested
`getVariant` calls that `resolveReference` makes. -/
def SVGGradient.getVariant (env : BindEnv) :
    Nat → GradientStore → Nat → Option (BLVar × GradientStore)
  | 0, _, _ => none
  | fuel + 1, store, self =>
    SVGGradient.getVariantBody env (SVGGradient.getVariant env fuel) store self

/-- The member `bindSelfToContext` called on a gradient, its nested `getVariant` calls
running on `fuel`. -/
def SVGGradient.bindSelfToContextN (env : BindEnv) (fuel : Nat) (store : GradientStore)
    (self : Nat) : Option GradientStore :=
  SVGGradient.bindSelfToContext env (SVGGradient.getVariant env fuel) store self

/-- The dimension `loadFromChunk` yields for an attribute that is a bare number `v`. -/
def SVGDimension.bareNumber (v : ℚ) : SVGDimension :=
  { fValue := v, fUnits := SVGLengthKind.SVG_LENGTHTYPE_NUMBER, fHasValue := true }

/-- The dimension `loadFromChunk` yields for an absent attribute: not set. -/
def SVGDimension.unset : SVGDimension :=
  { fValue := 0, fUnits := SVGLengthKind.otherUnit 0, fHasValue := false }

/-- The attribute store of a gradient element without attributes. -/
def GradientAttributes.none : GradientAttributes :=
  { href := [], xlinkHref := [],
    x1 := SVGDimension.unset, y1 := SVGDimension.unset,
    x2 := SVGDimension.unset, y2 := SVGDimension.unset,
    cx := SVGDimension.unset, cy := SVGDimension.unset, r := SVGDimension.unset,
    fx := SVGDimension.unset, fy := SVGDimension.unset,
    spreadMethod := Option.none, gradientUnits := Option.none,
    gradientTransform := Option.none }

/-- A context for examples: the given object frame and id index, an 800 x 600 viewport,
96 dpi, and stand-ins for the two functions that are parameters. -/
def sampleEnv (frame : BLRect) (find : List Nat → Option NodeRef) (skipWhenBound : Bool) :
    BindEnv :=
  { objectFrame := frame
    viewport := { x := 0, y := 0, w := 800, h := 600 }
    dpi := 96
    findNodeByHref := find
    calculatePixels := fun d length _ _ => d.fValue * length / 100
    calculateDistance := fun v w _ => v * w / 100
    skipWhenBound := skipWhenBound }

/-- A store for examples: one linear gradient without stops whose `x1` is the bare number
`v`. -/
def storeWithX1 (v : ℚ) : GradientStore :=
  fun _ => SVGGradient.construct GradientKind.linearGradient
    { GradientAttributes.none with x1 := SVGDimension.bareNumber v }

/-- The gradient a binding of `g` through `bindToContext` asks for its variant: the
gradient node, if any, that `findNodeByHref` finds for the template reference that
`fixupSelfStyleAttributes` leaves in `g`. -/
def refTarget (env : BindEnv) (g : SVGGradient) : Option Nat :=
  if g.fixupSelfStyleAttributes.fTemplateReference = [] then none
  else
    match env.findNodeByHref g.fixupSelfStyleAttributes.fTemplateReference with
    | some (NodeRef.gradient t) => some t
    | _ => none

/-- The id index of the example documents: "#a" is the gradient at index 0 and "#b" the
gradient at index 1; "#rect" is a node that is no gradient. -/
def sampleIndex (href : List Nat) : Option NodeRef :=
  if href = cstr "#a" then some (NodeRef.gradient 0)
  else if href = cstr "#b" then some (NodeRef.gradient 1)
  else if href = cstr "#rect" then some NodeRef.otherNode
  else none

/-- A linear gradient as the loader leaves it: constructed, with the given `href`
attribute and the given stops added. -/
def sampleGradient (href : List Nat) (stops : List BLGradientStop) : SVGGradient :=
  let g := SVGGradient.construct GradientKind.linearGradient
    { GradientAttributes.none with href := href }
  { g with fGradient := { g.fGradient with stops := stops } }

/-- A document in which gradient "a" (one stop of its own) references gradient "b" (two
stops, no reference). -/
def storeAReferencesB : GradientStore :=
  fun i =>
    if i = 0 then sampleGradient (cstr "#b") [{ offset := 0, rgba := 4294901760 }]
    else sampleGradient [] [{ offset := 0, rgba := 4278190335 },
      { offset := 1, rgba := 4278255360 }]

/-- What `resolveReference` makes of the gradient `g` when its template, as bound, is `t`
and the variant returned for it holds the gradient of `t`: the gradientUnits and the stops
of `t`, and the transform of `t` if that is not the identity. -/
def SVGGradient.applyTemplate (g t : SVGGradient) : SVGGradient :=
  { g with
    fGradientUnits := t.fGradientUnits
    fGradient :=
      if t.fGradient.hasTransform then
        ((g.fGradient.resetStops).assignStops t.fGradient.stops).setTransform
          t.fGradient.transform
      else (g.fGradient.resetStops).assignStops t.fGradient.stops }

/-- One step along template references: binding gradient `i` asks gradient `j` for its
variant. -/
def RefStep (env : BindEnv) (store : GradientStore) (i j : Nat) : Prop :=
  refTarget env (store i) = some j

/-- The gradients reached from a gradient along template references. -/
def Reaches (env : BindEnv) (store : GradientStore) : Nat → Nat → Prop :=
  Relation.ReflTransGen (RefStep env store)

/-- The state of a document after construction and the attribute pass: every gradient
holds the template reference its attributes name (`fixupSelfStyleAttributes` changes
nothing), and, under the reading of `bindToContext` that skips bound nodes, every gradient
is marked as needing binding (as the constructor and `getVariant` leave it). -/
def WellFormedStore (env : BindEnv) (store : GradientStore) : Prop :=
  ∀ i, (store i).fixupSelfStyleAttributes = store i ∧
    (env.skipWhenBound = true → (store i).needsBinding = true)

/-- The reference chain that starts at gradient `b` ends within `n` gradients: following
the template references from `b`, a gradient that references no gradient is reached after
fewer than `n` steps. -/
def refChainEnds (env : BindEnv) (store : GradientStore) : Nat → Nat → Bool
  | 0, _ => false
  | n + 1, b =>
    match refTarget env (store b) with
    | none => true
    | some c => refChainEnds env store n c

/-- The context of the example documents: the object frame (10, 20, 200, 100) and the id
index `sampleIndex`. -/
def sampleBindEnv (skipWhenBound : Bool) : BindEnv :=
  sampleEnv { x := 10, y := 20, w := 200, h := 100 } sampleIndex skipWhenBound

/-- The document `storeAReferencesB` after the attribute pass: every gradient holds the
template reference that its `href` names. -/
def storeAReferencesBFixed : GradientStore :=
  fun i => (storeAReferencesB i).fixupSelfStyleAttributes

/-! ## Skipping, trimming, searching and bracketed values (`bspan.h`) -/

/-- The function `chunk_skip(ByteSpan& dc, size_t n)`: the span `dc` left behind. -/
def chunk_skip (dc : ByteSpan) (n : Nat) : ByteSpan :=
  let n := if n > dc.size then dc.size else n
  { dc with fStart := dc.fStart + n }

/-- The loop `while (start < end && skippable(*start)) ++start;` of `chunk_ltrim` and
`chunk_trim`, run for at most `fuel` rounds; it yields the final `start`. -/
def ltrimLoop (mem : Memory) (skippable : Nat → Bool) (stop : Nat) : Nat → Nat → Nat
  | 0, start => start
  | fuel + 1, start =>
    if start < stop ∧ skippable (mem start) = true then
      ltrimLoop mem skippable stop fuel (start + 1)
    else start

/-- The loop `while (start < end && skippable(*(end - 1))) --end;` of `chunk_rtrim` and
`chunk_trim`, run for at most `fuel` rounds; it yields the final `end`. -/
def rtrimLoop (mem : Memory) (skippable : Nat → Bool) (start : Nat) : Nat → Nat → Nat
  | 0, stop => stop
  | fuel + 1, stop =>
    if start < stop ∧ skippable (mem (stop - 1)) = true then
      rtrimLoop mem skippable start fuel (stop - 1)
    else stop

/-- The function `chunk_ltrim(a, skippable)`. -/
def chunk_ltrim (mem : Memory) (a : ByteSpan) (skippable : Nat → Bool) : ByteSpan :=
  { fStart := ltrimLoop mem skippable a.fEnd a.size a.fStart, fEnd := a.fEnd }

/-- The function `chunk_rtrim(a, skippable)`. -/
def chunk_rtrim (mem : Memory) (a : ByteSpan) (skippable : Nat → Bool) : ByteSpan :=
  { fStart := a.fStart, fEnd := rtrimLoop mem skippable a.fStart a.size a.fEnd }

/-- The function `chunk_trim(a, skippable)`: the left loop, then the right loop against the
new `start`. -/
def chunk_trim (mem : Memory) (a : ByteSpan) (skippable : Nat → Bool) : ByteSpan :=
  let start := ltrimLoop mem skippable a.fEnd a.size a.fStart
  { fStart := start, fEnd := rtrimLoop mem skippable start a.size a.fEnd }

/-- The function `chunk_find_char(a, c)`: the loop `while (start < end && *start != c)
++start;` is the scan of `chunk_token_char` (the byte and the `char` compare as `int`), and
the result is `{ start, end }`. -/
def chunk_find_char (mem : Memory) (a : ByteSpan) (c : Int) : ByteSpan :=
  { fStart := tokenEndLoop mem (isDelimChar c) a.fEnd a.size a.fStart, fEnd := a.fEnd }

/-- The loop `while (src && *src != rbracket) src++;` of `chunk_read_bracketed`, run for at
most `fuel` rounds. -/
def bracketLoop (mem : Memory) (rbracket : Nat) : Nat → ByteSpan → ByteSpan
  | 0, src => src
  | fuel + 1, src =>
    if src.toBool = true ∧ src.peek mem ≠ rbracket then bracketLoop mem rbracket fuel src.inc
    else src

/-- The function `chunk_read_bracketed(ByteSpan& src, lbracket, rbracket)`: the span
returned and the span `src` left behind. The whitespace set `chrWspChars` belongs to
`charset.h`, a header that is not among the sources, and is an argument here. The local
`endattrValue` starts as `nullptr` and is assigned only when the closing bracket is found. -/
def chunk_read_bracketed (mem : Memory) (chrWspChars : Nat → Bool) (src : ByteSpan)
    (lbracket rbracket : Nat) : ByteSpan × ByteSpan :=
  let src1 := chunk_ltrim mem src chrWspChars
  if src1.toBool = false ∨ src1.peek mem ≠ lbracket then (ByteSpan.null, src1)
  else
    let src2 := src1.inc
    let beginattrValue := src2.fStart
    let src3 := bracketLoop mem rbracket src2.size src2
    if src3.toBool = true then
      ({ fStart := beginattrValue, fEnd := src3.fStart }, src3.inc)
    else
      ({ fStart := beginattrValue, fEnd := 0 }, src3)

/-- The span `b` is well formed and lies within the range of the span `a`. -/
def ByteSpan.Within (a b : ByteSpan) : Prop :=
  a.fStart ≤ b.fStart ∧ b.fStart ≤ b.fEnd ∧ b.fEnd ≤ a.fEnd

instance (a b : ByteSpan) : Decidable (ByteSpan.Within a b) := by
  unfold ByteSpan.Within; infer_instance

/-- A whitespace set for the examples: space, tab, line feed, form feed, carriage return
and vertical tab. -/
def sampleWsp (c : Nat) : Bool :=
  c == 32 || c == 9 || c == 10 || c == 12 || c == 13 || c == 11

/-! ## Gradient stops (`svggradient.h`)

* The stop element is seen through what `SVGStopNode::loadFromXmlElement` reads from it;
  attribute scanning, `SVGDimension::loadFromChunk` and `SVGPaint` belong to headers that
  are not among the sources.
* `BLGradient::addStop` is Blend2D's; what it makes of the stop list is a parameter of the
  loader (`LoadEnv.addStop`).
-/

/-- The struct `XmlElement`, as the gradient loader sees a self-closing child: its name,
the dimension `loadFromChunk` yields for its `offset` attribute, the dimension it yields
for `stop-opacity` (for "1.0" when the attribute is absent), and the colour value that
`blVarToRgba32` reads from the paint loaded from `stop-color` (from "black" when the
attribute is absent) once `setOpacity` has been given the opacity. -/
structure XmlElement where
  name : List Nat
  stopOffset : SVGDimension
  stopOpacity : SVGDimension
  stopColor : ℚ → Nat

/-- The struct `SVGStopNode`. -/
structure SVGStopNode where
  fOffset : ℚ
  fOpacity : ℚ
  fColor : Nat
deriving DecidableEq, Repr

/-- The constructor `SVGStopNode()`: offset 0, opacity 1, colour `0xff000000`. -/
def SVGStopNode.construct : SVGStopNode :=
  { fOffset := 0, fOpacity := 1, fColor := 4278190080 }

/-- What loading needs from outside the sources: `SVGDimension::calculatePixels(length,
orig, dpi)` and Blend2D's `BLGradient::addStop(offset, rgba32)`. -/
structure LoadEnv where
  calculatePixels : SVGDimension → ℚ → ℚ → ℚ → ℚ
  addStop : BLGradient → ℚ → Nat → BLGradient

/-- The member `SVGStopNode::loadFromXmlElement`. The calls `dim.calculatePixels(1)` use
the default arguments of a declaration that is not among the sources; they are taken to be
those every other caller passes, `orig = 0` and `dpi = 96`. -/
def SVGStopNode.loadFromXmlElement (env : LoadEnv) (elem : XmlElement) : SVGStopNode :=
  let node := SVGStopNode.construct
  let node :=
    if elem.stopOffset.isSet then
      { node with fOffset := env.calculatePixels elem.stopOffset 1 0 96 }
    else node
  let node :=
    if elem.stopOpacity.isSet then
      { node with fOpacity := env.calculatePixels elem.stopOpacity 1 0 96 }
    else node
  { node with fColor := elem.stopColor node.fOpacity }

/-- The member `SVGGradient::loadSelfClosingNode`. -/
def SVGGradient.loadSelfClosingNode (env : LoadEnv) (g : SVGGradient) (elem : XmlElement) :
    SVGGradient :=
  if elem.name ≠ cstr "stop" then g
  else
    let stopnode := SVGStopNode.loadFromXmlElement env elem
    { g with fGradient := env.addStop g.fGradient stopnode.fOffset stopnode.fColor }

/-- Modelled from the spec: the loop of the base class `SVGGraphicsElement` (its header is
not among the sources) that hands the children of an element to the `load...Node` members.
Spec §4.3: "Construction order is document order; children are appended to the parent in
traversal order". Here it is run over the self-closing children of a gradient element. -/
def SVGGradient.loadSelfClosingNodes (env : LoadEnv) (g : SVGGradient)
    (children : List XmlElement) : SVGGradient :=
  children.foldl (SVGGradient.loadSelfClosingNode env) g

/-- The stop that `loadSelfClosingNode` passes to `addStop` for a child. -/
def XmlElement.stop (env : LoadEnv) (elem : XmlElement) : BLGradientStop :=
  { offset := (SVGStopNode.loadFromXmlElement env elem).fOffset
    rgba := (SVGStopNode.loadFromXmlElement env elem).fColor }

/-- The unit kind of a percentage (`SVG_LENGTHTYPE_PERCENTAGE`, 2 in the SVG DOM). -/
def SVGLengthKind.SVG_LENGTHTYPE_PERCENTAGE : SVGLengthKind :=
  SVGLengthKind.otherUnit 2

/-- Modelled from the spec: the member `SVGDimension::calculatePixels(length, orig, dpi)`
of a header that is not among the sources. Spec §4.7: "A dimension resolves to pixels
given a reference length [...] and the ambient DPI" and "Percentage units always resolve
against the corresponding axis of whichever reference rectangle is active". A percentage
is that share of the reference length from the origin; a bare number is its own value.
The other unit kinds do not occur in the examples and are given their numeric value. -/
def SVGDimension.calculatePixels (d : SVGDimension) (length orig _dpi : ℚ) : ℚ :=
  match d.fUnits with
  | SVGLengthKind.SVG_LENGTHTYPE_NUMBER => d.fValue
  | SVGLengthKind.otherUnit 2 => orig + d.fValue / 100 * length
  | SVGLengthKind.otherUnit _ => d.fValue

/-- The dimension `loadFromChunk` yields for an attribute that is the percentage `v%`. -/
def SVGDimension.percentage (v : ℚ) : SVGDimension :=
  { fValue := v, fUnits := SVGLengthKind.SVG_LENGTHTYPE_PERCENTAGE, fHasValue := true }

/-- A loader for the examples: `calculatePixels` as modelled from the spec, and an
`addStop` that appends the stop to the list. -/
def sampleLoadEnv : LoadEnv :=
  { calculatePixels := SVGDimension.calculatePixels
    addStop := fun g offset rgba =>
      { g with stops := g.stops ++ [{ offset := offset, rgba := rgba }] } }

/-- A self-closing child for the examples: the given name and offset, full opacity, and a
colour that does not depend on the opacity. -/
def sampleElement (name : String) (offset : SVGDimension) (rgba : Nat) : XmlElement :=
  { name := cstr name
    stopOffset := offset
    stopOpacity := SVGDimension.bareNumber 1
    stopColor := fun _ => rgba }

/-- A linear gradient in user space for the examples: `gradientUnits="userSpaceOnUse"`,
`x1="10"`, `x2="50"` (bare numbers), `y1` and `y2` absent. -/
def sampleUserSpaceGradient : SVGGradient :=
  SVGGradient.construct GradientKind.linearGradient
    { GradientAttributes.none with
      x1 := SVGDimension.bareNumber 10
      x2 := SVGDimension.bareNumber 50
      gradientUnits := some SpaceUnitsKind.SVG_SPACE_USER }

/-- A context for the examples: the given object frame and viewport, 96 dpi, and
`calculatePixels` as modelled from the spec. -/
def sampleViewEnv (frame viewport : BLRect) : BindEnv :=
  { objectFrame := frame
    viewport := viewport
    dpi := 96
    findNodeByHref := fun _ => none
    calculatePixels := SVGDimension.calculatePixels
    calculateDistance := fun v w _ => v * w / 100
    skipWhenBound := false }

/-! ## Text (`svgtext.h`)

* Font shaping and metrics are Blend2D's: a `BLFont` is embedded as what text measurement
  reads from it, the width of the bounding box of a shaped text, the ascent and the descent.
  The narrowing of the measures to `float` in `textMeasure` is not modelled.
* A text is the list of its bytes.
* The rendering context records the font it was given and the texts it was asked to draw.
* A child node that is a `tspan` is represented by what `textCursor(pos); draw(ctx, groot);
  textCursor()` does to the context and the cursor: its `draw` runs `visible()` and
  `applyAttributes` of base classes that are not among the sources.
-/

/-- The enum `ALIGNMENT` of `graphics.h`. -/
inductive ALIGNMENT where
  | CENTER
  | LEFT
  | RIGHT
  | TOP
  | BASELINE
  | BOTTOM
  | MIDLINE
deriving DecidableEq, Repr

/-- The enum `DOMINANTBASELINE`. -/
inductive DOMINANTBASELINE where
  | AUTO
  | ALPHABETIC
  | CENTRAL
  | HANGING
  | IDEOGRAPHIC
  | MATHEMATICAL
  | MIDDLE
  | NO_CHANGE
  | RESET_SIZE
  | TEXT_AFTER_EDGE
  | TEXT_BEFORE_EDGE
  | TEXT_BOTTOM
  | TEXT_TOP
  | USE_SCRIPT
deriving DecidableEq, Repr

/-- Blend2D `BLPoint`. -/
structure BLPoint where
  x : ℚ
  y : ℚ
deriving DecidableEq, Repr

/-- Blend2D `BLFont`, as far as `textMeasure` and `descent` read it: the width
`boundingBox.x1 - boundingBox.x0` of the metrics of a shaped text, and the ascent and the
descent of the font metrics. -/
structure BLFont where
  textWidth : List Nat → ℚ
  ascent : ℚ
  descent : ℚ

/-- The struct `SVGFontSelection`, with the members that text positioning reads: the font
and the `isSet` flag of the base class. -/
structure SVGFontSelection where
  fFont : BLFont
  fIsSet : Bool

namespace SVGFontSelection

/-- The member `isSet()` of the base class. -/
def isSet (fs : SVGFontSelection) : Bool :=
  fs.fIsSet

/-- The member `font(const BLFont&)`: `fFont = aFont; set(true);`. -/
def font (fs : SVGFontSelection) (aFont : BLFont) : SVGFontSelection :=
  { fs with fFont := aFont, fIsSet := true }

/-- The member `descent()`. -/
def descent (fs : SVGFontSelection) : ℚ :=
  fs.fFont.descent

/-- The member `textMeasure(txt)`: the width of the shaped text, and the ascent plus the
descent of the font. -/
def textMeasure (fs : SVGFontSelection) (txt : List Nat) : BLPoint :=
  { x := fs.fFont.textWidth txt, y := fs.fFont.ascent + fs.fFont.descent }

/-- The member `emHeight()`: the height of the measure of "M". -/
def emHeight (fs : SVGFontSelection) : ℚ :=
  (fs.textMeasure (cstr "M")).y

/-- The member `exHeight()`: the height of the measure of "x". -/
def exHeight (fs : SVGFontSelection) : ℚ :=
  (fs.textMeasure (cstr "x")).y

/-- The member `calcTextPosition(txt, x, y, hAlignment, vAlignment, baseline)`. -/
def calcTextPosition (fs : SVGFontSelection) (txt : List Nat) (x y : ℚ)
    (hAlignment vAlignment : ALIGNMENT) (baseline : DOMINANTBASELINE) : BLRect :=
  let txtSize := fs.textMeasure txt
  let cx := txtSize.x
  let cy := txtSize.y
  let x :=
    match hAlignment with
    | ALIGNMENT.LEFT => x
    | ALIGNMENT.CENTER => x - cx / 2
    | ALIGNMENT.RIGHT => x - cx
    | _ => x
  let y :=
    match vAlignment with
    | ALIGNMENT.TOP => y + cy - fs.descent
    | ALIGNMENT.CENTER => y + cy / 2
    | ALIGNMENT.MIDLINE => y
    | ALIGNMENT.BASELINE => y
    | ALIGNMENT.BOTTOM => y - fs.descent
    | _ => y
  let y :=
    match baseline with
    | DOMINANTBASELINE.HANGING => y + fs.emHeight
    | DOMINANTBASELINE.CENTRAL => y + fs.exHeight / 2
    | DOMINANTBASELINE.MIDDLE => y + fs.exHeight / 2
    | _ => y
  { x := x, y := y, w := cx, h := cy }

end SVGFontSelection

/-- A call `ctx->text(txt, x, y)`. -/
structure DrawnText where
  text : List Nat
  x : ℚ
  y : ℚ
deriving DecidableEq, Repr

/-- The rendering context `IRenderSVG`, as far as text drawing uses it: the current font
and the calls of `text` so far, in order. -/
structure RenderCtx where
  font : BLFont
  texts : List DrawnText

/-- The member `SVGFontSelection::draw`: `if (isSet()) ctx->font(fFont);`. -/
def SVGFontSelection.draw (fs : SVGFontSelection) (ctx : RenderCtx) : RenderCtx :=
  if fs.isSet then { ctx with font := fs.fFont } else ctx

/-- The call `ctx->text(txt, x, y)`. -/
def RenderCtx.text (ctx : RenderCtx) (txt : List Nat) (x y : ℚ) : RenderCtx :=
  { ctx with texts := ctx.texts ++ [{ text := txt, x := x, y := y }] }

/-- The function `parseTextAnchor(inChunk, value)`: whether the keyword is recognised, and
the value afterwards. The chunk is given by its bytes; `inChunk == "start"` compares the
size and the bytes. -/
def parseTextAnchor (inChunk : List Nat) (value : ALIGNMENT) : Bool × ALIGNMENT :=
  if inChunk = cstr "start" then (true, ALIGNMENT.LEFT)
  else if inChunk = cstr "middle" then (true, ALIGNMENT.CENTER)
  else if inChunk = cstr "end" then (true, ALIGNMENT.RIGHT)
  else (false, value)

/-- The function `parseTextAlign(inChunk, value)`. -/
def parseTextAlign (inChunk : List Nat) (value : ALIGNMENT) : Bool × ALIGNMENT :=
  if inChunk = cstr "start" then (true, ALIGNMENT.LEFT)
  else if inChunk = cstr "middle" then (true, ALIGNMENT.CENTER)
  else if inChunk = cstr "end" then (true, ALIGNMENT.RIGHT)
  else (false, value)

/-- The function `parseDominantBaseline(inChunk, value)`. -/
def parseDominantBaseline (inChunk : List Nat) (value : DOMINANTBASELINE) :
    Bool × DOMINANTBASELINE :=
  if inChunk = cstr "auto" then (true, DOMINANTBASELINE.AUTO)
  else if inChunk = cstr "alphabetic" then (true, DOMINANTBASELINE.ALPHABETIC)
  else if inChunk = cstr "central" then (true, DOMINANTBASELINE.CENTRAL)
  else if inChunk = cstr "hanging" then (true, DOMINANTBASELINE.HANGING)
  else if inChunk = cstr "ideographic" then (true, DOMINANTBASELINE.IDEOGRAPHIC)
  else if inChunk = cstr "mathematical" then (true, DOMINANTBASELINE.MATHEMATICAL)
  else if inChunk = cstr "middle" then (true, DOMINANTBASELINE.MIDDLE)
  else if inChunk = cstr "no-change" then (true, DOMINANTBASELINE.NO_CHANGE)
  else if inChunk = cstr "reset-size" then (true, DOMINANTBASELINE.RESET_SIZE)
  else if inChunk = cstr "text-after-edge" then (true, DOMINANTBASELINE.TEXT_AFTER_EDGE)
  else if inChunk = cstr "text-before-edge" then (true, DOMINANTBASELINE.TEXT_BEFORE_EDGE)
  else if inChunk = cstr "text-bottom" then (true, DOMINANTBASELINE.TEXT_BOTTOM)
  else if inChunk = cstr "text-top" then (true, DOMINANTBASELINE.TEXT_TOP)
  else if inChunk = cstr "use-script" then (true, DOMINANTBASELINE.USE_SCRIPT)
  else (false, value)

/-- What the attribute store of a `text` or `tspan` element yields to `resolvePosition`:
the dimensions `loadFromChunk` reads from `x`, `y`, `dx` and `dy`, and the bytes of
`text-anchor`, `text-align` and `dominant-baseline` (empty when absent). -/
structure TSpanAttributes where
  x : SVGDimension
  y : SVGDimension
  dx : SVGDimension
  dy : SVGDimension
  textAnchor : List Nat
  textAlign : List Nat
  dominantBaseline : List Nat
deriving DecidableEq, Repr

/-- The attribute store of an element without attributes. -/
def TSpanAttributes.none : TSpanAttributes :=
  { x := SVGDimension.unset, y := SVGDimension.unset,
    dx := SVGDimension.unset, dy := SVGDimension.unset,
    textAnchor := [], textAlign := [], dominantBaseline := [] }

/-- A child node of a text container: an `SVGTextRun` with its text, an `SVGTSpanNode`
with the effect of setting its cursor, drawing it and reading its cursor back, or a node of
another class. -/
inductive TextChild where
  | textRun (text : List Nat)
  | tspanNode (draw : RenderCtx → BLPoint → RenderCtx × BLPoint)
  | otherNode

/-- The struct `SVGTSpanNode`: its members, and the attributes and the child nodes
`fNodes` of its base class. -/
structure SVGTSpanNode where
  attrs : TSpanAttributes
  fTextCursor : BLPoint
  fTextHAlignment : ALIGNMENT
  fTextVAlignment : ALIGNMENT
  fDominantBaseline : DOMINANTBASELINE
  fFontSelection : SVGFontSelection
  fX : ℚ
  fY : ℚ
  fDx : ℚ
  fDy : ℚ
  fDimX : SVGDimension
  fDimY : SVGDimension
  fDimDy : SVGDimension
  fDimDx : SVGDimension
  fNodes : List TextChild

/-- What `resolvePosition` takes from its arguments and from headers that are not among
the sources: the frame of the container (`none` for a null pointer),
`SVGDimension::calculatePixels`, and what `fFontSelection.loadFromXmlAttributes` followed by
`fFontSelection.bindToGroot` make of the font selection. The local `dpi` that the function
reads from the document root is not used: every `calculatePixels` call passes 96. -/
structure TextEnv where
  containerFrame : Option BLRect
  calculatePixels : SVGDimension → ℚ → ℚ → ℚ → ℚ
  loadFont : SVGFontSelection → SVGFontSelection

/-- The member `SVGTSpanNode::resolvePosition`. -/
def SVGTSpanNode.resolvePosition (env : TextEnv) (n : SVGTSpanNode) : SVGTSpanNode :=
  let w : ℚ := match env.containerFrame with
    | some cFrame => cFrame.w
    | none => 1
  let h : ℚ := match env.containerFrame with
    | some cFrame => cFrame.h
    | none => 1
  let n := { n with
    fDimX := n.attrs.x, fDimY := n.attrs.y, fDimDy := n.attrs.dy, fDimDx := n.attrs.dx }
  let n := { n with fX := n.fTextCursor.x, fY := n.fTextCursor.y }
  let n := if n.fDimX.isSet then { n with fX := env.calculatePixels n.fDimX w 0 96 } else n
  let n := if n.fDimY.isSet then { n with fY := env.calculatePixels n.fDimY h 0 96 } else n
  let n := if n.fDimDx.isSet then { n with fDx := env.calculatePixels n.fDimDx w 0 96 } else n
  let n := if n.fDimDy.isSet then { n with fDy := env.calculatePixels n.fDimDy h 0 96 } else n
  let n := { n with fTextCursor := { x := n.fX + n.fDx, y := n.fY + n.fDy } }
  let n := { n with
    fTextHAlignment := (parseTextAnchor n.attrs.textAnchor n.fTextHAlignment).2 }
  let n := { n with
    fTextVAlignment := (parseTextAlign n.attrs.textAlign n.fTextVAlignment).2 }
  let n := { n with
    fDominantBaseline := (parseDominantBaseline n.attrs.dominantBaseline n.fDominantBaseline).2 }
  { n with fFontSelection := env.loadFont n.fFontSelection }

/-- The body of the loop of `SVGTSpanNode::drawChildren` for one child, on the context and
the text cursor. -/
def SVGTSpanNode.drawChild (fs : SVGFontSelection) (hAlignment vAlignment : ALIGNMENT)
    (baseline : DOMINANTBASELINE) (state : RenderCtx × BLPoint) (node : TextChild) :
    RenderCtx × BLPoint :=
  match node with
  | TextChild.textRun text =>
    let pRect := fs.calcTextPosition text state.2.x state.2.y hAlignment vAlignment baseline
    let ctx := fs.draw state.1
    let ctx := ctx.text text pRect.x pRect.y
    (ctx, { state.2 with x := state.2.x + pRect.w })
  | TextChild.tspanNode draw => draw state.1 state.2
  | TextChild.otherNode => state

/-- The member `SVGTSpanNode::drawChildren`: the context and the node afterwards. -/
def SVGTSpanNode.drawChildren (ctx : RenderCtx) (n : SVGTSpanNode) :
    RenderCtx × SVGTSpanNode :=
  let fs := if n.fFontSelection.isSet = false then n.fFontSelection.font ctx.font
    else n.fFontSelection
  let cursor := n.fTextCursor
  let cursor := if n.fDimX.isSet then { cursor with x := n.fX } else cursor
  let cursor := if n.fDimY.isSet then { cursor with y := n.fY } else cursor
  let state := n.fNodes.foldl
    (SVGTSpanNode.drawChild fs n.fTextHAlignment n.fTextVAlignment n.fDominantBaseline)
    (ctx, cursor)
  (state.1, { n with fFontSelection := fs, fTextCursor := state.2 })

/-- The constructor `SVGTSpanNode(groot)` with the default member initialisers, for a node
with the given attributes, font selection and child nodes. -/
def SVGTSpanNode.construct (attrs : TSpanAttributes) (fs : SVGFontSelection)
    (nodes : List TextChild) : SVGTSpanNode :=
  { attrs := attrs
    fTextCursor := { x := 0, y := 0 }
    fTextHAlignment := ALIGNMENT.LEFT
    fTextVAlignment := ALIGNMENT.BASELINE
    fDominantBaseline := DOMINANTBASELINE.AUTO
    fFontSelection := fs
    fX := 0
    fY := 0
    fDx := 0
    fDy := 0
    fDimX := SVGDimension.unset
    fDimY := SVGDimension.unset
    fDimDy := SVGDimension.unset
    fDimDx := SVGDimension.unset
    fNodes := nodes }

/-- A font for the examples: every byte is 6 wide, the ascent is 10 and the descent 3. -/
def sampleFont : BLFont :=
  { textWidth := fun txt => 6 * txt.length, ascent := 10, descent := 3 }

/-- A context for the examples: a container frame of 800 x 600, `calculatePixels` as
modelled from the spec, and a font selection that the attributes leave as it is. -/
def sampleTextEnv : TextEnv :=
  { containerFrame := some { x := 0, y := 0, w := 800, h := 600 }
    calculatePixels := SVGDimension.calculatePixels
    loadFont := fun fs => fs }

/-- The anchors of consecutive runs: the cursor on entry, then the cursor advanced by the
width of each run in turn. -/
def runAnchors (width : List Nat → ℚ) : ℚ → List (List Nat) → List ℚ
  | _, [] => []
  | x, txt :: rest => x :: runAnchors width (x + width txt) rest

/-! ## Parsing and tokenising loops -/

/-- One round of the loop of `chunk_to_u64`: `v = v * 10 + (uint64_t)(*s - '0')` in
`uint64_t` arithmetic. -/
def u64Step (v d : Nat) : Nat :=
  (v * 10 + (d - 48)) % SIZE_MOD

/-- The caller's loop `while (a) { chunk_token(a, delims); }`, run for at most `fuel` calls:
the number of calls made and the span left when the loop stops, `none` when the fuel does
not suffice. -/
def tokenizeLoop (mem : Memory) (delims : Nat → Bool) : Nat → ByteSpan → Option (Nat × ByteSpan)
  | 0, a => if a.toBool = true then none else some (0, a)
  | fuel + 1, a =>
    if a.toBool = true then
      match tokenizeLoop mem delims fuel (chunk_token mem a delims).2 with
      | none => none
      | some (k, final) => some (k + 1, final)
    else some (0, a)

/-! ## Keywords and children of a text container (`svgtext.h`) -/

/-- The 14 keywords of the `dominant-baseline` attribute. -/
def dominantBaselineKeywords : List (List Nat) :=
  [cstr "auto", cstr "alphabetic", cstr "central", cstr "hanging", cstr "ideographic",
    cstr "mathematical", cstr "middle", cstr "no-change", cstr "reset-size",
    cstr "text-after-edge", cstr "text-before-edge", cstr "text-bottom", cstr "text-top",
    cstr "use-script"]

/-- The chain of comparisons of `parseDominantBaseline`, over any 14 keywords. -/
def dominantBaselineChain (inChunk : List Nat) (k0 k1 k2 k3 k4 k5 k6 k7 k8 k9 k10 k11 k12 k13 : List Nat)
    (value : DOMINANTBASELINE) : Bool × DOMINANTBASELINE :=
  if inChunk = k0 then (true, DOMINANTBASELINE.AUTO)
  else if inChunk = k1 then (true, DOMINANTBASELINE.ALPHABETIC)
  else if inChunk = k2 then (true, DOMINANTBASELINE.CENTRAL)
  else if inChunk = k3 then (true, DOMINANTBASELINE.HANGING)
  else if inChunk = k4 then (true, DOMINANTBASELINE.IDEOGRAPHIC)
  else if inChunk = k5 then (true, DOMINANTBASELINE.MATHEMATICAL)
  else if inChunk = k6 then (true, DOMINANTBASELINE.MIDDLE)
  else if inChunk = k7 then (true, DOMINANTBASELINE.NO_CHANGE)
  else if inChunk = k8 then (true, DOMINANTBASELINE.RESET_SIZE)
  else if inChunk = k9 then (true, DOMINANTBASELINE.TEXT_AFTER_EDGE)
  else if inChunk = k10 then (true, DOMINANTBASELINE.TEXT_BEFORE_EDGE)
  else if inChunk = k11 then (true, DOMINANTBASELINE.TEXT_BOTTOM)
  else if inChunk = k12 then (true, DOMINANTBASELINE.TEXT_TOP)
  else if inChunk = k13 then (true, DOMINANTBASELINE.USE_SCRIPT)
  else (false, value)

/-- What the element iterator stands on inside a text container: text content with its
data, a self-closing element, or the start tag of a compound element together with its
subtree up to the matching end tag. An iterator is the list of what is still to come. -/
inductive XmlChild where
  | content (data : List Nat)
  | selfClosing (tagName : List Nat) (data : List Nat)
  | compound (tagName : List Nat) (subtree : List Nat)
deriving DecidableEq, Repr

/-- The member `tagName()` of the element (empty for text content). -/
def XmlChild.tagName : XmlChild → List Nat
  | XmlChild.content _ => []
  | XmlChild.selfClosing tagName _ => tagName
  | XmlChild.compound tagName _ => tagName

/-- The member `data()` of the element. -/
def XmlChild.data : XmlChild → List Nat
  | XmlChild.content data => data
  | XmlChild.selfClosing _ data => data
  | XmlChild.compound _ subtree => subtree

/-- The class of a child node, as `dynamic_pointer_cast` tells it. -/
inductive TextChildKind where
  | textRun
  | tspanNode
  | otherNode
deriving DecidableEq, Repr

/-- The class of a child node. -/
def TextChild.kind : TextChild → TextChildKind
  | TextChild.textRun _ => TextChildKind.textRun
  | TextChild.tspanNode _ => TextChildKind.tspanNode
  | TextChild.otherNode => TextChildKind.otherNode

/-- A node as it is handed to `addNode`: the child it would be, and what its member
`isStructural()` returns. -/
structure LoadedNode where
  node : TextChild
  isStructural : Bool

/-- What loading the children of a text container takes from outside the sources: the
registry `gSVGGraphicsElementCreation` (the factory registered under a tag name, as the
node it builds from the iterator, `none` for a tag without a factory), the drawing effect
of the `SVGTSpanNode` that `loadFromXmlElement` or `loadFromXmlIterator` builds from an
element, and two facts of the base class, whose header is not among the sources: what
`isStructural()` returns for a node whose constructor does not set the flag
(`structuralByDefault`), and whether `addNode` leaves out a node whose `isStructural()`
is false (`addNodeTestsStructural`). -/
structure TextLoadEnv where
  factory : List Nat → Option (XmlChild → LoadedNode)
  tspanDraw : XmlChild → RenderCtx → BLPoint → RenderCtx × BLPoint
  structuralByDefault : Bool
  addNodeTestsStructural : Bool

/-- Modelled from the spec: the member `addNode` of the base class `SVGGraphicsElement`,
whose header is not among the sources. Spec §4.3: "children are appended to the parent in
traversal order". The sources mark the nodes of some classes with `isStructural(false)`
(`SVGFontNode`, `SVGGradient`); with `env.addNodeTestsStructural` such a node is not
appended, without it every node is. -/
def SVGTSpanNode.addNode (env : TextLoadEnv) (n : SVGTSpanNode) (node : LoadedNode) :
    SVGTSpanNode :=
  if env.addNodeTestsStructural = true ∧ node.isStructural = false then n
  else { n with fNodes := n.fNodes ++ [node.node] }

/-- Modelled from the spec: the member `loadCompoundNode` of the base class
`SVGGraphicsElement`, whose header is not among the sources. Spec §4.3: compound kinds
"recursively consume a sub-iterator"; "Dispatch is by exact, case-sensitive tag-name match
against the registry; unknown tags are skipped (their subtree is still walked to reach the
following sibling) and produce no node"; "children are appended to the parent in traversal
order". It returns the node and the iterator left. -/
def SVGGraphicsElement.loadCompoundNode (env : TextLoadEnv) (n : SVGTSpanNode)
    (iter : List XmlChild) : SVGTSpanNode × List XmlChild :=
  match iter with
  | [] => (n, [])
  | elem :: rest =>
    match env.factory elem.tagName with
    | some build => (n.addNode env (build elem), rest)
    | none => (n, rest)

/-- The member `SVGTSpanNode::loadContentNode`: a text run with the data of the element is
created and handed to `addNode` (`make_shared` does not return a null pointer). The
constructor of `SVGTextRun` does not set `isStructural`. -/
def SVGTSpanNode.loadContentNode (env : TextLoadEnv) (n : SVGTSpanNode) (elem : XmlChild) :
    SVGTSpanNode :=
  n.addNode env
    { node := TextChild.textRun elem.data, isStructural := env.structuralByDefault }

/-- The member `SVGTSpanNode::loadSelfClosingNode`. The constructor of `SVGTSpanNode` does
not set `isStructural`. -/
def SVGTSpanNode.loadSelfClosingNode (env : TextLoadEnv) (n : SVGTSpanNode)
    (elem : XmlChild) : SVGTSpanNode :=
  if elem.tagName = cstr "tspan" then
    n.addNode env
      { node := TextChild.tspanNode (env.tspanDraw elem)
        isStructural := env.structuralByDefault }
  else n

/-- The member `SVGTSpanNode::loadCompoundNode`, on the iterator that stands on the
compound element: the node and the iterator left. In the branch of a `tspan` the new node
consumes the subtree through `loadFromXmlIterator`. -/
def SVGTSpanNode.loadCompoundNode (env : TextLoadEnv) (n : SVGTSpanNode)
    (iter : List XmlChild) : SVGTSpanNode × List XmlChild :=
  match iter with
  | [] => (n, [])
  | elem :: rest =>
    if elem.tagName = cstr "tspan" then
      (n.addNode env
        { node := TextChild.tspanNode (env.tspanDraw elem)
          isStructural := env.structuralByDefault }, rest)
    else
      SVGGraphicsElement.loadCompoundNode env n iter

/-- The registry for the examples, with the factories that the sources register, under the
given reading of the base class: "tspan" and "text" build an `SVGTSpanNode` (the text node
is a subclass), "font" builds an `SVGFontNode`, whose constructor calls
`isStructural(false)`, and "font-face", "missing-glyph" and "font-face-src" build nodes of
other classes whose constructors do not set the flag. -/
def sampleTextLoadEnv (addNodeTestsStructural structuralByDefault : Bool) : TextLoadEnv :=
  { factory := fun tagName =>
      if tagName = cstr "tspan" ∨ tagName = cstr "text" then
        some (fun _ =>
          { node := TextChild.tspanNode (fun ctx cursor => (ctx, cursor))
            isStructural := structuralByDefault })
      else if tagName = cstr "font" then
        some (fun _ => { node := TextChild.otherNode, isStructural := false })
      else if tagName = cstr "font-face" ∨ tagName = cstr "missing-glyph" ∨
          tagName = cstr "font-face-src" then
        some (fun _ => { node := TextChild.otherNode, isStructural := structuralByDefault })
      else none
    tspanDraw := fun _ ctx cursor => (ctx, cursor)
    structuralByDefault := structuralByDefault
    addNodeTestsStructural := addNodeTestsStructural }

/-- The kinds of the children of a text container, in order. -/
def SVGTSpanNode.childKinds (n : SVGTSpanNode) : List TextChildKind :=
  n.fNodes.map TextChild.kind

/-- An empty text container for the examples. -/
def sampleTextNode : SVGTSpanNode :=
  SVGTSpanNode.construct TSpanAttributes.none { fFont := sampleFont, fIsSet := false } []

/-! ## The stop list of a `BLGradient`

`BLGradient::addStop` is Blend2D's, like `resetStops` and `assignStops` above. It keeps the
stops ordered by offset: it refuses an offset outside [0, 1] (`BL_ERROR_INVALID_VALUE`,
the gradient is left as it is), puts a stop whose offset is below the first stop's at the
front, and otherwise puts it after the last stop whose offset is not above its own; when
that stop and the one before it both have the new offset already, the later of the two is
replaced instead.
-/

/-- The stop `BLGradient::addStop` writes for `(offset, rgba32)`. -/
def BLGradientStop.make (offset : ℚ) (rgba : Nat) : BLGradientStop :=
  { offset := offset, rgba := rgba }

/-- The index of the last stop whose offset is not above `offset`, in a stop list that is
ordered by offset and whose first stop is not above `offset` (the binary search in
`addStop`). -/
def BLGradient.closestLast (stops : List BLGradientStop) (offset : ℚ) : Nat :=
  (stops.takeWhile (fun s => decide (s.offset ≤ offset))).length - 1

/-- The member `addStop(offset, rgba32)`. -/
def BLGradient.addStop (g : BLGradient) (offset : ℚ) (rgba : Nat) : BLGradient :=
  if ¬ (0 ≤ offset ∧ offset ≤ 1) then g
  else
    match g.stops with
    | [] => { g with stops := [BLGradientStop.make offset rgba] }
    | first :: _ =>
      if offset < first.offset then
        { g with stops := BLGradientStop.make offset rgba :: g.stops }
      else
        let i := BLGradient.closestLast g.stops offset
        if 0 < i ∧ (g.stops.get? (i - 1)).map BLGradientStop.offset = some offset then
          { g with stops := g.stops.set i (BLGradientStop.make offset rgba) }
        else
          { g with
            stops := g.stops.take (i + 1) ++ BLGradientStop.make offset rgba ::
              g.stops.drop (i + 1) }

end waavs

namespace waavs

/-! ## Spans as byte sequences -/

theorem ByteSpan.size_eq (s : ByteSpan) : s.size = s.fEnd - s.fStart := by
  unfold ByteSpan.size
  simp only
  split <;> omega

theorem ByteSpan.toBool_iff (s : ByteSpan) : s.toBool = true ↔ s.fStart < s.fEnd := by
  unfold ByteSpan.toBool
  simp only [decide_eq_true_eq]
  omega

theorem ByteSpan.toBool_false_iff (s : ByteSpan) : s.toBool = false ↔ s.fEnd ≤ s.fStart := by
  rw [← Bool.not_eq_true, ByteSpan.toBool_iff]
  omega

theorem ByteSpan.bytes_length (mem : Memory) (s : ByteSpan) :
    (s.bytes mem).length = s.size := by
  simp [ByteSpan.bytes]

theorem ByteSpan.bytes_getElem? (mem : Memory) (s : ByteSpan) (i : Nat) :
    (s.bytes mem)[i]? = if i < s.size then some (mem (s.fStart + i)) else none := by
  unfold ByteSpan.bytes
  rw [List.getElem?_map]
  by_cases h : i < s.size
  · simp [h, List.getElem?_range h]
  · simp [h]
    omega

theorem ByteSpan.bytes_eq_nil (mem : Memory) (s : ByteSpan) (h : s.size = 0) :
    s.bytes mem = [] := by
  apply List.eq_nil_of_length_eq_zero
  rw [ByteSpan.bytes_length, h]

/-- The bytes of a span split at any inner address. -/
theorem ByteSpan.bytes_split (mem : Memory) (p m q : Nat) (h1 : p ≤ m) (h2 : m ≤ q) :
    ByteSpan.bytes mem ⟨p, q⟩ = ByteSpan.bytes mem ⟨p, m⟩ ++ ByteSpan.bytes mem ⟨m, q⟩ := by
  apply List.ext_getElem?
  intro i
  rw [List.getElem?_append, ByteSpan.bytes_getElem?, ByteSpan.bytes_getElem?,
    ByteSpan.bytes_getElem?, ByteSpan.bytes_length]
  simp only [ByteSpan.size_eq]
  by_cases hi : i < m - p
  · have : i < q - p := by omega
    simp [hi, this]
  · simp only [hi, if_false]
    by_cases hq : i < q - p
    · have : i - (m - p) < q - m := by omega
      have e : m + (i - (m - p)) = p + i := by omega
      simp [hq, this, e]
    · have : ¬ i - (m - p) < q - m := by omega
      simp [hq, this]

/-- The first byte of a non-empty span, and the bytes after it. -/
theorem ByteSpan.bytes_cons (mem : Memory) (p q : Nat) (h : p < q) :
    ByteSpan.bytes mem ⟨p, q⟩ = mem p :: ByteSpan.bytes mem ⟨p + 1, q⟩ := by
  rw [ByteSpan.bytes_split mem p (p + 1) q (by omega) (by omega)]
  have : ByteSpan.bytes mem ⟨p, p + 1⟩ = [mem p] := by
    simp [ByteSpan.bytes, ByteSpan.size_eq, List.range_succ]
  rw [this]
  rfl

/-! ## `subSpan` -/

/-- When the pointer sum `start + sz` does not leave the address space, `subSpan` has the
truncated size and views the bytes from `startAt` on. -/
theorem ByteSpan.subSpan_of_no_overflow (mem : Memory) (s : ByteSpan) (startAt sz : Nat)
    (h : s.fStart + startAt + sz < SIZE_MOD) :
    (s.subSpan startAt sz).size = (if startAt < s.size then min sz (s.size - startAt) else 0) ∧
    (s.subSpan startAt sz).bytes mem = ((s.bytes mem).drop startAt).take sz := by
  have hM : SIZE_MOD = 18446744073709551616 := rfl
  rw [hM] at h
  constructor
  · unfold ByteSpan.subSpan
    simp only [ByteSpan.size_eq, hM]
    split_ifs <;> simp only [ByteSpan.size_eq] <;> omega
  · apply List.ext_getElem?
    intro i
    rw [List.getElem?_take, List.getElem?_drop, ByteSpan.bytes_getElem?, ByteSpan.bytes_getElem?]
    unfold ByteSpan.subSpan
    simp only [ByteSpan.size_eq, hM]
    split_ifs <;> simp only [ByteSpan.size_eq] at * <;> first
      | omega
      | (congr 2; omega)

/-! ## `memcmp` and the comparison operators -/

theorem memcmp_eq_zero_iff (mem : Memory) (p q n : Nat) :
    memcmp mem p q n = 0 ↔ ∀ i, i < n → mem (p + i) = mem (q + i) := by
  induction n generalizing p q with
  | zero => simp [memcmp]
  | succ n ih =>
    rw [memcmp]
    split_ifs with h
    · rw [ih]
      constructor
      · intro H i hi
        cases i with
        | zero => simpa using h
        | succ j =>
          have := H j (by omega)
          rw [Nat.add_assoc, Nat.add_assoc, Nat.add_comm 1 j] at this
          exact this
      · intro H i hi
        have := H (i + 1) (by omega)
        rw [Nat.add_assoc, Nat.add_assoc, Nat.add_comm 1 i]
        exact this
    · constructor
      · intro H
        omega
      · intro H
        exact absurd (by simpa using H 0 (by omega)) h

theorem memcmp_neg_iff (mem : Memory) (p q n : Nat) :
    memcmp mem p q n < 0 ↔
      ∃ k, k < n ∧ (∀ i, i < k → mem (p + i) = mem (q + i)) ∧ mem (p + k) < mem (q + k) := by
  induction n generalizing p q with
  | zero => simp [memcmp]
  | succ n ih =>
    rw [memcmp]
    split_ifs with h
    · rw [ih]
      constructor
      · rintro ⟨k, hk, hpre, hlt⟩
        refine ⟨k + 1, by omega, ?_, ?_⟩
        · intro i hi
          cases i with
          | zero => simpa using h
          | succ j =>
            have := hpre j (by omega)
            rw [Nat.add_assoc, Nat.add_assoc, Nat.add_comm 1 j] at this
            exact this
        · rw [Nat.add_assoc, Nat.add_assoc, Nat.add_comm 1 k] at hlt
          exact hlt
      · rintro ⟨k, hk, hpre, hlt⟩
        cases k with
        | zero =>
          simp only [Nat.add_zero] at hlt
          omega
        | succ j =>
          refine ⟨j, by omega, ?_, ?_⟩
          · intro i hi
            have := hpre (i + 1) (by omega)
            rw [Nat.add_assoc, Nat.add_assoc, Nat.add_comm 1 i]
            exact this
          · rw [Nat.add_assoc, Nat.add_assoc, Nat.add_comm 1 j]
            exact hlt
    · constructor
      · intro H
        refine ⟨0, by omega, ?_, ?_⟩
        · intro i hi
          omega
        · simp only [Nat.add_zero]
          omega
      · rintro ⟨k, hk, hpre, hlt⟩
        cases k with
        | zero =>
          simp only [Nat.add_zero] at hlt
          omega
        | succ j =>
          exact absurd (by simpa using hpre 0 (by omega)) h

theorem memcmp_swap (mem : Memory) (p q n : Nat) :
    memcmp mem q p n = - memcmp mem p q n := by
  induction n generalizing p q with
  | zero => simp [memcmp]
  | succ n ih =>
    rw [memcmp, memcmp]
    by_cases h : mem p = mem q
    · rw [if_pos h, if_pos h.symm]
      exact ih (p + 1) (q + 1)
    · rw [if_neg h, if_neg (Ne.symm h)]
      omega

theorem ByteSpan.maxBytes_eq_min (a b : ByteSpan) : ByteSpan.maxBytes a b = min a.size b.size := by
  unfold ByteSpan.maxBytes
  split <;> omega

theorem ByteSpan.maxBytes_comm (a b : ByteSpan) : ByteSpan.maxBytes a b = ByteSpan.maxBytes b a := by
  rw [ByteSpan.maxBytes_eq_min, ByteSpan.maxBytes_eq_min, Nat.min_comm]

theorem ByteSpan.bytes_eq_iff (mem : Memory) (a b : ByteSpan) :
    a.bytes mem = b.bytes mem ↔
      a.size = b.size ∧ ∀ i, i < a.size → mem (a.fStart + i) = mem (b.fStart + i) := by
  constructor
  · intro h
    have hl : a.size = b.size := by
      rw [← ByteSpan.bytes_length mem a, ← ByteSpan.bytes_length mem b, h]
    refine ⟨hl, ?_⟩
    intro i hi
    have := congrArg (fun l => l[i]?) h
    simp only [ByteSpan.bytes_getElem?] at this
    rw [if_pos hi, if_pos (hl ▸ hi)] at this
    exact Option.some.inj this
  · rintro ⟨hl, H⟩
    apply List.ext_getElem?
    intro i
    rw [ByteSpan.bytes_getElem?, ByteSpan.bytes_getElem?, ← hl]
    by_cases hi : i < a.size
    · simp [hi, H i hi]
    · simp [hi]

theorem ByteSpan.eq_iff_bytes (mem : Memory) (a b : ByteSpan) :
    ByteSpan.eq mem a b = true ↔ a.bytes mem = b.bytes mem := by
  rw [ByteSpan.bytes_eq_iff]
  unfold ByteSpan.eq
  by_cases h : a.size = b.size
  · simp [h, memcmp_eq_zero_iff]
  · simp [h]

theorem ByteSpan.ne_eq_not_eq (mem : Memory) (a b : ByteSpan) :
    ByteSpan.ne mem a b = !ByteSpan.eq mem a b := by
  unfold ByteSpan.ne ByteSpan.eq
  by_cases h : a.size = b.size <;> simp [h]

theorem ByteSpan.bytes_prefix_iff (mem : Memory) (a b : ByteSpan) :
    b.bytes mem <+: a.bytes mem ↔
      b.size ≤ a.size ∧ ∀ i, i < b.size → mem (b.fStart + i) = mem (a.fStart + i) := by
  rw [List.prefix_iff_eq_take, ByteSpan.bytes_length]
  constructor
  · intro h
    have hl : b.size ≤ a.size := by
      have := congrArg List.length h
      rw [List.length_take, ByteSpan.bytes_length, ByteSpan.bytes_length] at this
      omega
    refine ⟨hl, ?_⟩
    intro i hi
    have := congrArg (fun l => l[i]?) h
    simp only [ByteSpan.bytes_getElem?, List.getElem?_take] at this
    rw [if_pos hi, if_pos hi, if_pos (by omega)] at this
    exact Option.some.inj this
  · rintro ⟨hl, H⟩
    apply List.ext_getElem?
    intro i
    rw [List.getElem?_take, ByteSpan.bytes_getElem?, ByteSpan.bytes_getElem?]
    by_cases hi : i < b.size
    · simp [hi, H i hi, show i < a.size by omega]
    · simp [hi]

theorem ByteSpan.bytes_suffix_iff (mem : Memory) (a b : ByteSpan) :
    b.bytes mem <:+ a.bytes mem ↔
      b.size ≤ a.size ∧
        ∀ i, i < b.size → mem (b.fStart + i) = mem (a.fStart + (a.size - b.size) + i) := by
  rw [List.suffix_iff_eq_drop, ByteSpan.bytes_length, ByteSpan.bytes_length]
  constructor
  · intro h
    have hl : b.size ≤ a.size := by
      have := congrArg List.length h
      rw [List.length_drop, ByteSpan.bytes_length, ByteSpan.bytes_length] at this
      omega
    refine ⟨hl, ?_⟩
    intro i hi
    have := congrArg (fun l => l[i]?) h
    simp only [ByteSpan.bytes_getElem?, List.getElem?_drop] at this
    rw [if_pos hi, if_pos (by omega)] at this
    rw [Nat.add_assoc]
    exact Option.some.inj this
  · rintro ⟨hl, H⟩
    apply List.ext_getElem?
    intro i
    rw [List.getElem?_drop, ByteSpan.bytes_getElem?, ByteSpan.bytes_getElem?]
    by_cases hi : i < b.size
    · rw [if_pos hi, if_pos (by omega), H i hi, Nat.add_assoc]
    · rw [if_neg hi, if_neg (by omega)]

/-- C1: the code at a size whose pointer sum overflows. On the five byte span at address
4096, `subSpan(1, 2^64 - 1)` computes `start + sz = 4096` (modulo `2^64`), which is below
`fEnd`, so the result is the inverted span `{4097, 4096}` of size 0, whereas the truncated
size `min(sz, size - startAt)` is 4; the truncation contract fails there. -/
theorem ByteSpan.subSpan_pointer_sum_overflow :
    (ByteSpan.mk 4096 4101).subSpan 1 (SIZE_MOD - 1) = ⟨4097, 4096⟩ ∧
    ((ByteSpan.mk 4096 4101).subSpan 1 (SIZE_MOD - 1)).size = 0 ∧
    min (SIZE_MOD - 1) ((ByteSpan.mk 4096 4101).size - 1) = 4 ∧
    ¬ ByteSpan.SubSpanTruncates (memOf 4096 (cstr "hello")) ⟨4096, 4101⟩ 1 (SIZE_MOD - 1) := by
  refine ⟨by decide, by decide, by decide, ?_⟩
  intro h
  have := h.1
  revert this
  decide

/-- C4: `a == b` holds exactly when the two spans have the same size and the same byte at
every position, that is when they view the same byte sequence, wherever they point; and
`a != b` is the negation of `a == b`. -/
theorem ByteSpan.eq_iff_same_size_and_bytes (mem : Memory) (a b : ByteSpan) :
    (ByteSpan.eq mem a b = true ↔
      a.size = b.size ∧ ∀ i, i < a.size → mem (a.fStart + i) = mem (b.fStart + i)) ∧
    (ByteSpan.eq mem a b = true ↔ a.bytes mem = b.bytes mem) ∧
    ByteSpan.ne mem a b = !ByteSpan.eq mem a b := by
  refine ⟨?_, ByteSpan.eq_iff_bytes mem a b, ByteSpan.ne_eq_not_eq mem a b⟩
  rw [ByteSpan.eq_iff_bytes, ByteSpan.bytes_eq_iff]

/-! ## The ordering operators -/

theorem ByteSpan.memcmp_maxBytes_eq_zero_iff (mem : Memory) (a b : ByteSpan) :
    memcmp mem a.fStart b.fStart (ByteSpan.maxBytes a b) = 0 ↔
      (a.bytes mem <+: b.bytes mem ∨ b.bytes mem <+: a.bytes mem) := by
  rw [memcmp_eq_zero_iff, ByteSpan.maxBytes_eq_min, ByteSpan.bytes_prefix_iff,
    ByteSpan.bytes_prefix_iff]
  constructor
  · intro H
    by_cases h : a.size ≤ b.size
    · exact Or.inl ⟨h, fun i hi => H i (by omega)⟩
    · exact Or.inr ⟨by omega, fun i hi => (H i (by omega)).symm⟩
  · rintro (⟨h, H⟩ | ⟨h, H⟩)
    · intro i hi
      exact H i (by omega)
    · intro i hi
      exact (H i (by omega)).symm

theorem ByteSpan.lt_trans (mem : Memory) (a b c : ByteSpan)
    (hab : ByteSpan.lt mem a b = true) (hbc : ByteSpan.lt mem b c = true) :
    ByteSpan.lt mem a c = true := by
  unfold ByteSpan.lt at *
  simp only [decide_eq_true_eq, memcmp_neg_iff, ByteSpan.maxBytes_eq_min] at *
  obtain ⟨k1, hk1, hpre1, hlt1⟩ := hab
  obtain ⟨k2, hk2, hpre2, hlt2⟩ := hbc
  rcases Nat.lt_trichotomy k1 k2 with h | h | h
  · refine ⟨k1, by omega, fun i hi => ?_, ?_⟩
    · rw [hpre1 i hi, hpre2 i (by omega)]
    · rw [← hpre2 k1 h]
      exact hlt1
  · subst h
    refine ⟨k1, by omega, fun i hi => ?_, by omega⟩
    rw [hpre1 i hi, hpre2 i hi]
  · refine ⟨k2, by omega, fun i hi => ?_, ?_⟩
    · rw [hpre1 i (by omega), hpre2 i hi]
    · rw [hpre1 k2 h]
      exact hlt2

/-- C5, as stated, fails: for "ab" and "abc" the operators compare the two common bytes
only, so none of `a < b`, `a == b`, `b < a` holds, while `a <= b` and `b <= a` both hold. -/
theorem ByteSpan.ordering_not_total_on_proper_prefix :
    ¬ ByteSpan.TotalOrderAt (memOf 4096 (cstr "ababc")) ⟨4096, 4098⟩ ⟨4098, 4101⟩ := by
  intro h
  have h2 := h.2
  revert h2
  decide

/-- C5, amended: the ordering operators compare the first `min(a.size(), b.size())` bytes
only. `operator<` is a strict partial order by byte content (irreflexive, transitive); at
most one of `a < b`, `a == b`, `b < a` holds, and none of them holds exactly when the sizes
differ and one span's bytes are a prefix of the other's; `a <= b` together with `b <= a`
holds exactly when one span's bytes are a prefix of the other's, and gives `a == b` for
spans of equal size. -/
theorem ByteSpan.ordering_compares_common_prefix (mem : Memory) (a b c : ByteSpan) :
    ByteSpan.lt mem a a = false ∧
    (ByteSpan.lt mem a b = true → ByteSpan.lt mem b c = true → ByteSpan.lt mem a c = true) ∧
    (ByteSpan.lt mem a b = true → ByteSpan.eq mem a b = false ∧ ByteSpan.lt mem b a = false) ∧
    (ByteSpan.eq mem a b = true → ByteSpan.lt mem a b = false ∧ ByteSpan.lt mem b a = false) ∧
    ((ByteSpan.lt mem a b = false ∧ ByteSpan.eq mem a b = false ∧ ByteSpan.lt mem b a = false) ↔
      (a.size ≠ b.size ∧ (a.bytes mem <+: b.bytes mem ∨ b.bytes mem <+: a.bytes mem))) ∧
    ((ByteSpan.le mem a b = true ∧ ByteSpan.le mem b a = true) ↔
      (a.bytes mem <+: b.bytes mem ∨ b.bytes mem <+: a.bytes mem)) ∧
    (a.size = b.size → ByteSpan.le mem a b = true → ByteSpan.le mem b a = true →
      ByteSpan.eq mem a b = true) := by
  have hpre := ByteSpan.memcmp_maxBytes_eq_zero_iff mem a b
  have hsw : memcmp mem b.fStart a.fStart (ByteSpan.maxBytes b a) =
      - memcmp mem a.fStart b.fStart (ByteSpan.maxBytes a b) := by
    rw [ByteSpan.maxBytes_comm b a, memcmp_swap]
  have heq : ByteSpan.eq mem a b = true ↔
      (a.size = b.size ∧ memcmp mem a.fStart b.fStart (ByteSpan.maxBytes a b) = 0) := by
    unfold ByteSpan.eq
    by_cases h : a.size = b.size
    · have hm : ByteSpan.maxBytes a b = a.size := by
        rw [ByteSpan.maxBytes_eq_min]
        omega
      simp [h, hm]
    · simp [h]
  have hself : memcmp mem a.fStart a.fStart (ByteSpan.maxBytes a a) = 0 := by
    rw [memcmp_eq_zero_iff]
    intro i _
    rfl
  refine ⟨?_, ByteSpan.lt_trans mem a b c, ?_, ?_, ?_, ?_, ?_⟩
  · simp [ByteSpan.lt, hself]
  · intro h
    rw [← Bool.not_eq_true, heq]
    simp only [ByteSpan.lt, decide_eq_true_eq, decide_eq_false_iff_not, hsw] at *
    constructor
    · intro h2
      omega
    · omega
  · intro h
    rw [heq] at h
    simp only [ByteSpan.lt, decide_eq_false_iff_not, hsw]
    omega
  · rw [← hpre, ← Bool.not_eq_true (ByteSpan.eq mem a b), heq]
    simp only [ByteSpan.lt, decide_eq_false_iff_not, hsw]
    constructor
    · rintro ⟨h1, h2, h3⟩
      have h0 : memcmp mem a.fStart b.fStart (ByteSpan.maxBytes a b) = 0 := by omega
      exact ⟨fun hs => h2 ⟨hs, h0⟩, h0⟩
    · rintro ⟨h1, h2⟩
      refine ⟨by omega, fun hh => h1 hh.1, by omega⟩
  · rw [← hpre]
    simp only [ByteSpan.le, decide_eq_true_eq, hsw]
    omega
  · intro hs h1 h2
    rw [heq]
    simp only [ByteSpan.le, decide_eq_true_eq, hsw] at h1 h2
    exact ⟨hs, by omega⟩

/-! ## `startsWith` and `endsWith` -/

theorem ByteSpan.subSpan_prefix_window (a b : ByteSpan)
    (ha : a.inAddressSpace) (hb : b.inAddressSpace) :
    ((a.subSpan 0 b.size).size = b.size ↔ b.size ≤ a.size) ∧
    (0 < b.size → b.size ≤ a.size → (a.subSpan 0 b.size).fStart = a.fStart) := by
  have hM : SIZE_MOD = 18446744073709551616 := rfl
  unfold ByteSpan.inAddressSpace at ha hb
  rw [hM] at ha hb
  unfold ByteSpan.subSpan
  simp only [ByteSpan.size_eq, hM]
  constructor
  · split_ifs <;> simp only [ByteSpan.size_eq] <;> omega
  · intro h1 h2
    split_ifs <;> simp only <;> omega

theorem ByteSpan.subSpan_suffix_window (a b : ByteSpan)
    (ha : a.inAddressSpace) (hb : b.inAddressSpace) :
    ((a.subSpan ((a.size + SIZE_MOD - b.size) % SIZE_MOD) b.size).size = b.size ↔
      b.size ≤ a.size) ∧
    (0 < b.size → b.size ≤ a.size →
      (a.subSpan ((a.size + SIZE_MOD - b.size) % SIZE_MOD) b.size).fStart =
        a.fStart + (a.size - b.size)) := by
  have hM : SIZE_MOD = 18446744073709551616 := rfl
  unfold ByteSpan.inAddressSpace at ha hb
  rw [hM] at ha hb
  unfold ByteSpan.subSpan
  simp only [ByteSpan.size_eq, hM]
  constructor
  · split_ifs <;> simp only [ByteSpan.size_eq] <;> omega
  · intro h1 h2
    split_ifs <;> simp only <;> omega

/-- C6: for spans in the address space, `a.startsWith(b)` is true exactly when the bytes of
`b` are a prefix of the bytes of `a`, and `a.endsWith(b)` exactly when they are a suffix;
both are true for an empty `b` and both are false when `b` is longer than `a` (the
`size_t` difference `size() - b.size()` wraps, and `subSpan` then yields an empty span). -/
theorem ByteSpan.startsWith_endsWith_iff (mem : Memory) (a b : ByteSpan)
    (ha : a.inAddressSpace) (hb : b.inAddressSpace) :
    (a.startsWith mem b = true ↔ b.bytes mem <+: a.bytes mem) ∧
    (a.endsWith mem b = true ↔ b.bytes mem <:+ a.bytes mem) ∧
    (b.size = 0 → a.startsWith mem b = true ∧ a.endsWith mem b = true) ∧
    (a.size < b.size → a.startsWith mem b = false ∧ a.endsWith mem b = false) := by
  have hstart : a.startsWith mem b = true ↔ b.bytes mem <+: a.bytes mem := by
    obtain ⟨h1, h2⟩ := ByteSpan.subSpan_prefix_window a b ha hb
    unfold ByteSpan.startsWith
    rw [ByteSpan.eq_iff_bytes, ByteSpan.bytes_eq_iff, ByteSpan.bytes_prefix_iff, h1]
    constructor
    · rintro ⟨hl, H⟩
      refine ⟨hl, fun i hi => ?_⟩
      rw [← h2 (by omega) hl]
      exact (H i (by rw [h1.mpr hl]; exact hi)).symm
    · rintro ⟨hl, H⟩
      refine ⟨hl, fun i hi => ?_⟩
      rw [h1.mpr hl] at hi
      rw [h2 (by omega) hl]
      exact (H i hi).symm
  have hend : a.endsWith mem b = true ↔ b.bytes mem <:+ a.bytes mem := by
    obtain ⟨h1, h2⟩ := ByteSpan.subSpan_suffix_window a b ha hb
    unfold ByteSpan.endsWith
    rw [ByteSpan.eq_iff_bytes, ByteSpan.bytes_eq_iff, ByteSpan.bytes_suffix_iff, h1]
    constructor
    · rintro ⟨hl, H⟩
      refine ⟨hl, fun i hi => ?_⟩
      rw [← h2 (by omega) hl]
      exact (H i (by rw [h1.mpr hl]; exact hi)).symm
    · rintro ⟨hl, H⟩
      refine ⟨hl, fun i hi => ?_⟩
      rw [h1.mpr hl] at hi
      rw [h2 (by omega) hl]
      exact (H i hi).symm
  refine ⟨hstart, hend, ?_, ?_⟩
  · intro h0
    rw [hstart, hend, ByteSpan.bytes_eq_nil mem b h0]
    exact ⟨List.nil_prefix, List.nil_suffix⟩
  · intro hlt
    rw [← Bool.not_eq_true, ← Bool.not_eq_true, hstart, hend]
    constructor
    · intro h
      have := h.length_le
      rw [ByteSpan.bytes_length, ByteSpan.bytes_length] at this
      omega
    · intro h
      have := h.length_le
      rw [ByteSpan.bytes_length, ByteSpan.bytes_length] at this
      omega

/-- C6 at a concrete pair: both spans are in the address space, and "lo" is a suffix but
not a prefix of "hello". -/
theorem ByteSpan.startsWith_endsWith_iff_witness :
    (ByteSpan.mk 4096 4101).inAddressSpace ∧ (ByteSpan.mk 4099 4101).inAddressSpace ∧
    (((ByteSpan.mk 4096 4101).startsWith (memOf 4096 (cstr "hello")) ⟨4099, 4101⟩ = true ↔
      ByteSpan.bytes (memOf 4096 (cstr "hello")) ⟨4099, 4101⟩ <+:
        ByteSpan.bytes (memOf 4096 (cstr "hello")) ⟨4096, 4101⟩) ∧
    ((ByteSpan.mk 4096 4101).endsWith (memOf 4096 (cstr "hello")) ⟨4099, 4101⟩ = true ↔
      ByteSpan.bytes (memOf 4096 (cstr "hello")) ⟨4099, 4101⟩ <:+
        ByteSpan.bytes (memOf 4096 (cstr "hello")) ⟨4096, 4101⟩) ∧
    ((ByteSpan.mk 4099 4101).size = 0 →
      (ByteSpan.mk 4096 4101).startsWith (memOf 4096 (cstr "hello")) ⟨4099, 4101⟩ = true ∧
      (ByteSpan.mk 4096 4101).endsWith (memOf 4096 (cstr "hello")) ⟨4099, 4101⟩ = true) ∧
    ((ByteSpan.mk 4096 4101).size < (ByteSpan.mk 4099 4101).size →
      (ByteSpan.mk 4096 4101).startsWith (memOf 4096 (cstr "hello")) ⟨4099, 4101⟩ = false ∧
      (ByteSpan.mk 4096 4101).endsWith (memOf 4096 (cstr "hello")) ⟨4099, 4101⟩ = false)) :=
  ⟨by decide, by decide,
    ByteSpan.startsWith_endsWith_iff (memOf 4096 (cstr "hello")) ⟨4096, 4101⟩ ⟨4099, 4101⟩
      (by decide) (by decide)⟩

/-! ## `chunk_token` and `chunk_token_char` -/

theorem ByteSpan.mem_bytes_iff (mem : Memory) (s : ByteSpan) (c : Nat) :
    c ∈ s.bytes mem ↔ ∃ i, i < s.size ∧ mem (s.fStart + i) = c := by
  unfold ByteSpan.bytes
  simp only [List.mem_map, List.mem_range]

/-- The scan with enough fuel stops at the first delimiter at or after `tokenEnd`, or at
`stop` when there is none: it never stops for lack of fuel. -/
theorem tokenEndLoop_spec (mem : Memory) (delims : Nat → Bool) (stop fuel t : Nat)
    (ht : t ≤ stop) (hf : stop - t ≤ fuel) :
    t ≤ tokenEndLoop mem delims stop fuel t ∧
    tokenEndLoop mem delims stop fuel t ≤ stop ∧
    (∀ i, t ≤ i → i < tokenEndLoop mem delims stop fuel t → delims (mem i) = false) ∧
    (tokenEndLoop mem delims stop fuel t < stop →
      delims (mem (tokenEndLoop mem delims stop fuel t)) = true) := by
  induction fuel generalizing t with
  | zero =>
    have : t = stop := by omega
    subst this
    simp only [tokenEndLoop, le_refl, lt_self_iff_false, false_implies, and_true, true_and]
    intro i hi1 hi2
    omega
  | succ fuel ih =>
    rw [tokenEndLoop]
    split_ifs with h
    · obtain ⟨h1, h2, h3, h4⟩ := ih (t + 1) (by omega) (by omega)
      refine ⟨by omega, h2, ?_, h4⟩
      intro i hi1 hi2
      by_cases hit : i = t
      · subst hit
        exact h.2
      · exact h3 i (by omega) hi2
    · refine ⟨le_refl _, ht, ?_, ?_⟩
      · intro i hi1 hi2
        omega
      · intro hlt
        by_contra hd
        exact h ⟨hlt, by simpa using hd⟩

theorem chunk_token_char_eq_chunk_token (mem : Memory) (a : ByteSpan) (delim : Int) :
    chunk_token_char mem a delim = chunk_token mem a (isDelimChar delim) := by
  rfl

/-- With a delimiter among the bytes of the span, the scan of `chunk_token` stops at the
first one, inside the span; the token ends there and the span left behind starts one byte
further. -/
theorem chunk_token_at_first_delimiter (mem : Memory) (a : ByteSpan)
    (delims : Nat → Bool) (h : ∃ c, c ∈ a.bytes mem ∧ delims c = true) :
    ∃ r, a.fStart ≤ r ∧ r < a.fEnd ∧ delims (mem r) = true ∧
      (∀ i, a.fStart ≤ i → i < r → delims (mem i) = false) ∧
      chunk_token mem a delims = (⟨a.fStart, r⟩, ⟨r + 1, a.fEnd⟩) := by
  obtain ⟨c, hc, hdc⟩ := h
  rw [ByteSpan.mem_bytes_iff] at hc
  obtain ⟨i, hi, hci⟩ := hc
  rw [ByteSpan.size_eq] at hi
  have hlt : a.fStart < a.fEnd := by omega
  obtain ⟨h1, h2, h3, h4⟩ :=
    tokenEndLoop_spec mem delims a.fEnd a.size a.fStart (by omega) (by rw [ByteSpan.size_eq])
  have hr : tokenEndLoop mem delims a.fEnd a.size a.fStart < a.fEnd := by
    by_contra hge
    have := h3 (a.fStart + i) (by omega) (by omega)
    rw [hci, hdc] at this
    exact Bool.noConfusion this
  have hd := h4 hr
  have hb : a.toBool = true := (ByteSpan.toBool_iff a).mpr hlt
  refine ⟨tokenEndLoop mem delims a.fEnd a.size a.fStart, h1, hr, hd, h3, ?_⟩
  simp only [chunk_token, hb, Bool.true_eq_false, if_false, hd, if_true]

/-- C3: when the span holds at least one delimiter byte, `chunk_token` returns the bytes
strictly before the first delimiter (a token without any delimiter) and leaves the bytes
strictly after that delimiter: token ++ [delimiter] ++ remainder is the original content. -/
theorem chunk_token_splits_at_first_delimiter (mem : Memory) (a : ByteSpan)
    (delims : Nat → Bool) (h : ∃ c, c ∈ a.bytes mem ∧ delims c = true) :
    ∃ d, delims d = true ∧
      a.bytes mem =
        (chunk_token mem a delims).1.bytes mem ++ d :: (chunk_token mem a delims).2.bytes mem ∧
      (∀ c, c ∈ (chunk_token mem a delims).1.bytes mem → delims c = false) := by
  obtain ⟨r, h1, hr, hd, h3, heq⟩ := chunk_token_at_first_delimiter mem a delims h
  rw [heq]
  refine ⟨mem r, hd, ?_, ?_⟩
  · simp only
    rw [← ByteSpan.bytes_cons mem r a.fEnd hr,
      ← ByteSpan.bytes_split mem a.fStart r a.fEnd h1 (by omega)]
  · intro c hc
    rw [ByteSpan.mem_bytes_iff] at hc
    obtain ⟨j, hj, hcj⟩ := hc
    rw [ByteSpan.size_eq] at hj
    simp only at hj hcj
    rw [← hcj]
    exact h3 (a.fStart + j) (by omega) (by omega)

/-- C3 at a concrete span: "ab,cd" with the delimiter set {','} yields "ab" and leaves "cd". -/
theorem chunk_token_splits_at_first_delimiter_witness :
    (∃ c, c ∈ ByteSpan.bytes (memOf 4096 (cstr "ab,cd")) ⟨4096, 4101⟩ ∧ (c == 44) = true) ∧
    ∃ d, (d == 44) = true ∧
      ByteSpan.bytes (memOf 4096 (cstr "ab,cd")) ⟨4096, 4101⟩ =
        (chunk_token (memOf 4096 (cstr "ab,cd")) ⟨4096, 4101⟩ (fun c => c == 44)).1.bytes
            (memOf 4096 (cstr "ab,cd")) ++
          d :: (chunk_token (memOf 4096 (cstr "ab,cd")) ⟨4096, 4101⟩ (fun c => c == 44)).2.bytes
            (memOf 4096 (cstr "ab,cd")) ∧
      (∀ c, c ∈ (chunk_token (memOf 4096 (cstr "ab,cd")) ⟨4096, 4101⟩ (fun c => c == 44)).1.bytes
          (memOf 4096 (cstr "ab,cd")) → (c == 44) = false) :=
  ⟨⟨44, by decide, by decide⟩,
    chunk_token_splits_at_first_delimiter (memOf 4096 (cstr "ab,cd")) ⟨4096, 4101⟩
      (fun c => c == 44) ⟨44, by decide, by decide⟩⟩

/-- The same split for `chunk_token_char`, whose delimiter is a single `char`. -/
theorem chunk_token_char_splits_at_first_delimiter (mem : Memory) (a : ByteSpan)
    (delim : Int) (h : ∃ c, c ∈ a.bytes mem ∧ (c : Int) = delim) :
    a.bytes mem =
        (chunk_token_char mem a delim).1.bytes mem ++
          delim.toNat :: (chunk_token_char mem a delim).2.bytes mem ∧
      (∀ c, c ∈ (chunk_token_char mem a delim).1.bytes mem → (c : Int) ≠ delim) := by
  rw [chunk_token_char_eq_chunk_token]
  obtain ⟨c, hc, hcd⟩ := h
  obtain ⟨r, h1, hr, hd, h3, heq⟩ := chunk_token_at_first_delimiter mem a (isDelimChar delim)
    ⟨c, hc, by simp [isDelimChar, hcd]⟩
  have hdd : (mem r : Int) = delim := by simpa [isDelimChar] using hd
  have hnat : delim.toNat = mem r := by
    rw [← hdd, Int.toNat_natCast]
  rw [heq, hnat]
  refine ⟨?_, ?_⟩
  · simp only
    rw [← ByteSpan.bytes_cons mem r a.fEnd hr,
      ← ByteSpan.bytes_split mem a.fStart r a.fEnd h1 (by omega)]
  · intro c hc
    rw [ByteSpan.mem_bytes_iff] at hc
    obtain ⟨j, hj, hcj⟩ := hc
    rw [ByteSpan.size_eq] at hj
    simp only at hj hcj
    rw [← hcj]
    simpa [isDelimChar] using h3 (a.fStart + j) (by omega) (by omega)

/-- When no byte of a non-empty span is a delimiter and the byte stored just past `fEnd` is
not one either, `chunk_token` returns the whole span and leaves the empty span at `fEnd`. -/
theorem chunk_token_no_delimiter (mem : Memory) (a : ByteSpan) (delims : Nat → Bool)
    (hne : a.toBool = true) (h : ∀ c, c ∈ a.bytes mem → delims c = false)
    (hpast : delims (mem a.fEnd) = false) :
    chunk_token mem a delims = (a, ⟨a.fEnd, a.fEnd⟩) := by
  have hlt : a.fStart < a.fEnd := (ByteSpan.toBool_iff a).mp hne
  obtain ⟨h1, h2, h3, h4⟩ :=
    tokenEndLoop_spec mem delims a.fEnd a.size a.fStart (by omega) (by rw [ByteSpan.size_eq])
  have hsz := ByteSpan.size_eq a
  have hr : tokenEndLoop mem delims a.fEnd a.size a.fStart = a.fEnd := by
    generalize tokenEndLoop mem delims a.fEnd a.size a.fStart = r at *
    by_contra hne2
    have hd := h4 (by omega)
    have := h _ ((ByteSpan.mem_bytes_iff mem a _).mpr ⟨r - a.fStart, by omega, rfl⟩)
    rw [show a.fStart + (r - a.fStart) = r by omega, hd] at this
    exact Bool.noConfusion this
  simp only [chunk_token, hne, Bool.true_eq_false, if_false, hr, hpast, Bool.false_eq_true]

/-- C2: the code on a span that ends before the end of its buffer. The span "ab" of the
buffer "ab,cd" holds no delimiter of the set {','}; `chunk_token` and `chunk_token_char`
return the token "ab", then test the byte at `fEnd` (the ','), and leave the span
`{fEnd + 1, fEnd}`: its `size()` is 0 but `empty()` is false. -/
theorem chunk_token_past_end_delimiter :
    (∀ c, c ∈ ByteSpan.bytes (memOf 4096 (cstr "ab,cd")) ⟨4096, 4098⟩ → (c == 44) = false) ∧
    chunk_token (memOf 4096 (cstr "ab,cd")) ⟨4096, 4098⟩ (fun c => c == 44) =
      (⟨4096, 4098⟩, ⟨4099, 4098⟩) ∧
    chunk_token_char (memOf 4096 (cstr "ab,cd")) ⟨4096, 4098⟩ 44 =
      (⟨4096, 4098⟩, ⟨4099, 4098⟩) ∧
    (ByteSpan.mk 4099 4098).size = 0 ∧
    (ByteSpan.mk 4099 4098).empty = false := by
  refine ⟨by decide, by decide, by decide, by decide, by decide⟩

/-! ## The cursor operations and the digit loops -/

theorem ByteSpan.peek_of_lt (mem : Memory) (p q : Nat) (h : p < q) :
    ByteSpan.peek mem ⟨p, q⟩ = mem p := by
  simp [ByteSpan.peek, h]

theorem ByteSpan.peek_of_ge (mem : Memory) (p q : Nat) (h : q ≤ p) :
    ByteSpan.peek mem ⟨p, q⟩ = 0 := by
  simp [ByteSpan.peek, Nat.not_lt.mpr h]

theorem ByteSpan.inc_of_lt (p q : Nat) (h : p < q) :
    (ByteSpan.mk p q).inc = ⟨p + 1, q⟩ := by
  have : ¬ (1 > q - p) := by omega
  simp [ByteSpan.inc, ByteSpan.advance, ByteSpan.size_eq, this]

theorem ByteSpan.inc_of_ge (p q : Nat) (h : q ≤ p) :
    (ByteSpan.mk p q).inc = ⟨p, q⟩ := by
  have h0 : q - p = 0 := by omega
  simp [ByteSpan.inc, ByteSpan.advance, ByteSpan.size_eq, h0]

/-- A span whose bytes start with `d` is non-empty, holds `d` at `fStart`, and the span
one byte further views the rest. -/
theorem ByteSpan.bytes_eq_cons (mem : Memory) (p q d : Nat) (l : List Nat)
    (h : ByteSpan.bytes mem ⟨p, q⟩ = d :: l) :
    p < q ∧ mem p = d ∧ ByteSpan.bytes mem ⟨p + 1, q⟩ = l := by
  have hlt : p < q := by
    have := congrArg List.length h
    rw [ByteSpan.bytes_length, ByteSpan.size_eq] at this
    simp at this
    omega
  rw [ByteSpan.bytes_cons mem p q hlt] at h
  exact ⟨hlt, (List.cons.inj h).1, (List.cons.inj h).2⟩

/-- The first byte of a span, as `operator*` sees it. -/
theorem ByteSpan.peek_eq_head (mem : Memory) (p q : Nat) :
    ByteSpan.peek mem ⟨p, q⟩ = (ByteSpan.bytes mem ⟨p, q⟩).headD 0 := by
  by_cases h : p < q
  · rw [ByteSpan.peek_of_lt mem p q h, ByteSpan.bytes_cons mem p q h]
    rfl
  · rw [ByteSpan.peek_of_ge mem p q (by omega),
      ByteSpan.bytes_eq_nil mem ⟨p, q⟩ (by rw [ByteSpan.size_eq]; simp only; omega)]
    rfl

theorem decimalStep_foldl_ge (ds : List Nat) (v : Nat) : v ≤ ds.foldl decimalStep v := by
  induction ds generalizing v with
  | nil => exact le_refl v
  | cons d ds ih =>
    rw [List.foldl_cons]
    have := ih (decimalStep v d)
    unfold decimalStep at this ⊢
    omega

/-- The loop of `chunk_to_i64` over a run of digits that is followed by a non-digit or by
the end of the span: with fuel for every digit and a value that stays below `2^63`, it
accumulates the decimal value and stops right after the run. -/
theorem i64Loop_digits (mem : Memory) (rest : List Nat)
    (hrest : ∀ c, rest.head? = some c → chrDecDigits c = false) (digits : List Nat) :
    ∀ (fuel v p q : Nat), (∀ d, d ∈ digits → chrDecDigits d = true) →
      ByteSpan.bytes mem ⟨p, q⟩ = digits ++ rest → digits.length ≤ fuel →
      digits.foldl decimalStep v < 9223372036854775808 →
      i64Loop mem fuel (v : Int) ⟨p, q⟩ =
        (((digits.foldl decimalStep v : Nat) : Int), ⟨p + digits.length, q⟩) := by
  induction digits with
  | nil =>
    intro fuel v p q _ hb _ _
    cases fuel with
    | zero => rfl
    | succ fuel =>
      rw [i64Loop]
      have hcond : ¬ ((ByteSpan.mk p q).toBool = true ∧
          chrDecDigits (ByteSpan.peek mem ⟨p, q⟩) = true) := by
        rintro ⟨h1, h2⟩
        rw [ByteSpan.toBool_iff] at h1
        rw [ByteSpan.peek_of_lt mem p q h1] at h2
        rw [ByteSpan.bytes_cons mem p q h1] at hb
        have := hrest (mem p) (by rw [← List.nil_append rest, ← hb]; rfl)
        rw [h2] at this
        exact Bool.noConfusion this
      rw [if_neg hcond]
      rfl
  | cons d ds ih =>
    intro fuel v p q hdig hb hfuel hval
    obtain ⟨hlt, hd, hb2⟩ := ByteSpan.bytes_eq_cons mem p q d (ds ++ rest) hb
    cases fuel with
    | zero => simp at hfuel
    | succ fuel =>
      have hdd := hdig d (List.mem_cons_self d ds)
      simp only [chrDecDigits, decide_eq_true_eq] at hdd
      rw [i64Loop]
      have hcond : (ByteSpan.mk p q).toBool = true ∧
          chrDecDigits (ByteSpan.peek mem ⟨p, q⟩) = true := by
        refine ⟨(ByteSpan.toBool_iff _).mpr hlt, ?_⟩
        rw [ByteSpan.peek_of_lt mem p q hlt, hd]
        simp [chrDecDigits, hdd]
      rw [if_pos hcond, ByteSpan.peek_of_lt mem p q hlt, hd, ByteSpan.inc_of_lt p q hlt]
      rw [List.foldl_cons] at hval
      have hge := decimalStep_foldl_ge ds (decimalStep v d)
      have hlt2 : v * 10 + (d - 48) < 9223372036854775808 := lt_of_le_of_lt hge hval
      have hstep : wrapI64 ((v : Int) * 10 + ((d : Int) - 48)) = ((decimalStep v d : Nat) : Int) := by
        show wrapI64 ((v : Int) * 10 + ((d : Int) - 48)) = ((v * 10 + (d - 48) : Nat) : Int)
        unfold wrapI64
        omega
      rw [hstep, ih fuel (decimalStep v d) (p + 1) q
        (fun x hx => hdig x (List.mem_cons_of_mem d hx)) hb2 (by simpa using hfuel) hval]
      rw [List.foldl_cons, List.length_cons]
      congr 2
      omega

/-- The loop of `chunk_to_u64` over a run of digits that is followed by a non-digit or by
the end of the span: with fuel for every digit and a value that stays below `2^64`, it
accumulates the decimal value and stops right after the run. -/
theorem u64Loop_digits (mem : Memory) (rest : List Nat)
    (hrest : ∀ c, rest.head? = some c → chrDecDigits c = false) (digits : List Nat) :
    ∀ (fuel v p q : Nat), (∀ d, d ∈ digits → chrDecDigits d = true) →
      ByteSpan.bytes mem ⟨p, q⟩ = digits ++ rest → digits.length ≤ fuel →
      digits.foldl decimalStep v < SIZE_MOD →
      u64Loop mem fuel v ⟨p, q⟩ = (digits.foldl decimalStep v, ⟨p + digits.length, q⟩) := by
  induction digits with
  | nil =>
    intro fuel v p q _ hb _ _
    cases fuel with
    | zero => rfl
    | succ fuel =>
      rw [u64Loop]
      have hcond : ¬ ((ByteSpan.mk p q).toBool = true ∧
          chrDecDigits (ByteSpan.peek mem ⟨p, q⟩) = true) := by
        rintro ⟨h1, h2⟩
        rw [ByteSpan.toBool_iff] at h1
        rw [ByteSpan.peek_of_lt mem p q h1] at h2
        rw [ByteSpan.bytes_cons mem p q h1] at hb
        have := hrest (mem p) (by rw [← List.nil_append rest, ← hb]; rfl)
        rw [h2] at this
        exact Bool.noConfusion this
      rw [if_neg hcond]
      rfl
  | cons d ds ih =>
    intro fuel v p q hdig hb hfuel hval
    obtain ⟨hlt, hd, hb2⟩ := ByteSpan.bytes_eq_cons mem p q d (ds ++ rest) hb
    cases fuel with
    | zero => simp at hfuel
    | succ fuel =>
      rw [u64Loop]
      have hcond : (ByteSpan.mk p q).toBool = true ∧
          chrDecDigits (ByteSpan.peek mem ⟨p, q⟩) = true := by
        refine ⟨(ByteSpan.toBool_iff _).mpr hlt, ?_⟩
        rw [ByteSpan.peek_of_lt mem p q hlt, hd]
        exact hdig d (List.mem_cons_self d ds)
      rw [if_pos hcond, ByteSpan.peek_of_lt mem p q hlt, hd, ByteSpan.inc_of_lt p q hlt]
      rw [List.foldl_cons] at hval
      have hge := decimalStep_foldl_ge ds (decimalStep v d)
      have hlt2 : v * 10 + (d - 48) < SIZE_MOD := lt_of_le_of_lt hge hval
      have hstep : (v * 10 + (d - 48)) % SIZE_MOD = decimalStep v d :=
        Nat.mod_eq_of_lt hlt2
      rw [hstep, ih fuel (decimalStep v d) (p + 1) q
        (fun x hx => hdig x (List.mem_cons_of_mem d hx)) hb2 (by simpa using hfuel) hval]
      rw [List.foldl_cons, List.length_cons]
      congr 2
      omega

/-- A span views at least as many bytes as any prefix of its content has. -/
theorem ByteSpan.prefix_length_le (mem : Memory) (p q : Nat) (l1 l2 : List Nat)
    (h : ByteSpan.bytes mem ⟨p, q⟩ = l1 ++ l2) : l1.length ≤ q - p := by
  have := congrArg List.length h
  rw [ByteSpan.bytes_length, ByteSpan.size_eq, List.length_append] at this
  simp only at this
  omega

/-- The span that starts after a prefix of the bytes views the rest of the bytes. -/
theorem ByteSpan.bytes_after_prefix (mem : Memory) (p q : Nat) (l1 l2 : List Nat)
    (h : ByteSpan.bytes mem ⟨p, q⟩ = l1 ++ l2) :
    ByteSpan.bytes mem ⟨p + l1.length, q⟩ = l2 := by
  have hlen := ByteSpan.prefix_length_le mem p q l1 l2 h
  by_cases hpq : p ≤ q
  · rw [ByteSpan.bytes_split mem p (p + l1.length) q (by omega) (by omega)] at h
    have hl : (ByteSpan.bytes mem ⟨p, p + l1.length⟩).length = l1.length := by
      rw [ByteSpan.bytes_length, ByteSpan.size_eq]
      simp
    exact (List.append_inj h hl).2
  · have h0 : ByteSpan.bytes mem ⟨p, q⟩ = [] :=
      ByteSpan.bytes_eq_nil mem ⟨p, q⟩ (by rw [ByteSpan.size_eq]; simp only; omega)
    rw [h0] at h
    have h1 : l1 = [] := (List.append_eq_nil.mp h.symm).1
    have h2 : l2 = [] := (List.append_eq_nil.mp h.symm).2
    subst h1 h2
    exact h0

/-! ## `chunk_to_i64` -/

/-- C7: for a span whose content is an optional '-' followed by a non-empty run of decimal
digits (value below 2^63) followed by a rest that does not start with a digit,
`chunk_to_i64` returns the value of the run (negated when the '-' is present) and leaves
the span that views exactly the rest. -/
theorem chunk_to_i64_consumes_prefix (mem : Memory) (s : ByteSpan) (neg : Bool)
    (digits rest : List Nat)
    (hbytes : s.bytes mem = (if neg then [45] else []) ++ digits ++ rest)
    (hne : digits ≠ [])
    (hdig : ∀ d, d ∈ digits → chrDecDigits d = true)
    (hrest : ∀ c, rest.head? = some c → chrDecDigits c = false)
    (hval : decimalValue digits < 9223372036854775808) :
    (chunk_to_i64 mem s).1 =
      (if neg then - (decimalValue digits : Int) else (decimalValue digits : Int)) ∧
    (chunk_to_i64 mem s).2.bytes mem = rest ∧
    (chunk_to_i64 mem s).2 =
      ⟨s.fStart + (if neg then 1 else 0) + digits.length, s.fEnd⟩ := by
  obtain ⟨p, q⟩ := s
  cases neg with
  | false =>
    simp only [Bool.false_eq_true, if_false, List.nil_append, Nat.add_zero] at hbytes ⊢
    have hle := ByteSpan.prefix_length_le mem p q digits rest hbytes
    have hrestb := ByteSpan.bytes_after_prefix mem p q digits rest hbytes
    obtain ⟨d, ds, rfl⟩ := List.exists_cons_of_ne_nil hne
    obtain ⟨hlt, hd, -⟩ := ByteSpan.bytes_eq_cons mem p q d (ds ++ rest) hbytes
    have hdd := hdig d (List.mem_cons_self d ds)
    simp only [chrDecDigits, decide_eq_true_eq] at hdd
    have hnotneg : ((ByteSpan.mk p q).toBool && ByteSpan.peek mem ⟨p, q⟩ == 45) = false := by
      rw [ByteSpan.peek_of_lt mem p q hlt, hd]
      have : (d == 45) = false := by
        rw [beq_eq_false_iff_ne]
        omega
      simp [this]
    have hloop := i64Loop_digits mem rest hrest (d :: ds) (ByteSpan.size ⟨p, q⟩) 0 p q hdig
      hbytes (by rw [ByteSpan.size_eq]; simp only; omega) hval
    simp only [chunk_to_i64, hnotneg, Bool.false_eq_true, if_false]
    rw [Nat.cast_zero] at hloop
    rw [hloop]
    exact ⟨rfl, hrestb, rfl⟩
  | true =>
    simp only [if_true, List.singleton_append, List.cons_append] at hbytes ⊢
    obtain ⟨hlt, hd, hb2⟩ := ByteSpan.bytes_eq_cons mem p q 45 (digits ++ rest) hbytes
    have hle := ByteSpan.prefix_length_le mem (p + 1) q digits rest hb2
    have hrestb := ByteSpan.bytes_after_prefix mem (p + 1) q digits rest hb2
    have hneg : ((ByteSpan.mk p q).toBool && ByteSpan.peek mem ⟨p, q⟩ == 45) = true := by
      rw [ByteSpan.peek_of_lt mem p q hlt, hd, (ByteSpan.toBool_iff _).mpr hlt]
      rfl
    have hloop := i64Loop_digits mem rest hrest digits (ByteSpan.size ⟨p + 1, q⟩) 0 (p + 1) q
      hdig hb2 (by rw [ByteSpan.size_eq]; simp only; omega) hval
    simp only [chunk_to_i64, hneg, if_true, ByteSpan.inc_of_lt p q hlt]
    rw [Nat.cast_zero] at hloop
    rw [hloop]
    refine ⟨?_, hrestb, rfl⟩
    show wrapI64 (-((decimalValue digits : Nat) : Int)) = -((decimalValue digits : Nat) : Int)
    unfold wrapI64
    omega

/-- C7 at the input "12abc": `chunk_to_i64` yields 12 and leaves "abc". -/
theorem chunk_to_i64_consumes_prefix_witness :
    ByteSpan.bytes (memOf 4096 (cstr "12abc")) ⟨4096, 4101⟩ =
      (if false then [45] else []) ++ cstr "12" ++ cstr "abc" ∧
    cstr "12" ≠ [] ∧
    (∀ d, d ∈ cstr "12" → chrDecDigits d = true) ∧
    (∀ c, (cstr "abc").head? = some c → chrDecDigits c = false) ∧
    decimalValue (cstr "12") < 9223372036854775808 ∧
    (chunk_to_i64 (memOf 4096 (cstr "12abc")) ⟨4096, 4101⟩).1 =
      (if false then - (decimalValue (cstr "12") : Int) else (decimalValue (cstr "12") : Int)) ∧
    (chunk_to_i64 (memOf 4096 (cstr "12abc")) ⟨4096, 4101⟩).2.bytes
      (memOf 4096 (cstr "12abc")) = cstr "abc" ∧
    (chunk_to_i64 (memOf 4096 (cstr "12abc")) ⟨4096, 4101⟩).2 =
      ⟨(ByteSpan.mk 4096 4101).fStart + (if false then 1 else 0) + (cstr "12").length,
        (ByteSpan.mk 4096 4101).fEnd⟩ :=
  ⟨by decide, by decide, by decide, by decide, by decide,
    chunk_to_i64_consumes_prefix (memOf 4096 (cstr "12abc")) ⟨4096, 4101⟩ false
      (cstr "12") (cstr "abc") (by decide) (by decide) (by decide) (by decide) (by decide)⟩

/-! ## Parsing the empty span -/

/-- C10: for an empty span (`size() == 0`), `chunk_to_u64`, `chunk_to_i64` and
`chunk_to_double` each return 0, and the span is left exactly as it was passed in; the
local cursor of `chunk_to_double` does not move either. -/
theorem parse_empty_span_returns_zero (mem : Memory) (s : ByteSpan) (h : s.size = 0) :
    chunk_to_u64 mem s = (0, s) ∧
    chunk_to_i64 mem s = (0, s) ∧
    chunk_to_double mem s = (0, s) ∧
    chunk_to_double_local mem s = (0, s) := by
  obtain ⟨p, q⟩ := s
  have hge : q ≤ p := by
    rw [ByteSpan.size_eq] at h
    simp only at h
    omega
  have hb : (ByteSpan.mk p q).toBool = false := (ByteSpan.toBool_false_iff _).mpr hge
  have hpeek := ByteSpan.peek_of_ge mem p q hge
  have hlocal : chunk_to_double_local mem ⟨p, q⟩ = (0, ⟨p, q⟩) := by
    simp [chunk_to_double_local, parseSign, parseIntPart, parseFracPart, hpeek, chrDecDigits]
  refine ⟨?_, ?_, ?_, hlocal⟩
  · simp [chunk_to_u64, h, u64Loop]
  · simp [chunk_to_i64, hb, h, i64Loop]
  · simp [chunk_to_double, hlocal]

/-- C10 at the default span `ByteSpan()`. -/
theorem parse_empty_span_returns_zero_witness :
    ByteSpan.null.size = 0 ∧
    chunk_to_u64 (memOf 4096 (cstr "7")) ByteSpan.null = (0, ByteSpan.null) ∧
    chunk_to_i64 (memOf 4096 (cstr "7")) ByteSpan.null = (0, ByteSpan.null) ∧
    chunk_to_double (memOf 4096 (cstr "7")) ByteSpan.null = (0, ByteSpan.null) ∧
    chunk_to_double_local (memOf 4096 (cstr "7")) ByteSpan.null = (0, ByteSpan.null) :=
  ⟨by decide, parse_empty_span_returns_zero (memOf 4096 (cstr "7")) ByteSpan.null (by decide)⟩

/-! ## `chunk_to_double` -/

/-- C9: the code at the input "-12.5e2". The value is -1250 and the local cursor ends at
the end of the input, but the parameter is a reference to const: the span left with the
caller is the span passed in, still holding all seven bytes. -/
theorem chunk_to_double_leaves_caller_span :
    chunk_to_double (memOf 4096 (cstr "-12.5e2")) ⟨4096, 4103⟩ = (-1250, ⟨4096, 4103⟩) ∧
    chunk_to_double_local (memOf 4096 (cstr "-12.5e2")) ⟨4096, 4103⟩ =
      (-1250, ⟨4103, 4103⟩) ∧
    (chunk_to_double (memOf 4096 (cstr "-12.5e2")) ⟨4096, 4103⟩).2.bytes
      (memOf 4096 (cstr "-12.5e2")) = cstr "-12.5e2" ∧
    (chunk_to_double (memOf 4096 (cstr "-12.5e2")) ⟨4096, 4103⟩).2.size = 7 := by
  refine ⟨by decide!, by decide!, by decide, by decide⟩


theorem ByteSpan.peek_of_bytes (mem : Memory) (s : ByteSpan) (l : List Nat)
    (h : s.bytes mem = l) : s.peek mem = l.headD 0 := by
  obtain ⟨p, q⟩ := s
  rw [ByteSpan.peek_eq_head, h]

theorem ByteSpan.inc_of_bytes_cons (mem : Memory) (s : ByteSpan) (c : Nat) (l : List Nat)
    (h : s.bytes mem = c :: l) :
    s.inc = ⟨s.fStart + 1, s.fEnd⟩ ∧ ByteSpan.bytes mem ⟨s.fStart + 1, s.fEnd⟩ = l := by
  obtain ⟨p, q⟩ := s
  obtain ⟨hlt, -, hb⟩ := ByteSpan.bytes_eq_cons mem p q c l h
  rw [ByteSpan.inc_of_lt p q hlt]
  exact ⟨rfl, hb⟩

theorem head_not_digit (l : List Nat) (h : chrDecDigits (l.headD 0) = false) :
    ∀ c, l.head? = some c → chrDecDigits c = false := by
  intro c hc
  cases l with
  | nil => simp at hc
  | cons x xs =>
    simp only [List.head?_cons, Option.some.injEq] at hc
    subst hc
    exact h

/-- The function `chunk_to_u64` on a span whose content is a run of digits (value below
`2^64`) followed by a non-digit or by nothing: it returns the value of the run and leaves
the span that views the rest. -/
theorem chunk_to_u64_digits (mem : Memory) (s : ByteSpan) (digits rest : List Nat)
    (h : s.bytes mem = digits ++ rest)
    (hdig : ∀ d, d ∈ digits → chrDecDigits d = true)
    (hrest : chrDecDigits (rest.headD 0) = false)
    (hval : decimalValue digits < SIZE_MOD) :
    chunk_to_u64 mem s = (decimalValue digits, ⟨s.fStart + digits.length, s.fEnd⟩) ∧
    ByteSpan.bytes mem ⟨s.fStart + digits.length, s.fEnd⟩ = rest := by
  obtain ⟨p, q⟩ := s
  have hle := ByteSpan.prefix_length_le mem p q digits rest h
  refine ⟨?_, ByteSpan.bytes_after_prefix mem p q digits rest h⟩
  exact u64Loop_digits mem rest (head_not_digit rest hrest) digits (ByteSpan.size ⟨p, q⟩) 0 p q
    hdig h (by rw [ByteSpan.size_eq]; exact hle) hval

/-- The stage "Parse optional sign" on a span that starts with an optional sign. -/
theorem parseSign_spec (mem : Memory) (s : ByteSpan) (sg : NumSign) (R : List Nat)
    (h : s.bytes mem = sg.bytes ++ R)
    (hR : sg = NumSign.absent → R.headD 0 ≠ 43 ∧ R.headD 0 ≠ 45) :
    parseSign mem s =
      { s := ⟨s.fStart + sg.bytes.length, s.fEnd⟩, sign := (sg.value : ℚ), res := 0,
        hasIntPart := false, hasFracPart := false } ∧
    ByteSpan.bytes mem ⟨s.fStart + sg.bytes.length, s.fEnd⟩ = R := by
  have hpeek := ByteSpan.peek_of_bytes mem s _ h
  cases sg with
  | absent =>
    obtain ⟨h43, h45⟩ := hR rfl
    simp only [NumSign.bytes, List.nil_append] at h hpeek
    simp only [parseSign, hpeek, h43, h45, if_false, NumSign.bytes, List.length_nil,
      Nat.add_zero, NumSign.value, Int.cast_one]
    exact ⟨trivial, h⟩
  | plus =>
    simp only [NumSign.bytes, List.singleton_append, List.headD_cons] at h hpeek
    obtain ⟨hinc, hb⟩ := ByteSpan.inc_of_bytes_cons mem s 43 R h
    simp only [parseSign, hpeek, if_true, hinc, NumSign.bytes, List.length_singleton,
      NumSign.value, Int.cast_one]
    exact ⟨trivial, hb⟩
  | minus =>
    simp only [NumSign.bytes, List.singleton_append, List.headD_cons] at h hpeek
    obtain ⟨hinc, hb⟩ := ByteSpan.inc_of_bytes_cons mem s 45 R h
    simp only [parseSign, hpeek, if_true, hinc, NumSign.bytes, List.length_singleton,
      NumSign.value]
    refine ⟨?_, hb⟩
    norm_num

theorem toLongLong_of_lt (n : Nat) (h : n < 9223372036854775808) :
    toLongLong n = (n : Int) := by
  have hm : n % SIZE_MOD = n := Nat.mod_eq_of_lt (by unfold SIZE_MOD; omega)
  unfold toLongLong
  rw [hm, if_pos h]

/-- The stage "Parse integer part" on a span that starts with a run of digits (value below
`2^63`) followed by a non-digit or by nothing. -/
theorem parseIntPart_spec (mem : Memory) (st : DoubleParse) (ds R : List Nat)
    (h : st.s.bytes mem = ds ++ R)
    (hdig : ∀ d, d ∈ ds → chrDecDigits d = true)
    (hR : chrDecDigits (R.headD 0) = false)
    (hval : decimalValue ds < 9223372036854775808) :
    parseIntPart mem st =
      { s := ⟨st.s.fStart + ds.length, st.s.fEnd⟩, sign := st.sign,
        res := if ds = [] then st.res else (decimalValue ds : ℚ),
        hasIntPart := if ds = [] then st.hasIntPart else true,
        hasFracPart := st.hasFracPart } ∧
    ByteSpan.bytes mem ⟨st.s.fStart + ds.length, st.s.fEnd⟩ = R := by
  have hpeek := ByteSpan.peek_of_bytes mem st.s _ h
  cases ds with
  | nil =>
    simp only [List.nil_append] at h hpeek
    simp only [parseIntPart, hpeek, hR, Bool.false_eq_true, if_false, List.length_nil,
      Nat.add_zero, if_true]
    exact ⟨trivial, h⟩
  | cons d ds =>
    have hd := hdig d (List.mem_cons_self d ds)
    simp only [List.cons_append, List.headD_cons] at hpeek
    obtain ⟨hu, hb⟩ := chunk_to_u64_digits mem st.s (d :: ds) R h hdig hR
      (by unfold SIZE_MOD; omega)
    simp only [parseIntPart, hpeek, hd, if_true, hu, toLongLong_of_lt _ hval,
      reduceCtorEq, if_false, Int.cast_natCast]
    exact ⟨trivial, hb⟩

/-- The stage "Parse fractional part" on a span that starts with an optional point and
digits (value below `2^64`) followed by a byte that is neither a digit nor a point, or by
nothing. -/
theorem parseFracPart_spec (mem : Memory) (st : DoubleParse) (frac : Option (List Nat))
    (R : List Nat)
    (h : st.s.bytes mem = NumberText.fracBytes frac ++ R)
    (hdig : ∀ d, d ∈ frac.getD [] → chrDecDigits d = true)
    (hR : chrDecDigits (R.headD 0) = false) (hR46 : R.headD 0 ≠ 46)
    (hval : decimalValue (frac.getD []) < SIZE_MOD) :
    parseFracPart mem st =
      { s := ⟨st.s.fStart + (NumberText.fracBytes frac).length, st.s.fEnd⟩, sign := st.sign,
        res := if frac.getD [] = [] then st.res
          else st.res + (decimalValue (frac.getD []) : ℚ) / (10 : ℚ) ^ (frac.getD []).length,
        hasIntPart := st.hasIntPart,
        hasFracPart := if frac.getD [] = [] then st.hasFracPart else true } ∧
    ByteSpan.bytes mem ⟨st.s.fStart + (NumberText.fracBytes frac).length, st.s.fEnd⟩ = R := by
  have hpeek := ByteSpan.peek_of_bytes mem st.s _ h
  cases frac with
  | none =>
    simp only [NumberText.fracBytes, List.nil_append] at h hpeek
    simp only [parseFracPart, hpeek, hR46, if_false, NumberText.fracBytes, List.length_nil,
      Nat.add_zero, Option.getD_none, if_true]
    exact ⟨trivial, h⟩
  | some f =>
    simp only [NumberText.fracBytes, List.cons_append, List.headD_cons] at h hpeek
    simp only [Option.getD_some] at hdig hval
    obtain ⟨hinc, hb⟩ := ByteSpan.inc_of_bytes_cons mem st.s 46 (f ++ R) h
    have hpeek2 := ByteSpan.peek_of_bytes mem _ _ hb
    cases f with
    | nil =>
      simp only [List.nil_append] at hb hpeek2
      simp only [parseFracPart, hpeek, if_true, hinc, hpeek2, hR, Bool.false_eq_true, if_false,
        NumberText.fracBytes, List.length_singleton, Option.getD_some]
      exact ⟨trivial, hb⟩
    | cons d ds =>
      have hd := hdig d (List.mem_cons_self d ds)
      simp only [List.cons_append, List.headD_cons] at hpeek2
      obtain ⟨hu, hb2⟩ := chunk_to_u64_digits mem _ (d :: ds) R hb hdig hR hval
      simp only at hu hb2
      have hlen : st.s.fStart + (46 :: d :: ds).length = st.s.fStart + 1 + (d :: ds).length := by
        simp only [List.length_cons]
        omega
      simp only [parseFracPart, hpeek, if_true, hinc, hpeek2, hd, hu,
        NumberText.fracBytes, Option.getD_some, reduceCtorEq, if_false, hlen, powd]
      refine ⟨?_, hb2⟩
      have hdiff : ((st.s.fStart + 1 + (d :: ds).length : Nat) : Int) - ((st.s.fStart + 1 : Nat) : Int)
          = (((d :: ds).length : Nat) : Int) := by
        omega
      rw [hdiff, zpow_natCast]

/-- The stage "Parse optional exponent" at the end of the input. -/
theorem parseExponent_none (mem : Memory) (st : DoubleParse) (h : st.s.bytes mem = []) :
    parseExponent mem st = st := by
  have hpeek := ByteSpan.peek_of_bytes mem st.s _ h
  simp only [List.headD_nil] at hpeek
  simp [parseExponent, hpeek]

/-- The stage "Parse optional exponent" on a span that holds an exponent (digits of value
below `2^63`) and nothing after it. -/
theorem parseExponent_some (mem : Memory) (st : DoubleParse) (e : ExponentText)
    (h : st.s.bytes mem = e.letter :: (e.sign.bytes ++ e.digits))
    (hletter : e.letter = 101 ∨ e.letter = 69)
    (hdig : ∀ d, d ∈ e.digits → chrDecDigits d = true)
    (hval : decimalValue e.digits < 9223372036854775808) :
    (parseExponent mem st).res =
      st.res * (10 : ℚ) ^ (e.sign.value * (decimalValue e.digits : Int)) ∧
    (parseExponent mem st).sign = st.sign ∧
    (parseExponent mem st).s.bytes mem = [] := by
  obtain ⟨letter, sg, ds⟩ := e
  simp only at h hletter hdig hval ⊢
  have hpeek := ByteSpan.peek_of_bytes mem st.s _ h
  simp only [List.headD_cons] at hpeek
  obtain ⟨hinc, hb⟩ := ByteSpan.inc_of_bytes_cons mem st.s letter _ h
  have hpeek1 := ByteSpan.peek_of_bytes mem _ _ hb
  have hsigned :
      (if ByteSpan.peek mem ⟨st.s.fStart + 1, st.s.fEnd⟩ = 43 then
          ((1 : Int), (ByteSpan.mk (st.s.fStart + 1) st.s.fEnd).inc)
        else if ByteSpan.peek mem ⟨st.s.fStart + 1, st.s.fEnd⟩ = 45 then
          ((-1 : Int), (ByteSpan.mk (st.s.fStart + 1) st.s.fEnd).inc)
        else ((1 : Int), ByteSpan.mk (st.s.fStart + 1) st.s.fEnd)) =
        (sg.value, ⟨st.s.fStart + 1 + sg.bytes.length, st.s.fEnd⟩) ∧
      ByteSpan.bytes mem ⟨st.s.fStart + 1 + sg.bytes.length, st.s.fEnd⟩ = ds := by
    cases sg with
    | absent =>
      simp only [NumSign.bytes, List.nil_append] at hb hpeek1
      have hne : ds.headD 0 ≠ 43 ∧ ds.headD 0 ≠ 45 := by
        cases ds with
        | nil => simp
        | cons d ds =>
          have hd := hdig d (List.mem_cons_self d ds)
          simp only [chrDecDigits, decide_eq_true_eq] at hd
          simp only [List.headD_cons]
          omega
      simp only [hpeek1, hne.1, hne.2, if_false, NumSign.value, NumSign.bytes, List.length_nil,
        Nat.add_zero]
      exact ⟨trivial, hb⟩
    | plus =>
      simp only [NumSign.bytes, List.singleton_append, List.headD_cons] at hb hpeek1
      obtain ⟨hinc2, hb2⟩ := ByteSpan.inc_of_bytes_cons mem _ 43 ds hb
      simp only [hpeek1, if_true, hinc2, NumSign.value, NumSign.bytes, List.length_singleton]
      exact ⟨trivial, hb2⟩
    | minus =>
      simp only [NumSign.bytes, List.singleton_append, List.headD_cons] at hb hpeek1
      obtain ⟨hinc2, hb2⟩ := ByteSpan.inc_of_bytes_cons mem _ 45 ds hb
      simp only [hpeek1, if_true, hinc2, NumSign.value, NumSign.bytes, List.length_singleton]
      refine ⟨?_, hb2⟩
      norm_num
  obtain ⟨hsg, hb3⟩ := hsigned
  have hpeek3 := ByteSpan.peek_of_bytes mem _ _ hb3
  have hcond : ByteSpan.peek mem st.s = 101 ∨ ByteSpan.peek mem st.s = 69 := by
    rw [hpeek]
    exact hletter
  cases ds with
  | nil =>
    simp only [List.headD_nil] at hpeek3
    have hnd : chrDecDigits 0 = false := by decide
    simp only [parseExponent, hcond, if_true, hinc, hsg, hpeek3, hnd, Bool.false_eq_true,
      if_false, hb3]
    simp [decimalValue]
  | cons d ds =>
    have hd := hdig d (List.mem_cons_self d ds)
    simp only [List.headD_cons] at hpeek3
    obtain ⟨hu, hb4⟩ := chunk_to_u64_digits mem _ (d :: ds) [] (by simpa using hb3) hdig
      (by decide) (by unfold SIZE_MOD; omega)
    simp only [parseExponent, hcond, if_true, hinc, hsg, hpeek3, hd, hu,
      toLongLong_of_lt _ hval, powd, hb4]
    exact ⟨trivial, trivial, trivial⟩

theorem NumberText.expBytes_head (exp : Option ExponentText)
    (hok : ∀ e, exp = some e → e.letter = 101 ∨ e.letter = 69) :
    chrDecDigits ((NumberText.expBytes exp).headD 0) = false ∧
    (NumberText.expBytes exp).headD 0 ≠ 46 := by
  cases exp with
  | none => exact ⟨by decide, by decide⟩
  | some e =>
    simp only [NumberText.expBytes, List.headD_cons]
    rcases hok e rfl with h | h <;> rw [h] <;> exact ⟨by decide, by decide⟩

theorem NumberText.fracBytes_append_head (frac : Option (List Nat)) (R : List Nat)
    (hR : chrDecDigits (R.headD 0) = false) :
    chrDecDigits ((NumberText.fracBytes frac ++ R).headD 0) = false := by
  cases frac with
  | none => simpa [NumberText.fracBytes] using hR
  | some f => simp [NumberText.fracBytes, chrDecDigits]

theorem NumberText.expLetterOk_iff (n : NumberText) (h : n.expLetterOk = true) :
    ∀ e, n.exp = some e → e.letter = 101 ∨ e.letter = 69 := by
  intro e he
  simpa [NumberText.expLetterOk, he] using h

/-- The value `chunk_to_double` computes on a well-formed number text whose integer and
exponent digit runs are below `2^63` and whose fraction digit run is below `2^64`: in exact
arithmetic it is `sign * (int + frac / 10^(number of fraction digits)) * 10^(signed
exponent)`, and the local cursor ends at the end of the text. -/
theorem chunk_to_double_exact (mem : Memory) (s : ByteSpan) (n : NumberText)
    (hwf : n.WellFormed) (hbytes : s.bytes mem = n.bytes)
    (hint : decimalValue n.intDigits < 9223372036854775808)
    (hfrac : decimalValue n.fracDigits < SIZE_MOD)
    (hexp : decimalValue n.expDigits < 9223372036854775808) :
    (chunk_to_double mem s).1 = n.value ∧
    (chunk_to_double_local mem s).2.bytes mem = [] := by
  obtain ⟨hdi, hdf, hde, hlet, hsome⟩ := hwf
  have hletter := NumberText.expLetterOk_iff n hlet
  obtain ⟨hE1, hE2⟩ := NumberText.expBytes_head n.exp hletter
  have hF := NumberText.fracBytes_append_head n.frac _ hE1
  unfold NumberText.bytes at hbytes
  -- the optional sign
  have hsignR : n.sign = NumSign.absent →
      (n.intDigits ++ (NumberText.fracBytes n.frac ++ NumberText.expBytes n.exp)).headD 0 ≠ 43 ∧
      (n.intDigits ++ (NumberText.fracBytes n.frac ++ NumberText.expBytes n.exp)).headD 0 ≠ 45 := by
    intro _
    cases hi : n.intDigits with
    | nil =>
      rw [hi] at hsome
      cases hf : n.frac with
      | none => simp [NumberText.fracDigits, hf] at hsome
      | some f => simp [NumberText.fracBytes]
    | cons d ds =>
      have hd := hdi d (by rw [hi]; exact List.mem_cons_self d ds)
      simp only [chrDecDigits, decide_eq_true_eq] at hd
      simp only [List.cons_append, List.headD_cons]
      omega
  obtain ⟨h1, hb1⟩ := parseSign_spec mem s n.sign _ hbytes hsignR
  -- the integer part
  obtain ⟨h2, hb2⟩ := parseIntPart_spec mem (parseSign mem s) n.intDigits _
    (by rw [h1]; exact hb1) hdi hF hint
  -- the fractional part
  obtain ⟨h3, hb3⟩ := parseFracPart_spec mem (parseIntPart mem (parseSign mem s)) n.frac _
    (by rw [h2]; exact hb2) hdf hE1 hE2 hfrac
  have hflags : ¬ ((parseFracPart mem (parseIntPart mem (parseSign mem s))).hasIntPart = false ∧
      (parseFracPart mem (parseIntPart mem (parseSign mem s))).hasFracPart = false) := by
    rw [h3, h2, h1]
    simp only
    rintro ⟨hA, hB⟩
    rcases hsome with hs | hs
    · simp [hs] at hA
    · have : ¬ (Option.getD n.frac [] = []) := hs
      simp [this] at hB
  have hres3 : (parseFracPart mem (parseIntPart mem (parseSign mem s))).res =
      (decimalValue n.intDigits : ℚ) +
        (decimalValue n.fracDigits : ℚ) / (10 : ℚ) ^ n.fracDigits.length := by
    rw [h3, h2, h1]
    simp only [NumberText.fracDigits]
    by_cases hi : n.intDigits = [] <;> by_cases hf : Option.getD n.frac [] = [] <;>
      simp [hi, hf, decimalValue]
  have hsign3 : (parseFracPart mem (parseIntPart mem (parseSign mem s))).sign =
      (n.sign.value : ℚ) := by
    rw [h3, h2, h1]
  have hbytes3 : (parseFracPart mem (parseIntPart mem (parseSign mem s))).s.bytes mem =
      NumberText.expBytes n.exp := by
    rw [h3]
    exact hb3
  -- the exponent
  have hexpStage :
      (parseExponent mem (parseFracPart mem (parseIntPart mem (parseSign mem s)))).res =
        ((decimalValue n.intDigits : ℚ) +
          (decimalValue n.fracDigits : ℚ) / (10 : ℚ) ^ n.fracDigits.length) *
          (10 : ℚ) ^ (n.expSign.value * (decimalValue n.expDigits : Int)) ∧
      (parseExponent mem (parseFracPart mem (parseIntPart mem (parseSign mem s)))).sign =
        (n.sign.value : ℚ) ∧
      (parseExponent mem (parseFracPart mem (parseIntPart mem (parseSign mem s)))).s.bytes mem =
        [] := by
    cases he : n.exp with
    | none =>
      rw [he] at hbytes3
      rw [parseExponent_none mem _ hbytes3, hres3, hsign3]
      simp [NumberText.expSign, NumberText.expDigits, he, decimalValue, hbytes3,
        NumberText.expBytes]
    | some e =>
      rw [he] at hbytes3
      have hde2 : ∀ d, d ∈ e.digits → chrDecDigits d = true := by
        simpa [NumberText.expDigits, he] using hde
      have hv2 : decimalValue e.digits < 9223372036854775808 := by
        simpa [NumberText.expDigits, he] using hexp
      obtain ⟨r1, r2, r3⟩ := parseExponent_some mem _ e hbytes3 (hletter e he) hde2 hv2
      rw [r1, r2, hres3, hsign3]
      simp [NumberText.expSign, NumberText.expDigits, he, r3]
  obtain ⟨r1, r2, r3⟩ := hexpStage
  have hlocal : chunk_to_double_local mem s =
      ((parseExponent mem (parseFracPart mem (parseIntPart mem (parseSign mem s)))).res *
        (parseExponent mem (parseFracPart mem (parseIntPart mem (parseSign mem s)))).sign,
       (parseExponent mem (parseFracPart mem (parseIntPart mem (parseSign mem s)))).s) := by
    unfold chunk_to_double_local
    simp only [if_neg hflags]
  constructor
  · unfold chunk_to_double
    rw [hlocal]
    simp only [r1, r2, NumberText.value]
    ring
  · rw [hlocal]
    exact r3

/-- The exact value at the inputs "-12.5e2" (which yields -1250) is covered by
`chunk_to_double_exact`: every hypothesis holds there. -/
theorem chunk_to_double_exact_witness :
    (NumberText.mk NumSign.minus (cstr "12") (some (cstr "5"))
      (some ⟨101, NumSign.absent, cstr "2"⟩)).WellFormed ∧
    ByteSpan.bytes (memOf 4096 (cstr "-12.5e2")) ⟨4096, 4103⟩ =
      (NumberText.mk NumSign.minus (cstr "12") (some (cstr "5"))
        (some ⟨101, NumSign.absent, cstr "2"⟩)).bytes ∧
    (NumberText.mk NumSign.minus (cstr "12") (some (cstr "5"))
      (some ⟨101, NumSign.absent, cstr "2"⟩)).value = -1250 ∧
    ((chunk_to_double (memOf 4096 (cstr "-12.5e2")) ⟨4096, 4103⟩).1 =
      (NumberText.mk NumSign.minus (cstr "12") (some (cstr "5"))
        (some ⟨101, NumSign.absent, cstr "2"⟩)).value ∧
     (chunk_to_double_local (memOf 4096 (cstr "-12.5e2")) ⟨4096, 4103⟩).2.bytes
        (memOf 4096 (cstr "-12.5e2")) = []) :=
  ⟨by decide, by decide, by decide!,
    chunk_to_double_exact (memOf 4096 (cstr "-12.5e2")) ⟨4096, 4103⟩
      (NumberText.mk NumSign.minus (cstr "12") (some (cstr "5"))
        (some ⟨101, NumSign.absent, cstr "2"⟩))
      (by decide) (by decide) (by decide) (by decide) (by decide)⟩

/-- C8: the code at an integer run between `2^63` and `2^64`. The text
"9223372036854775808" is of the stated form, its only digit run is `2^63 < 2^64` and it
denotes `2^63`; `chunk_to_u64` returns `2^63`, the assignment to `long long intPart` turns
it into `-2^63`, and `chunk_to_double` returns `-2^63`. Likewise the exponent run
`2^64 - 1` of "1e18446744073709551615" becomes the `long long` -1 and the result is 1/10. -/
theorem chunk_to_double_long_long_wraps :
    (NumberText.mk NumSign.absent (cstr "9223372036854775808") none none).WellFormed ∧
    decimalValue (cstr "9223372036854775808") < SIZE_MOD ∧
    ByteSpan.bytes (memOf 4096 (cstr "9223372036854775808")) ⟨4096, 4115⟩ =
      (NumberText.mk NumSign.absent (cstr "9223372036854775808") none none).bytes ∧
    (NumberText.mk NumSign.absent (cstr "9223372036854775808") none none).value =
      9223372036854775808 ∧
    (chunk_to_double (memOf 4096 (cstr "9223372036854775808")) ⟨4096, 4115⟩).1 =
      -9223372036854775808 ∧
    (NumberText.mk NumSign.absent (cstr "1") none
      (some ⟨101, NumSign.absent, cstr "18446744073709551615"⟩)).WellFormed ∧
    decimalValue (cstr "18446744073709551615") < SIZE_MOD ∧
    ByteSpan.bytes (memOf 4096 (cstr "1e18446744073709551615")) ⟨4096, 4118⟩ =
      (NumberText.mk NumSign.absent (cstr "1") none
        (some ⟨101, NumSign.absent, cstr "18446744073709551615"⟩)).bytes ∧
    (chunk_to_double (memOf 4096 (cstr "1e18446744073709551615")) ⟨4096, 4118⟩).1 = 1 / 10 := by
  refine ⟨by decide, by decide, by decide, by decide!, by decide!, by decide, by decide,
    by decide, by decide!⟩

/-! ## `chunk_to_double` without a number, `chunk_to_i64` with a '+' -/

/-- The stage "Parse optional sign" in terms of `afterOptionalSign`: the sign is skipped
when there is one and the cursor then views the bytes after it. -/
theorem parseSign_afterOptionalSign (mem : Memory) (s : ByteSpan) :
    (parseSign mem s).res = 0 ∧ (parseSign mem s).hasIntPart = false ∧
    (parseSign mem s).hasFracPart = false ∧
    (parseSign mem s).s.bytes mem = afterOptionalSign (s.bytes mem) := by
  have hpeek := ByteSpan.peek_of_bytes mem s _ rfl
  cases hb : s.bytes mem with
  | nil =>
    rw [hb] at hpeek
    simp only [List.headD_nil] at hpeek
    simp [parseSign, hpeek, hb, afterOptionalSign]
  | cons c r =>
    rw [hb] at hpeek
    simp only [List.headD_cons] at hpeek
    obtain ⟨hinc, hinc2⟩ := ByteSpan.inc_of_bytes_cons mem s c r hb
    by_cases h43 : c = 43
    · simp [parseSign, hpeek, h43, hinc, hinc2, afterOptionalSign]
    · by_cases h45 : c = 45
      · simp [parseSign, hpeek, h45, hinc, hinc2, afterOptionalSign]
      · simp [parseSign, hpeek, h43, h45, hb, afterOptionalSign]

/-- C11: `chunk_to_double` returns 0 for every input that, after its optional leading '+'
or '-', has neither a leading decimal digit nor a '.' immediately followed by a decimal
digit; the value is the plain result, no error is signalled. -/
theorem chunk_to_double_zero_without_number (mem : Memory) (s : ByteSpan)
    (h : startsNumber (afterOptionalSign (s.bytes mem)) = false) :
    (chunk_to_double mem s).1 = 0 := by
  obtain ⟨hres, hi, hf, hb⟩ := parseSign_afterOptionalSign mem s
  unfold chunk_to_double chunk_to_double_local
  generalize parseSign mem s = st at hres hi hf hb ⊢
  rw [← hb] at h
  have hpeek := ByteSpan.peek_of_bytes mem st.s _ rfl
  have hint : parseIntPart mem st = st := by
    cases hl : st.s.bytes mem with
    | nil =>
      rw [hl] at hpeek
      simp only [List.headD_nil] at hpeek
      simp [parseIntPart, hpeek, chrDecDigits]
    | cons c r =>
      rw [hl] at hpeek h
      simp only [List.headD_cons] at hpeek
      simp only [startsNumber, Bool.or_eq_false_iff] at h
      simp [parseIntPart, hpeek, h.1]
  have hfrac : (parseFracPart mem st).hasIntPart = false ∧
      (parseFracPart mem st).hasFracPart = false := by
    cases hl : st.s.bytes mem with
    | nil =>
      rw [hl] at hpeek
      simp only [List.headD_nil] at hpeek
      simp [parseFracPart, hpeek, hi, hf]
    | cons c r =>
      rw [hl] at hpeek h
      simp only [List.headD_cons] at hpeek
      simp only [startsNumber, Bool.or_eq_false_iff, Bool.and_eq_false_iff] at h
      by_cases h46 : c = 46
      · obtain ⟨hinc, hb2⟩ := ByteSpan.inc_of_bytes_cons mem st.s c r hl
        have hpeek2 := ByteSpan.peek_of_bytes mem _ _ hb2
        have hnd : chrDecDigits (r.headD 0) = false := by
          rcases h.2 with h2 | h2
          · simp [h46] at h2
          · exact h2
        simp only [parseFracPart, hpeek, h46, if_true, hinc, hpeek2, hnd, Bool.false_eq_true,
          if_false, hi, hf]
        exact ⟨trivial, trivial⟩
      · simp [parseFracPart, hpeek, h46, hi, hf]
  simp only [hint, hfrac.1, hfrac.2, and_self, if_true]

/-- C11 at the input "-.e3": after the '-' comes a '.' that no digit follows. -/
theorem chunk_to_double_zero_without_number_witness :
    startsNumber (afterOptionalSign
      (ByteSpan.bytes (memOf 4096 (cstr "-.e3")) ⟨4096, 4100⟩)) = false ∧
    (chunk_to_double (memOf 4096 (cstr "-.e3")) ⟨4096, 4100⟩).1 = 0 :=
  ⟨by decide,
    chunk_to_double_zero_without_number (memOf 4096 (cstr "-.e3")) ⟨4096, 4100⟩ (by decide)⟩

/-- The function `chunk_to_i64` on a span that starts with '+': the test for '-' fails
and '+' is no digit, so the loop does not run; the result is 0 and the span is not moved. -/
theorem chunk_to_i64_plus_not_consumed (mem : Memory) (s : ByteSpan) (r : List Nat)
    (h : s.bytes mem = 43 :: r) : chunk_to_i64 mem s = (0, s) := by
  obtain ⟨p, q⟩ := s
  obtain ⟨hlt, hd, -⟩ := ByteSpan.bytes_eq_cons mem p q 43 r h
  have hpeek := ByteSpan.peek_of_lt mem p q hlt
  rw [hd] at hpeek
  have hsz : ByteSpan.size ⟨p, q⟩ = (q - p - 1) + 1 := by
    rw [ByteSpan.size_eq]
    simp only
    omega
  simp [chunk_to_i64, hpeek, hsz, i64Loop, chrDecDigits]

/-- C12: the code at "+12". `chunk_to_i64` returns 0 and leaves the span on the '+', all
three bytes unconsumed, whereas on "-12" it returns -12 and consumes the whole input. -/
theorem chunk_to_i64_ignores_plus_sign :
    ByteSpan.bytes (memOf 4096 (cstr "+12")) ⟨4096, 4099⟩ = 43 :: cstr "12" ∧
    decimalValue (cstr "12") = 12 ∧
    chunk_to_i64 (memOf 4096 (cstr "+12")) ⟨4096, 4099⟩ = (0, ⟨4096, 4099⟩) ∧
    (chunk_to_i64 (memOf 4096 (cstr "+12")) ⟨4096, 4099⟩).2.bytes
      (memOf 4096 (cstr "+12")) = cstr "+12" ∧
    chunk_to_i64 (memOf 4096 (cstr "-12")) ⟨4096, 4099⟩ = (-12, ⟨4099, 4099⟩) := by
  refine ⟨by decide, by decide, by decide, by decide, by decide⟩

/-! ## Gradient stores -/

theorem GradientStore.set_same (store : GradientStore) (i : Nat) (g : SVGGradient) :
    (store.set i g) i = g := by
  simp [GradientStore.set]

theorem GradientStore.set_other (store : GradientStore) (i j : Nat) (g : SVGGradient)
    (h : j ≠ i) : (store.set i g) j = store j := by
  simp [GradientStore.set, h]

theorem GradientStore.set_eq_self (store : GradientStore) (i : Nat) :
    store.set i (store i) = store := by
  funext j
  by_cases h : j = i
  · subst h
    simp [GradientStore.set]
  · simp [GradientStore.set, h]

/-! ## The local part of `bindSelfToContext` -/

theorem SVGGradient.readCommonAttributes_attrs (g : SVGGradient) :
    g.readCommonAttributes.attrs = g.attrs ∧ g.readCommonAttributes.kind = g.kind ∧
    g.readCommonAttributes.needsBinding = g.needsBinding ∧
    g.readCommonAttributes.fTemplateReference = g.fTemplateReference := by
  obtain ⟨kind, attrs, nb, ht, gt, gr, gv, sm, gu, tr⟩ := g
  obtain ⟨a1, a2, a3, a4, a5, a6, a7, a8, a9, a10, a11, asm, agu, agt⟩ := attrs
  cases asm <;> cases agu <;> cases agt <;> simp [SVGGradient.readCommonAttributes]

theorem SVGLinearGradient.bindSelfLocal_frame (env : BindEnv) (g : SVGGradient) :
    (SVGLinearGradient.bindSelfLocal env g).attrs = g.attrs ∧
    (SVGLinearGradient.bindSelfLocal env g).kind = g.kind ∧
    (SVGLinearGradient.bindSelfLocal env g).needsBinding = g.needsBinding ∧
    (SVGLinearGradient.bindSelfLocal env g).fTemplateReference = g.fTemplateReference ∧
    (SVGLinearGradient.bindSelfLocal env g).fGradientUnits =
      g.readCommonAttributes.fGradientUnits ∧
    (SVGLinearGradient.bindSelfLocal env g).fGradient.stops = g.fGradient.stops := by
  obtain ⟨h1, h2, h3, h4⟩ := SVGGradient.readCommonAttributes_attrs g
  refine ⟨h1, h2, h3, h4, rfl, ?_⟩
  obtain ⟨kind, attrs, nb, ht, gt, gr, gv, sm, gu, tr⟩ := g
  obtain ⟨a1, a2, a3, a4, a5, a6, a7, a8, a9, a10, a11, asm, agu, agt⟩ := attrs
  cases asm <;> cases agu <;> cases agt <;>
    simp [SVGLinearGradient.bindSelfLocal, SVGGradient.readCommonAttributes,
      BLGradient.setLinearValues, BLGradient.setTransform, BLGradient.setExtendMode]

theorem SVGRadialGradient.bindSelfLocal_radial_frame (env : BindEnv) (g : SVGGradient) :
    (SVGRadialGradient.bindSelfLocal env g).attrs = g.attrs ∧
    (SVGRadialGradient.bindSelfLocal env g).kind = g.kind ∧
    (SVGRadialGradient.bindSelfLocal env g).needsBinding = g.needsBinding ∧
    (SVGRadialGradient.bindSelfLocal env g).fTemplateReference = g.fTemplateReference ∧
    (SVGRadialGradient.bindSelfLocal env g).fGradientUnits =
      g.readCommonAttributes.fGradientUnits ∧
    (SVGRadialGradient.bindSelfLocal env g).fGradient.stops = g.fGradient.stops := by
  obtain ⟨h1, h2, h3, h4⟩ := SVGGradient.readCommonAttributes_attrs g
  refine ⟨h1, h2, h3, h4, rfl, ?_⟩
  obtain ⟨kind, attrs, nb, ht, gt, gr, gv, sm, gu, tr⟩ := g
  obtain ⟨a1, a2, a3, a4, a5, a6, a7, a8, a9, a10, a11, asm, agu, agt⟩ := attrs
  cases asm <;> cases agu <;> cases agt <;>
    simp [SVGRadialGradient.bindSelfLocal, SVGGradient.readCommonAttributes,
      BLGradient.setRadialValues, BLGradient.setExtendMode]

/-- The values a linear gradient gets in object space. -/
theorem SVGLinearGradient.bindSelfLocal_object_values (env : BindEnv) (g : SVGGradient)
    (h : (SVGLinearGradient.bindSelfLocal env g).fGradientUnits =
      SpaceUnitsKind.SVG_SPACE_OBJECT) :
    (SVGLinearGradient.bindSelfLocal env g).fGradient.values.x0 =
      objectCoordinate env g.attrs.x1 env.objectFrame.x env.objectFrame.w
        (env.objectFrame.x + 0) ∧
    (SVGLinearGradient.bindSelfLocal env g).fGradient.values.y0 =
      objectCoordinate env g.attrs.y1 env.objectFrame.y env.objectFrame.h
        (env.objectFrame.y + 0) ∧
    (SVGLinearGradient.bindSelfLocal env g).fGradient.values.x1 =
      objectCoordinate env g.attrs.x2 env.objectFrame.x env.objectFrame.w
        (env.objectFrame.x + env.objectFrame.w) ∧
    (SVGLinearGradient.bindSelfLocal env g).fGradient.values.y1 =
      objectCoordinate env g.attrs.y2 env.objectFrame.y env.objectFrame.h
        (env.objectFrame.y + 0) := by
  have hu : g.readCommonAttributes.fGradientUnits = SpaceUnitsKind.SVG_SPACE_OBJECT := h
  unfold SVGLinearGradient.bindSelfLocal
  simp only [hu]
  by_cases ht : g.readCommonAttributes.fHasGradientTransform = true <;>
    simp [ht, BLGradient.setLinearValues, BLGradient.setTransform]

/-- The values a radial gradient gets in object space, the radius apart. -/
theorem SVGRadialGradient.bindSelfLocal_radial_object_values (env : BindEnv) (g : SVGGradient)
    (h : (SVGRadialGradient.bindSelfLocal env g).fGradientUnits =
      SpaceUnitsKind.SVG_SPACE_OBJECT) :
    (SVGRadialGradient.bindSelfLocal env g).fGradient.values.x0 =
      objectCoordinate env g.attrs.cx env.objectFrame.x env.objectFrame.w
        (env.objectFrame.x + env.objectFrame.w * (1 / 2)) ∧
    (SVGRadialGradient.bindSelfLocal env g).fGradient.values.y0 =
      objectCoordinate env g.attrs.cy env.objectFrame.y env.objectFrame.h
        (env.objectFrame.y + env.objectFrame.h * (1 / 2)) ∧
    (SVGRadialGradient.bindSelfLocal env g).fGradient.values.x1 =
      objectCoordinate env g.attrs.fx env.objectFrame.x env.objectFrame.w
        (SVGRadialGradient.bindSelfLocal env g).fGradient.values.x0 ∧
    (SVGRadialGradient.bindSelfLocal env g).fGradient.values.y1 =
      objectCoordinate env g.attrs.fy env.objectFrame.y env.objectFrame.h
        (SVGRadialGradient.bindSelfLocal env g).fGradient.values.y0 := by
  have hu : g.readCommonAttributes.fGradientUnits = SpaceUnitsKind.SVG_SPACE_OBJECT := h
  unfold SVGRadialGradient.bindSelfLocal
  simp only [hu]
  simp [BLGradient.setRadialValues]

/-- After `bindSelfToContext` returns, the state of the gradient is the local body applied
to its state as `resolveReference` left it. -/
theorem SVGGradient.bindSelfToContext_self (env : BindEnv)
    (rec : GradientStore → Nat → Option (BLVar × GradientStore))
    (store store1 : GradientStore) (self : Nat)
    (h : SVGGradient.bindSelfToContext env rec store self = some store1) :
    ∃ storeR, SVGGradient.resolveReference env rec store self = some storeR ∧
      ((storeR self).kind = GradientKind.linearGradient ∧
        store1 = storeR.set self (SVGLinearGradient.bindSelfLocal env (storeR self)) ∨
       (storeR self).kind = GradientKind.radialGradient ∧
        store1 = storeR.set self (SVGRadialGradient.bindSelfLocal env (storeR self))) := by
  unfold SVGGradient.bindSelfToContext at h
  cases hr : SVGGradient.resolveReference env rec store self with
  | none => simp [hr] at h
  | some storeR =>
    refine ⟨storeR, rfl, ?_⟩
    simp only [hr, Option.some.injEq] at h
    cases hk : (storeR self).kind with
    | linearGradient =>
      simp only [SVGGradient.bindSelfLocal, hk] at h
      exact Or.inl ⟨rfl, h.symm⟩
    | radialGradient =>
      simp only [SVGGradient.bindSelfLocal, hk] at h
      exact Or.inr ⟨rfl, h.symm⟩

theorem objectCoordinate_bareNumber (env : BindEnv) (v origin extent unset : ℚ) :
    objectCoordinate env (SVGDimension.bareNumber v) origin extent unset =
      if v ≤ 1 then origin + v * extent else origin + v := by
  simp [objectCoordinate, SVGDimension.bareNumber, SVGDimension.isSet, SVGDimension.value]

/-! ## Bare numbers in object space -/

/-- C13, as stated, fails: on the box with origin (10, 20) and width 200, the linear
gradient whose `x1` is the bare number 0.5 is in object space and resolves `x1` to
10 + 0.5 * 200 = 110, not to 100. -/
theorem object_space_fraction_adds_origin :
    (SVGGradient.bindSelfToContextN
        (sampleEnv { x := 10, y := 20, w := 200, h := 100 } (fun _ => none) false) 0
        (storeWithX1 (1 / 2)) 0).map
      (fun s => ((s 0).fGradientUnits, (s 0).attrs.x1, (s 0).fGradient.values.x0)) =
    some (SpaceUnitsKind.SVG_SPACE_OBJECT, SVGDimension.bareNumber (1 / 2), 110) := by
  decide!

/-- C13, amended: in object space a bare number `v <= 1.0` (exactly 1, zero and negative
`v` included) resolves to the origin of the bounding box plus `v` times the extent of the
box on that axis: `x + v * w` for x1, x2, cx, fx and `y + v * h` for y1, y2, cy, fy. -/
theorem object_space_number_at_most_one (env : BindEnv)
    (rec : GradientStore → Nat → Option (BLVar × GradientStore))
    (store store1 : GradientStore) (self : Nat) (v : ℚ)
    (hbind : SVGGradient.bindSelfToContext env rec store self = some store1)
    (hobj : (store1 self).fGradientUnits = SpaceUnitsKind.SVG_SPACE_OBJECT)
    (hv : v ≤ 1) :
    ((store1 self).kind = GradientKind.linearGradient →
      ((store1 self).attrs.x1 = SVGDimension.bareNumber v →
        (store1 self).fGradient.values.x0 = env.objectFrame.x + v * env.objectFrame.w) ∧
      ((store1 self).attrs.y1 = SVGDimension.bareNumber v →
        (store1 self).fGradient.values.y0 = env.objectFrame.y + v * env.objectFrame.h) ∧
      ((store1 self).attrs.x2 = SVGDimension.bareNumber v →
        (store1 self).fGradient.values.x1 = env.objectFrame.x + v * env.objectFrame.w) ∧
      ((store1 self).attrs.y2 = SVGDimension.bareNumber v →
        (store1 self).fGradient.values.y1 = env.objectFrame.y + v * env.objectFrame.h)) ∧
    ((store1 self).kind = GradientKind.radialGradient →
      ((store1 self).attrs.cx = SVGDimension.bareNumber v →
        (store1 self).fGradient.values.x0 = env.objectFrame.x + v * env.objectFrame.w) ∧
      ((store1 self).attrs.cy = SVGDimension.bareNumber v →
        (store1 self).fGradient.values.y0 = env.objectFrame.y + v * env.objectFrame.h) ∧
      ((store1 self).attrs.fx = SVGDimension.bareNumber v →
        (store1 self).fGradient.values.x1 = env.objectFrame.x + v * env.objectFrame.w) ∧
      ((store1 self).attrs.fy = SVGDimension.bareNumber v →
        (store1 self).fGradient.values.y1 = env.objectFrame.y + v * env.objectFrame.h)) := by
  obtain ⟨storeR, -, hcase⟩ := SVGGradient.bindSelfToContext_self env rec store store1 self hbind
  rcases hcase with ⟨hk, rfl⟩ | ⟨hk, rfl⟩
  · rw [GradientStore.set_same] at hobj ⊢
    obtain ⟨ha, hkind, -, -, -, -⟩ := SVGLinearGradient.bindSelfLocal_frame env (storeR self)
    obtain ⟨v0, v1, v2, v3⟩ := SVGLinearGradient.bindSelfLocal_object_values env _ hobj
    constructor
    · intro _
      rw [ha, v0, v1, v2, v3]
      refine ⟨?_, ?_, ?_, ?_⟩ <;> intro hd <;>
        rw [hd, objectCoordinate_bareNumber, if_pos hv]
    · intro hrad
      rw [hkind, hk] at hrad
      exact absurd hrad (by decide)
  · rw [GradientStore.set_same] at hobj ⊢
    obtain ⟨ha, hkind, -, -, -, -⟩ := SVGRadialGradient.bindSelfLocal_radial_frame env (storeR self)
    obtain ⟨v0, v1, v2, v3⟩ := SVGRadialGradient.bindSelfLocal_radial_object_values env _ hobj
    constructor
    · intro hlin
      rw [hkind, hk] at hlin
      exact absurd hlin (by decide)
    · intro _
      rw [ha]
      refine ⟨?_, ?_, ?_, ?_⟩ <;> intro hd
      · rw [v0, hd, objectCoordinate_bareNumber, if_pos hv]
      · rw [v1, hd, objectCoordinate_bareNumber, if_pos hv]
      · rw [v2, hd, objectCoordinate_bareNumber, if_pos hv]
      · rw [v3, hd, objectCoordinate_bareNumber, if_pos hv]

/-- C13, amended, at the box (10, 20, 200, 100) and `x1 = 0.5`. -/
theorem object_space_number_at_most_one_witness :
    SVGGradient.bindSelfToContext
        (sampleEnv { x := 10, y := 20, w := 200, h := 100 } (fun _ => none) false)
        (fun _ _ => none) (storeWithX1 (1 / 2)) 0 =
      some ((storeWithX1 (1 / 2)).set 0
        (SVGLinearGradient.bindSelfLocal
          (sampleEnv { x := 10, y := 20, w := 200, h := 100 } (fun _ => none) false)
          (storeWithX1 (1 / 2) 0))) ∧
    ((storeWithX1 (1 / 2)).set 0
        (SVGLinearGradient.bindSelfLocal
          (sampleEnv { x := 10, y := 20, w := 200, h := 100 } (fun _ => none) false)
          (storeWithX1 (1 / 2) 0)) 0).fGradientUnits = SpaceUnitsKind.SVG_SPACE_OBJECT ∧
    ((1 : ℚ) / 2 ≤ 1) ∧
    (((storeWithX1 (1 / 2)).set 0
        (SVGLinearGradient.bindSelfLocal
          (sampleEnv { x := 10, y := 20, w := 200, h := 100 } (fun _ => none) false)
          (storeWithX1 (1 / 2) 0)) 0).attrs.x1 = SVGDimension.bareNumber (1 / 2) →
      ((storeWithX1 (1 / 2)).set 0
        (SVGLinearGradient.bindSelfLocal
          (sampleEnv { x := 10, y := 20, w := 200, h := 100 } (fun _ => none) false)
          (storeWithX1 (1 / 2) 0)) 0).fGradient.values.x0 = 10 + 1 / 2 * 200) :=
  ⟨rfl, by decide, by norm_num,
    ((object_space_number_at_most_one
      (sampleEnv { x := 10, y := 20, w := 200, h := 100 } (fun _ => none) false)
      (fun _ _ => none) (storeWithX1 (1 / 2)) _ 0 (1 / 2) rfl (by decide) (by norm_num)).1
        (by decide)).1⟩

/-- C14: in object space a bare number `v > 1.0` resolves to the origin of the bounding
box plus `v` on that axis: `x + v` for x1, x2, cx, fx and `y + v` for y1, y2, cy, fy,
whatever the extent of the box. -/
theorem object_space_number_above_one (env : BindEnv)
    (rec : GradientStore → Nat → Option (BLVar × GradientStore))
    (store store1 : GradientStore) (self : Nat) (v : ℚ)
    (hbind : SVGGradient.bindSelfToContext env rec store self = some store1)
    (hobj : (store1 self).fGradientUnits = SpaceUnitsKind.SVG_SPACE_OBJECT)
    (hv : 1 < v) :
    ((store1 self).kind = GradientKind.linearGradient →
      ((store1 self).attrs.x1 = SVGDimension.bareNumber v →
        (store1 self).fGradient.values.x0 = env.objectFrame.x + v) ∧
      ((store1 self).attrs.y1 = SVGDimension.bareNumber v →
        (store1 self).fGradient.values.y0 = env.objectFrame.y + v) ∧
      ((store1 self).attrs.x2 = SVGDimension.bareNumber v →
        (store1 self).fGradient.values.x1 = env.objectFrame.x + v) ∧
      ((store1 self).attrs.y2 = SVGDimension.bareNumber v →
        (store1 self).fGradient.values.y1 = env.objectFrame.y + v)) ∧
    ((store1 self).kind = GradientKind.radialGradient →
      ((store1 self).attrs.cx = SVGDimension.bareNumber v →
        (store1 self).fGradient.values.x0 = env.objectFrame.x + v) ∧
      ((store1 self).attrs.cy = SVGDimension.bareNumber v →
        (store1 self).fGradient.values.y0 = env.objectFrame.y + v) ∧
      ((store1 self).attrs.fx = SVGDimension.bareNumber v →
        (store1 self).fGradient.values.x1 = env.objectFrame.x + v) ∧
      ((store1 self).attrs.fy = SVGDimension.bareNumber v →
        (store1 self).fGradient.values.y1 = env.objectFrame.y + v)) := by
  have hnv : ¬ v ≤ 1 := not_le.mpr hv
  obtain ⟨storeR, -, hcase⟩ := SVGGradient.bindSelfToContext_self env rec store store1 self hbind
  rcases hcase with ⟨hk, rfl⟩ | ⟨hk, rfl⟩
  · rw [GradientStore.set_same] at hobj ⊢
    obtain ⟨ha, hkind, -, -, -, -⟩ := SVGLinearGradient.bindSelfLocal_frame env (storeR self)
    obtain ⟨v0, v1, v2, v3⟩ := SVGLinearGradient.bindSelfLocal_object_values env _ hobj
    constructor
    · intro _
      rw [ha, v0, v1, v2, v3]
      refine ⟨?_, ?_, ?_, ?_⟩ <;> intro hd <;>
        rw [hd, objectCoordinate_bareNumber, if_neg hnv]
    · intro hrad
      rw [hkind, hk] at hrad
      exact absurd hrad (by decide)
  · rw [GradientStore.set_same] at hobj ⊢
    obtain ⟨ha, hkind, -, -, -, -⟩ := SVGRadialGradient.bindSelfLocal_radial_frame env (storeR self)
    obtain ⟨v0, v1, v2, v3⟩ := SVGRadialGradient.bindSelfLocal_radial_object_values env _ hobj
    constructor
    · intro hlin
      rw [hkind, hk] at hlin
      exact absurd hlin (by decide)
    · intro _
      rw [ha]
      refine ⟨?_, ?_, ?_, ?_⟩ <;> intro hd
      · rw [v0, hd, objectCoordinate_bareNumber, if_neg hnv]
      · rw [v1, hd, objectCoordinate_bareNumber, if_neg hnv]
      · rw [v2, hd, objectCoordinate_bareNumber, if_neg hnv]
      · rw [v3, hd, objectCoordinate_bareNumber, if_neg hnv]

/-- C14 at the box (10, 20, 200, 100) and `x1 = 5`: the result is 10 + 5. -/
theorem object_space_number_above_one_witness :
    SVGGradient.bindSelfToContext
        (sampleEnv { x := 10, y := 20, w := 200, h := 100 } (fun _ => none) false)
        (fun _ _ => none) (storeWithX1 5) 0 =
      some ((storeWithX1 5).set 0
        (SVGLinearGradient.bindSelfLocal
          (sampleEnv { x := 10, y := 20, w := 200, h := 100 } (fun _ => none) false)
          (storeWithX1 5 0))) ∧
    ((storeWithX1 5).set 0
        (SVGLinearGradient.bindSelfLocal
          (sampleEnv { x := 10, y := 20, w := 200, h := 100 } (fun _ => none) false)
          (storeWithX1 5 0)) 0).fGradientUnits = SpaceUnitsKind.SVG_SPACE_OBJECT ∧
    ((1 : ℚ) < 5) ∧
    (((storeWithX1 5).set 0
        (SVGLinearGradient.bindSelfLocal
          (sampleEnv { x := 10, y := 20, w := 200, h := 100 } (fun _ => none) false)
          (storeWithX1 5 0)) 0).attrs.x1 = SVGDimension.bareNumber 5 →
      ((storeWithX1 5).set 0
        (SVGLinearGradient.bindSelfLocal
          (sampleEnv { x := 10, y := 20, w := 200, h := 100 } (fun _ => none) false)
          (storeWithX1 5 0)) 0).fGradient.values.x0 = 10 + 5) :=
  ⟨rfl, by decide, by norm_num,
    ((object_space_number_above_one
      (sampleEnv { x := 10, y := 20, w := 200, h := 100 } (fun _ => none) false)
      (fun _ _ => none) (storeWithX1 5) _ 0 5 rfl (by decide) (by norm_num)).1
        (by decide)).1⟩

/-! ## `resolveReference` and `getVariant` -/

/-- C17: when the gradient has no template reference, or `findNodeByHref` finds no node
for it, or the node found is no gradient, `resolveReference` returns and leaves every
gradient of the document (stops, gradientUnits, spread method, transform and all other
state) exactly as it was. -/
theorem resolveReference_without_template (env : BindEnv)
    (rec : GradientStore → Nat → Option (BLVar × GradientStore))
    (store : GradientStore) (self : Nat)
    (h : (store self).fTemplateReference = [] ∨
      env.findNodeByHref (store self).fTemplateReference = none ∨
      env.findNodeByHref (store self).fTemplateReference = some NodeRef.otherNode) :
    SVGGradient.resolveReference env rec store self = some store := by
  unfold SVGGradient.resolveReference
  rcases h with h | h | h
  · simp [h]
  · by_cases h0 : (store self).fTemplateReference = [] <;> simp [h0, h]
  · by_cases h0 : (store self).fTemplateReference = [] <;> simp [h0, h]

/-- C17 at a gradient whose reference "#rect" names a node that is no gradient. -/
theorem resolveReference_without_template_witness :
    (((fun _ => { sampleGradient [] [] with fTemplateReference := cstr "#rect" } :
        GradientStore) 0).fTemplateReference = [] ∨
      (sampleEnv { x := 0, y := 0, w := 1, h := 1 } sampleIndex false).findNodeByHref
        ((fun _ => { sampleGradient [] [] with fTemplateReference := cstr "#rect" } :
          GradientStore) 0).fTemplateReference = none ∨
      (sampleEnv { x := 0, y := 0, w := 1, h := 1 } sampleIndex false).findNodeByHref
        ((fun _ => { sampleGradient [] [] with fTemplateReference := cstr "#rect" } :
          GradientStore) 0).fTemplateReference = some NodeRef.otherNode) ∧
    SVGGradient.resolveReference (sampleEnv { x := 0, y := 0, w := 1, h := 1 } sampleIndex false)
      (fun _ _ => none)
      (fun _ => { sampleGradient [] [] with fTemplateReference := cstr "#rect" }) 0 =
      some (fun _ => { sampleGradient [] [] with fTemplateReference := cstr "#rect" }) :=
  ⟨Or.inr (Or.inr (by decide)),
    resolveReference_without_template
      (sampleEnv { x := 0, y := 0, w := 1, h := 1 } sampleIndex false) (fun _ _ => none)
      (fun _ => { sampleGradient [] [] with fTemplateReference := cstr "#rect" }) 0
      (Or.inr (Or.inr (by decide)))⟩

/-- What `getVariant` returns when it returns: the variant holds the gradient of the node
as bound, and the flag `needsBinding` of the node is set. -/
theorem SVGGradient.getVariant_result (env : BindEnv) (fuel : Nat) (store store1 : GradientStore)
    (self : Nat) (aVar : BLVar)
    (h : SVGGradient.getVariant env fuel store self = some (aVar, store1)) :
    aVar = BLVar.gradient (store1 self).fGradient ∧ (store1 self).needsBinding = true := by
  cases fuel with
  | zero => simp [SVGGradient.getVariant] at h
  | succ fuel =>
    simp only [SVGGradient.getVariant, SVGGradient.getVariantBody] at h
    cases hb : SVGGradient.bindToContext env (SVGGradient.getVariant env fuel) store self with
    | none => simp [hb] at h
    | some s1 =>
      simp only [hb, Option.some.injEq, Prod.mk.injEq] at h
      obtain ⟨h1, h2⟩ := h
      subst h2
      rw [GradientStore.set_same] at h1 ⊢
      exact ⟨h1.symm, rfl⟩

/-- C19, as stated, fails: after `getVariant` has bound a gradient and returned, the flag
`needsBinding` of the gradient is true, under either reading of `bindToContext`. -/
theorem getVariant_leaves_needsBinding_set :
    (SVGGradient.getVariant
        (sampleEnv { x := 10, y := 20, w := 200, h := 100 } sampleIndex false) 1
        (storeWithX1 5) 0).map (fun r => (r.2 0).needsBinding) = some true ∧
    (SVGGradient.getVariant
        (sampleEnv { x := 10, y := 20, w := 200, h := 100 } sampleIndex true) 1
        (storeWithX1 5) 0).map (fun r => (r.2 0).needsBinding) = some true := by
  constructor <;> decide

/-! ## Reference chains -/

theorem SVGGradient.fixup_templateReference (g : SVGGradient) :
    g.fixupSelfStyleAttributes.fTemplateReference =
      (if g.attrs.href ≠ [] then g.attrs.href
        else if g.attrs.xlinkHref ≠ [] then g.attrs.xlinkHref else g.fTemplateReference) ∧
    g.fixupSelfStyleAttributes.attrs = g.attrs ∧
    g.fixupSelfStyleAttributes.needsBinding = g.needsBinding := by
  unfold SVGGradient.fixupSelfStyleAttributes
  by_cases h1 : g.attrs.href ≠ [] <;> by_cases h2 : g.attrs.xlinkHref ≠ [] <;> simp [h1, h2]

theorem SVGGradient.fixup_idem (g : SVGGradient) :
    g.fixupSelfStyleAttributes.fixupSelfStyleAttributes = g.fixupSelfStyleAttributes := by
  unfold SVGGradient.fixupSelfStyleAttributes
  by_cases h1 : g.attrs.href ≠ [] <;> by_cases h2 : g.attrs.xlinkHref ≠ [] <;> simp [h1, h2]

theorem refTarget_fixup (env : BindEnv) (g : SVGGradient) :
    refTarget env g.fixupSelfStyleAttributes = refTarget env g := by
  unfold refTarget
  rw [SVGGradient.fixup_idem]

/-- When the reference of the gradient, as it stands, leads to the gradient `b`,
`resolveReference` calls `getVariant` on `b`. -/
theorem SVGGradient.resolveReference_of_target (env : BindEnv)
    (store : GradientStore) (self b : Nat)
    (hfix : (store self).fixupSelfStyleAttributes = store self)
    (ht : refTarget env (store self) = some b) :
    (store self).fTemplateReference ≠ [] ∧
    env.findNodeByHref (store self).fTemplateReference = some (NodeRef.gradient b) := by
  unfold refTarget at ht
  rw [hfix] at ht
  by_cases h0 : (store self).fTemplateReference = []
  · simp [h0] at ht
  · refine ⟨h0, ?_⟩
    simp only [h0, if_false] at ht
    cases hf : env.findNodeByHref (store self).fTemplateReference with
    | none => simp [hf] at ht
    | some r =>
      cases r with
      | gradient t =>
        simp only [hf, Option.some.injEq] at ht
        rw [ht]
      | otherNode => simp [hf] at ht

/-- A set of gradients that is closed under template references, each member of which has
a resolving reference (a cycle, for instance): binding a member never returns, whatever
the fuel. -/
theorem SVGGradient.getVariant_diverges (env : BindEnv) (S : Nat → Prop) (fuel : Nat) :
    ∀ (store : GradientStore),
      (∀ i, S i → (env.skipWhenBound = true → (store i).needsBinding = true) ∧
        ∃ t, refTarget env (store i) = some t ∧ S t) →
      ∀ i, S i → SVGGradient.getVariant env fuel store i = none := by
  induction fuel with
  | zero =>
    intro store _ i _
    rfl
  | succ fuel ih =>
    intro store hS i hi
    obtain ⟨hflag, t, ht, hSt⟩ := hS i hi
    have hguard : ¬ (env.skipWhenBound = true ∧ (store i).needsBinding = false) := by
      rintro ⟨h1, h2⟩
      rw [hflag h1] at h2
      exact Bool.noConfusion h2
    have hS0 : ∀ j, S j →
        (env.skipWhenBound = true →
          ((store.set i (store i).fixupSelfStyleAttributes) j).needsBinding = true) ∧
        ∃ t, refTarget env ((store.set i (store i).fixupSelfStyleAttributes) j) = some t ∧
          S t := by
      intro j hj
      by_cases hji : j = i
      · subst hji
        rw [GradientStore.set_same, refTarget_fixup,
          (SVGGradient.fixup_templateReference (store j)).2.2]
        exact hS j hj
      · rw [GradientStore.set_other _ _ _ _ hji]
        exact hS j hj
    have hrec := ih (store.set i (store i).fixupSelfStyleAttributes) hS0 t hSt
    have ht0 : refTarget env ((store.set i (store i).fixupSelfStyleAttributes) i) = some t := by
      rw [GradientStore.set_same, refTarget_fixup]
      exact ht
    obtain ⟨hne, hfind⟩ := SVGGradient.resolveReference_of_target env _ i t
      (by rw [GradientStore.set_same, SVGGradient.fixup_idem]) ht0
    have hres : SVGGradient.resolveReference env (SVGGradient.getVariant env fuel)
        (store.set i (store i).fixupSelfStyleAttributes) i = none := by
      unfold SVGGradient.resolveReference
      simp only [hne, if_false, hfind, hrec]
    simp only [SVGGradient.getVariant, SVGGradient.getVariantBody, SVGGradient.bindToContext,
      hguard, if_false, SVGGradient.bindSelfToContext, hres]

/-- C16: the code at a gradient with a stop of its own and a template. Gradient "a"
declares one stop (offset 0, red) and references gradient "b", which has two stops (blue
at 0, green at 1). After "a" has been bound through `getVariant`, its stop sequence is the
two stops of "b", under either reading of `bindToContext`: `resolveReference` resets the
stops of "a" and assigns those of the template. -/
theorem template_stops_replace_local_stops :
    (storeAReferencesB 0).fGradient.stops = [{ offset := 0, rgba := 4294901760 }] ∧
    (storeAReferencesB 1).fGradient.stops =
      [{ offset := 0, rgba := 4278190335 }, { offset := 1, rgba := 4278255360 }] ∧
    (SVGGradient.getVariant
        (sampleEnv { x := 10, y := 20, w := 200, h := 100 } sampleIndex false) 2
        storeAReferencesB 0).map (fun r => (r.2 0).fGradient.stops) =
      some [{ offset := 0, rgba := 4278190335 }, { offset := 1, rgba := 4278255360 }] ∧
    (SVGGradient.getVariant
        (sampleEnv { x := 10, y := 20, w := 200, h := 100 } sampleIndex true) 2
        storeAReferencesB 0).map (fun r => (r.2 0).fGradient.stops) =
      some [{ offset := 0, rgba := 4278190335 }, { offset := 1, rgba := 4278255360 }] := by
  refine ⟨by decide!, by decide!, by decide!, by decide!⟩

/-! ## Binding twice -/

theorem SVGGradient.bindSelfLocal_needsBinding (env : BindEnv) (g : SVGGradient) (x : Bool) :
    SVGGradient.bindSelfLocal env { g with needsBinding := x } =
      { SVGGradient.bindSelfLocal env g with needsBinding := x } := by
  obtain ⟨kind, attrs, nb, ht, gt, gr, gv, sm, gu, tr⟩ := g
  obtain ⟨a1, a2, a3, a4, a5, a6, a7, a8, a9, a10, a11, asm, agu, agt⟩ := attrs
  cases kind <;> cases asm <;> cases agu <;> cases agt <;>
    simp [SVGGradient.bindSelfLocal, SVGLinearGradient.bindSelfLocal,
      SVGRadialGradient.bindSelfLocal, SVGGradient.readCommonAttributes]

theorem SVGGradient.applyTemplate_needsBinding (g t : SVGGradient) (x : Bool) :
    SVGGradient.applyTemplate { g with needsBinding := x } t =
      { SVGGradient.applyTemplate g t with needsBinding := x } := by
  rfl

/-- The local body of `bindSelfToContext` is idempotent. -/
theorem SVGGradient.bindSelfLocal_idem (env : BindEnv) (g : SVGGradient) :
    SVGGradient.bindSelfLocal env (SVGGradient.bindSelfLocal env g) =
      SVGGradient.bindSelfLocal env g := by
  obtain ⟨kind, attrs, nb, ht, gt, gr, gv, sm, gu, tr⟩ := g
  obtain ⟨a1, a2, a3, a4, a5, a6, a7, a8, a9, a10, a11, asm, agu, agt⟩ := attrs
  obtain ⟨ty, em, vals, stops, xf⟩ := gr
  cases kind <;> cases asm <;> cases agu <;> cases agt <;> cases gu <;>
    simp [SVGGradient.bindSelfLocal, SVGLinearGradient.bindSelfLocal,
      SVGRadialGradient.bindSelfLocal, SVGGradient.readCommonAttributes,
      BLGradient.setLinearValues, BLGradient.setRadialValues, BLGradient.setTransform,
      BLGradient.setExtendMode]

/-- Taking over the template and running the local body, twice with the same template, is
the same as doing it once. -/
theorem SVGGradient.applyTemplate_bindSelfLocal_idem (env : BindEnv) (g t : SVGGradient) :
    SVGGradient.bindSelfLocal env
        (SVGGradient.applyTemplate
          (SVGGradient.bindSelfLocal env (SVGGradient.applyTemplate g t)) t) =
      SVGGradient.bindSelfLocal env (SVGGradient.applyTemplate g t) := by
  obtain ⟨kind, attrs, nb, ht, gt, gr, gv, sm, gu, tr⟩ := g
  obtain ⟨a1, a2, a3, a4, a5, a6, a7, a8, a9, a10, a11, asm, agu, agt⟩ := attrs
  obtain ⟨ty, em, vals, stops, xf⟩ := gr
  obtain ⟨tkind, tattrs, tnb, tht, tgt, tgr, tgv, tsm, tgu, ttr⟩ := t
  obtain ⟨tty, tem, tvals, tstops, txf⟩ := tgr
  by_cases hx : txf = BLMatrix2D.makeIdentity <;>
  cases kind <;> cases asm <;> cases agu <;> cases agt <;> cases tgu <;>
    simp [SVGGradient.bindSelfLocal, SVGLinearGradient.bindSelfLocal,
      SVGRadialGradient.bindSelfLocal, SVGGradient.readCommonAttributes,
      SVGGradient.applyTemplate, BLGradient.hasTransform,
      BLGradient.setLinearValues, BLGradient.setRadialValues, BLGradient.setTransform,
      BLGradient.setExtendMode, BLGradient.resetStops, BLGradient.assignStops, hx]

theorem GradientStore.set_set (store : GradientStore) (i : Nat) (g g' : SVGGradient) :
    (store.set i g).set i g' = store.set i g' := by
  funext j
  by_cases h : j = i <;> simp [GradientStore.set, h]

theorem SVGGradient.bindSelfLocal_static (env : BindEnv) (g : SVGGradient) :
    (SVGGradient.bindSelfLocal env g).attrs = g.attrs ∧
    (SVGGradient.bindSelfLocal env g).fTemplateReference = g.fTemplateReference ∧
    (SVGGradient.bindSelfLocal env g).needsBinding = g.needsBinding := by
  unfold SVGGradient.bindSelfLocal
  cases g.kind
  · obtain ⟨h1, -, h3, h4, -, -⟩ := SVGLinearGradient.bindSelfLocal_frame env g
    exact ⟨h1, h4, h3⟩
  · obtain ⟨h1, -, h3, h4, -, -⟩ := SVGRadialGradient.bindSelfLocal_radial_frame env g
    exact ⟨h1, h4, h3⟩

theorem SVGGradient.fixup_eq_self_of (g g' : SVGGradient) (h1 : g'.attrs = g.attrs)
    (h2 : g'.fTemplateReference = g.fTemplateReference)
    (h : g.fixupSelfStyleAttributes = g) : g'.fixupSelfStyleAttributes = g' := by
  have hr := (SVGGradient.fixup_templateReference g).1
  rw [h] at hr
  obtain ⟨kind, attrs, nb, ht, gt, gr, gv, sm, gu, tr⟩ := g'
  simp only at h1 h2
  subst h1 h2
  unfold SVGGradient.fixupSelfStyleAttributes
  by_cases c1 : g.attrs.href ≠ []
  · rw [if_pos c1] at hr
    simp only [ne_eq, c1, not_false_eq_true, if_true]
    rw [← hr]
  · by_cases c2 : g.attrs.xlinkHref ≠ []
    · rw [if_neg c1, if_pos c2] at hr
      simp only [ne_eq, c1, c2, not_false_eq_true, if_true, if_false]
      rw [← hr]
    · simp only [ne_eq, c1, c2, if_false]

theorem refTarget_congr (env : BindEnv) (g g' : SVGGradient) (h1 : g'.attrs = g.attrs)
    (h2 : g'.fTemplateReference = g.fTemplateReference) :
    refTarget env g' = refTarget env g := by
  unfold refTarget
  rw [(SVGGradient.fixup_templateReference g').1, (SVGGradient.fixup_templateReference g).1,
    h1, h2]

/-- When the reference of the gradient, as it stands, leads to no gradient,
`resolveReference` returns at once. -/
theorem SVGGradient.resolveReference_of_no_target (env : BindEnv)
    (rec : GradientStore → Nat → Option (BLVar × GradientStore))
    (store : GradientStore) (self : Nat)
    (hfix : (store self).fixupSelfStyleAttributes = store self)
    (ht : refTarget env (store self) = none) :
    SVGGradient.resolveReference env rec store self = some store := by
  unfold refTarget at ht
  rw [hfix] at ht
  unfold SVGGradient.resolveReference
  by_cases h0 : (store self).fTemplateReference = []
  · simp [h0]
  · simp only [h0, if_false] at ht ⊢
    cases hf : env.findNodeByHref (store self).fTemplateReference with
    | none => rfl
    | some r =>
      cases r with
      | gradient t => simp [hf] at ht
      | otherNode => rfl

/-- When the reference leads to the gradient `b` and `getVariant` on `b` returns,
`resolveReference` takes over the template as bound. -/
theorem SVGGradient.resolveReference_of_bound_target (env : BindEnv) (fuel : Nat)
    (store store1 : GradientStore) (self b : Nat) (aVar : BLVar)
    (hfix : (store self).fixupSelfStyleAttributes = store self)
    (ht : refTarget env (store self) = some b)
    (hret : SVGGradient.getVariant env fuel store b = some (aVar, store1)) :
    SVGGradient.resolveReference env (SVGGradient.getVariant env fuel) store self =
      some (store1.set self (SVGGradient.applyTemplate (store1 self) (store1 b))) := by
  obtain ⟨hne, hfind⟩ := SVGGradient.resolveReference_of_target env store self b hfix ht
  obtain ⟨hvar, -⟩ := SVGGradient.getVariant_result env fuel store store1 b aVar hret
  subst hvar
  unfold SVGGradient.resolveReference
  simp only [hne, if_false, hfind, hret]
  rfl

theorem SVGGradient.resolveReference_of_unbound_target (env : BindEnv) (fuel : Nat)
    (store : GradientStore) (self b : Nat)
    (hfix : (store self).fixupSelfStyleAttributes = store self)
    (ht : refTarget env (store self) = some b)
    (hret : SVGGradient.getVariant env fuel store b = none) :
    SVGGradient.resolveReference env (SVGGradient.getVariant env fuel) store self = none := by
  obtain ⟨hne, hfind⟩ := SVGGradient.resolveReference_of_target env store self b hfix ht
  unfold SVGGradient.resolveReference
  simp only [hne, if_false, hfind, hret]

/-- One level of `getVariant` on a gradient that is to be bound, in terms of what
`bindSelfToContext` returns. -/
theorem SVGGradient.getVariant_succ (env : BindEnv) (fuel : Nat) (store : GradientStore)
    (b : Nat) (hfix : (store b).fixupSelfStyleAttributes = store b)
    (hflag : env.skipWhenBound = true → (store b).needsBinding = true) :
    SVGGradient.getVariant env (fuel + 1) store b =
      match SVGGradient.bindSelfToContext env (SVGGradient.getVariant env fuel) store b with
      | none => none
      | some store1 =>
        some (BLVar.gradient (store1 b).fGradient,
          store1.set b { store1 b with needsBinding := true }) := by
  have hguard : ¬ (env.skipWhenBound = true ∧ (store b).needsBinding = false) := by
    rintro ⟨h1, h2⟩
    rw [hflag h1] at h2
    exact Bool.noConfusion h2
  simp only [SVGGradient.getVariant, SVGGradient.getVariantBody, SVGGradient.bindToContext,
    hguard, if_false, hfix, GradientStore.set_eq_self]
  cases SVGGradient.bindSelfToContext env (SVGGradient.getVariant env fuel) store b with
  | none => rfl
  | some store1 =>
    simp only [GradientStore.set_same, GradientStore.set_set]

/-- The gradient as `getVariant` leaves it: the local body applied, the flag set. -/
theorem SVGGradient.getVariant_of_no_target (env : BindEnv) (fuel : Nat)
    (store : GradientStore) (b : Nat)
    (hfix : (store b).fixupSelfStyleAttributes = store b)
    (hflag : env.skipWhenBound = true → (store b).needsBinding = true)
    (ht : refTarget env (store b) = none) :
    SVGGradient.getVariant env (fuel + 1) store b =
      some (BLVar.gradient (SVGGradient.bindSelfLocal env (store b)).fGradient,
        store.set b { SVGGradient.bindSelfLocal env (store b) with needsBinding := true }) := by
  rw [SVGGradient.getVariant_succ env fuel store b hfix hflag]
  unfold SVGGradient.bindSelfToContext
  rw [SVGGradient.resolveReference_of_no_target env _ store b hfix ht]
  simp only [GradientStore.set_same, GradientStore.set_set]

theorem SVGGradient.getVariant_of_bound_target (env : BindEnv) (fuel : Nat)
    (store store1 : GradientStore) (b c : Nat) (cVar : BLVar)
    (hfix : (store b).fixupSelfStyleAttributes = store b)
    (hflag : env.skipWhenBound = true → (store b).needsBinding = true)
    (ht : refTarget env (store b) = some c)
    (hret : SVGGradient.getVariant env fuel store c = some (cVar, store1)) :
    SVGGradient.getVariant env (fuel + 1) store b =
      some (BLVar.gradient
          (SVGGradient.bindSelfLocal env
            (SVGGradient.applyTemplate (store1 b) (store1 c))).fGradient,
        store1.set b
          { SVGGradient.bindSelfLocal env (SVGGradient.applyTemplate (store1 b) (store1 c))
            with needsBinding := true }) := by
  rw [SVGGradient.getVariant_succ env fuel store b hfix hflag]
  unfold SVGGradient.bindSelfToContext
  rw [SVGGradient.resolveReference_of_bound_target env fuel store store1 b c cVar hfix ht hret]
  simp only [GradientStore.set_same, GradientStore.set_set]

theorem SVGGradient.getVariant_of_unbound_target (env : BindEnv) (fuel : Nat)
    (store : GradientStore) (b c : Nat)
    (hfix : (store b).fixupSelfStyleAttributes = store b)
    (hflag : env.skipWhenBound = true → (store b).needsBinding = true)
    (ht : refTarget env (store b) = some c)
    (hret : SVGGradient.getVariant env fuel store c = none) :
    SVGGradient.getVariant env (fuel + 1) store b = none := by
  rw [SVGGradient.getVariant_succ env fuel store b hfix hflag]
  unfold SVGGradient.bindSelfToContext
  rw [SVGGradient.resolveReference_of_unbound_target env fuel store b c hfix ht hret]

theorem RefStep.functional (env : BindEnv) (store : GradientStore) (i j k : Nat)
    (h1 : RefStep env store i j) (h2 : RefStep env store i k) : j = k := by
  unfold RefStep at h1 h2
  rw [h1] at h2
  exact Option.some.inj h2

/-- On a cycle of template references every gradient reached has a resolving reference
into the cycle. -/
theorem Reaches.closed_of_cycle (env : BindEnv) (store : GradientStore) (b c : Nat)
    (hstep : RefStep env store b c) (hreach : Reaches env store c b) :
    ∀ i, Reaches env store c i →
      ∃ t, refTarget env (store i) = some t ∧ Reaches env store c t := by
  have hback : ∀ i, Reaches env store c i → Reaches env store i b := by
    intro i hi
    induction hi with
    | refl => exact hreach
    | tail _ hji ih =>
      rcases Relation.ReflTransGen.cases_head ih with heq | ⟨k, hjk, hkb⟩
      · subst heq
        rw [RefStep.functional env store _ _ _ hji hstep]
        exact hreach
      · rw [RefStep.functional env store _ _ _ hji hjk]
        exact hkb
  intro i hi
  rcases Relation.ReflTransGen.cases_head (hback i hi) with heq | ⟨k, hik, -⟩
  · subst heq
    exact ⟨c, hstep, Relation.ReflTransGen.refl⟩
  · exact ⟨k, hik, Relation.ReflTransGen.tail hi hik⟩

/-- In a well-formed document, binding a gradient that lies on a cycle of template
references never returns. -/
theorem SVGGradient.getVariant_none_on_cycle (env : BindEnv) (store : GradientStore)
    (hwf : WellFormedStore env store) (b c : Nat)
    (hstep : RefStep env store b c) (hreach : Reaches env store c b) (fuel : Nat) :
    SVGGradient.getVariant env fuel store c = none := by
  apply SVGGradient.getVariant_diverges env (fun i => Reaches env store c i) fuel store _ c
    Relation.ReflTransGen.refl
  intro i hi
  exact ⟨(hwf i).2, Reaches.closed_of_cycle env store b c hstep hreach i hi⟩

/-- Binding through `getVariant` is repeatable. If `getVariant` on gradient `b` returns in
a well-formed document, it has changed no gradient outside the reference chain of `b`, and
in every document that agrees with the resulting one on that chain a further `getVariant`
on `b` returns the same variant and changes nothing. -/
theorem SVGGradient.getVariant_stable (env : BindEnv) (fuel : Nat) :
    ∀ (store : GradientStore) (b : Nat) (bVar : BLVar) (store1 : GradientStore),
      WellFormedStore env store →
      SVGGradient.getVariant env fuel store b = some (bVar, store1) →
      (∀ i, ¬ Reaches env store b i → store1 i = store i) ∧
      (∀ t : GradientStore, (∀ i, Reaches env store b i → t i = store1 i) →
        SVGGradient.getVariant env fuel t b = some (bVar, t)) := by
  induction fuel with
  | zero =>
    intro store b bVar store1 _ h
    simp [SVGGradient.getVariant] at h
  | succ fuel ih =>
    intro store b bVar store1 hwf h
    obtain ⟨hfix, hflag⟩ := hwf b
    cases htgt : refTarget env (store b) with
    | none =>
      rw [SVGGradient.getVariant_of_no_target env fuel store b hfix hflag htgt] at h
      simp only [Option.some.injEq, Prod.mk.injEq] at h
      obtain ⟨hv, hs⟩ := h
      subst hv hs
      obtain ⟨hattrs, href, -⟩ := SVGGradient.bindSelfLocal_static env (store b)
      constructor
      · intro i hi
        have hib : i ≠ b := by
          rintro rfl
          exact hi Relation.ReflTransGen.refl
        rw [GradientStore.set_other _ _ _ _ hib]
      · intro t ht
        have htb := ht b Relation.ReflTransGen.refl
        rw [GradientStore.set_same] at htb
        have hfix' : (t b).fixupSelfStyleAttributes = t b := by
          rw [htb]
          exact SVGGradient.fixup_eq_self_of (store b) _ hattrs href hfix
        have hflag' : env.skipWhenBound = true → (t b).needsBinding = true := by
          intro _
          rw [htb]
        have htgt' : refTarget env (t b) = none := by
          rw [htb]
          exact (refTarget_congr env (store b)
            { SVGGradient.bindSelfLocal env (store b) with needsBinding := true }
            hattrs href).trans htgt
        rw [SVGGradient.getVariant_of_no_target env fuel t b hfix' hflag' htgt']
        have hlocal : SVGGradient.bindSelfLocal env (t b) = t b := by
          rw [htb, SVGGradient.bindSelfLocal_needsBinding, SVGGradient.bindSelfLocal_idem]
        rw [hlocal]
        have hmark : ({ t b with needsBinding := true } : SVGGradient) = t b := by
          rw [htb]
        rw [hmark, GradientStore.set_eq_self, htb]
    | some c =>
      cases hc : SVGGradient.getVariant env fuel store c with
      | none =>
        rw [SVGGradient.getVariant_of_unbound_target env fuel store b c hfix hflag htgt hc] at h
        exact Option.noConfusion h
      | some r =>
        obtain ⟨cVar, storeC⟩ := r
        rw [SVGGradient.getVariant_of_bound_target env fuel store storeC b c cVar hfix hflag
          htgt hc] at h
        simp only [Option.some.injEq, Prod.mk.injEq] at h
        obtain ⟨hv, hs⟩ := h
        subst hv hs
        obtain ⟨hframeC, hstableC⟩ := ih store c cVar storeC hwf hc
        have hbc : ¬ Reaches env store c b := by
          intro hreach
          rw [SVGGradient.getVariant_none_on_cycle env store hwf b c htgt hreach fuel] at hc
          exact Option.noConfusion hc
        have hcb : c ≠ b := by
          rintro rfl
          exact hbc Relation.ReflTransGen.refl
        have hCb : storeC b = store b := hframeC b hbc
        have hstat := SVGGradient.bindSelfLocal_static env
          (SVGGradient.applyTemplate (storeC b) (storeC c))
        have hattrs : (SVGGradient.bindSelfLocal env
            (SVGGradient.applyTemplate (storeC b) (storeC c))).attrs = (store b).attrs := by
          rw [hstat.1, ← hCb]
          rfl
        have href : (SVGGradient.bindSelfLocal env
            (SVGGradient.applyTemplate (storeC b) (storeC c))).fTemplateReference =
            (store b).fTemplateReference := by
          rw [hstat.2.1, ← hCb]
          rfl
        constructor
        · intro i hi
          have hib : i ≠ b := by
            rintro rfl
            exact hi Relation.ReflTransGen.refl
          have hic : ¬ Reaches env store c i := fun hci =>
            hi (Relation.ReflTransGen.head htgt hci)
          rw [GradientStore.set_other _ _ _ _ hib]
          exact hframeC i hic
        · intro t ht
          have htb := ht b Relation.ReflTransGen.refl
          rw [GradientStore.set_same] at htb
          have htC : ∀ i, Reaches env store c i → t i = storeC i := by
            intro i hi
            have hib : i ≠ b := by
              rintro rfl
              exact hbc hi
            rw [ht i (Relation.ReflTransGen.head htgt hi), GradientStore.set_other _ _ _ _ hib]
          have hrecT := hstableC t htC
          have htc : t c = storeC c := htC c Relation.ReflTransGen.refl
          have hfix' : (t b).fixupSelfStyleAttributes = t b := by
            rw [htb]
            exact SVGGradient.fixup_eq_self_of (store b) _ hattrs href hfix
          have hflag' : env.skipWhenBound = true → (t b).needsBinding = true := by
            intro _
            rw [htb]
          have htgt' : refTarget env (t b) = some c := by
            rw [htb]
            exact (refTarget_congr env (store b)
              { SVGGradient.bindSelfLocal env (SVGGradient.applyTemplate (storeC b) (storeC c))
                with needsBinding := true }
              hattrs href).trans htgt
          rw [SVGGradient.getVariant_of_bound_target env fuel t t b c cVar hfix' hflag' htgt'
            hrecT]
          have hlocal : SVGGradient.bindSelfLocal env (SVGGradient.applyTemplate (t b) (t c)) =
              t b := by
            rw [htc, htb, SVGGradient.applyTemplate_needsBinding,
              SVGGradient.bindSelfLocal_needsBinding,
              SVGGradient.applyTemplate_bindSelfLocal_idem]
          rw [hlocal]
          have hmark : ({ t b with needsBinding := true } : SVGGradient) = t b := by
            rw [htb]
          rw [hmark, GradientStore.set_eq_self, htb]

theorem storeAReferencesBFixed_wellFormed (skipWhenBound : Bool) :
    WellFormedStore (sampleBindEnv skipWhenBound) storeAReferencesBFixed := by
  intro i
  refine ⟨SVGGradient.fixup_idem _, fun _ => ?_⟩
  unfold storeAReferencesBFixed
  rw [(SVGGradient.fixup_templateReference _).2.2]
  unfold storeAReferencesB
  split <;> rfl

/-! ## Binding returns, and binding twice -/

/-- On a reference chain that ends, `getVariant` returns: in a well-formed document the
fuel `n` suffices for a gradient whose chain ends within `n` gradients. -/
theorem SVGGradient.getVariant_returns_on_finite_chain (env : BindEnv)
    (store : GradientStore) (hwf : WellFormedStore env store) :
    ∀ (n b : Nat), refChainEnds env store n b = true →
      ∃ bVar store1, SVGGradient.getVariant env n store b = some (bVar, store1) := by
  intro n
  induction n with
  | zero =>
    intro b h
    simp [refChainEnds] at h
  | succ n ih =>
    intro b h
    obtain ⟨hfix, hflag⟩ := hwf b
    cases htgt : refTarget env (store b) with
    | none =>
      exact ⟨_, _, SVGGradient.getVariant_of_no_target env n store b hfix hflag htgt⟩
    | some c =>
      simp only [refChainEnds, htgt] at h
      obtain ⟨cVar, store1, hc⟩ := ih c h
      exact ⟨_, _, SVGGradient.getVariant_of_bound_target env n store store1 b c cVar hfix hflag
        htgt hc⟩

/-- C19, amended: `getVariant` leaves the flag `needsBinding` of the gradient set (true).
For every gradient of a well-formed document whose reference chain ends within the fuel,
`getVariant` returns, and in the document it returns the flag of the gradient is true:
`getVariant` binds the gradient through `bindToContext` and then sets the flag itself, so
that the next `getVariant` binds the gradient again. -/
theorem getVariant_sets_needsBinding (env : BindEnv) (fuel : Nat)
    (store : GradientStore) (self : Nat) (hwf : WellFormedStore env store)
    (hchain : refChainEnds env store fuel self = true) :
    ∃ aVar store1, SVGGradient.getVariant env fuel store self = some (aVar, store1) ∧
      (store1 self).needsBinding = true := by
  obtain ⟨aVar, store1, h⟩ :=
    SVGGradient.getVariant_returns_on_finite_chain env store hwf fuel self hchain
  exact ⟨aVar, store1, h, (SVGGradient.getVariant_result env fuel store store1 self aVar h).2⟩

/-- C19, amended, at gradient "a" of the example document, whose chain ends at "b". -/
theorem getVariant_sets_needsBinding_witness :
    WellFormedStore (sampleBindEnv true) storeAReferencesBFixed ∧
    refChainEnds (sampleBindEnv true) storeAReferencesBFixed 2 0 = true ∧
    ∃ aVar store1,
      SVGGradient.getVariant (sampleBindEnv true) 2 storeAReferencesBFixed 0 =
        some (aVar, store1) ∧
      (store1 0).needsBinding = true :=
  ⟨storeAReferencesBFixed_wellFormed true, by decide,
    getVariant_sets_needsBinding (sampleBindEnv true) 2 storeAReferencesBFixed 0
      (storeAReferencesBFixed_wellFormed true) (by decide)⟩

/-- C15: for a gradient `a` of a well-formed document whose template reference resolves to
a gradient `b` with a reference chain that ends, the binding of `b` returns,
`resolveReference` on `a` returns, and afterwards the stop sequence of `a` is the stop
sequence of `b` as bound (same stops, same order) and the gradientUnits of `a` are those of
`b`, whatever stops `a` had before (none, in particular). -/
theorem resolveReference_copies_template (env : BindEnv) (fuel : Nat)
    (store : GradientStore) (a b : Nat) (hwf : WellFormedStore env store)
    (href : (store a).fTemplateReference ≠ [])
    (hfind : env.findNodeByHref (store a).fTemplateReference = some (NodeRef.gradient b))
    (hchain : refChainEnds env store fuel b = true) :
    ∃ bVar store1 store2,
      SVGGradient.getVariant env fuel store b = some (bVar, store1) ∧
      SVGGradient.resolveReference env (SVGGradient.getVariant env fuel) store a = some store2 ∧
      (store2 a).fGradient.stops = (store1 b).fGradient.stops ∧
      (store2 a).fGradientUnits = (store1 b).fGradientUnits ∧
      (store2 a).fGradient.stops = (store2 b).fGradient.stops ∧
      (store2 a).fGradientUnits = (store2 b).fGradientUnits := by
  obtain ⟨bVar, store1, hret⟩ :=
    SVGGradient.getVariant_returns_on_finite_chain env store hwf fuel b hchain
  obtain ⟨hvar, -⟩ := SVGGradient.getVariant_result env fuel store store1 b bVar hret
  subst hvar
  have hres : SVGGradient.resolveReference env (SVGGradient.getVariant env fuel) store a =
      some (store1.set a
        { store1 a with
          fGradientUnits := (store1 b).fGradientUnits
          fGradient :=
            if (store1 b).fGradient.hasTransform then
              (((store1 a).fGradient.resetStops).assignStops
                (store1 b).fGradient.stops).setTransform (store1 b).fGradient.transform
            else ((store1 a).fGradient.resetStops).assignStops (store1 b).fGradient.stops }) := by
    unfold SVGGradient.resolveReference
    simp only [href, if_false, hfind, hret]
  refine ⟨_, store1, _, hret, hres, ?_, ?_, ?_, ?_⟩
  · rw [GradientStore.set_same]
    by_cases ht : (store1 b).fGradient.hasTransform = true <;>
      simp [ht, BLGradient.resetStops, BLGradient.assignStops, BLGradient.setTransform]
  · rw [GradientStore.set_same]
  · by_cases hab : b = a
    · subst hab
      rfl
    · rw [GradientStore.set_other _ _ _ _ hab, GradientStore.set_same]
      by_cases ht : (store1 b).fGradient.hasTransform = true <;>
        simp [ht, BLGradient.resetStops, BLGradient.assignStops, BLGradient.setTransform]
  · by_cases hab : b = a
    · subst hab
      rfl
    · rw [GradientStore.set_other _ _ _ _ hab, GradientStore.set_same]

/-- C15 at the example document: gradient "a" references gradient "b"; afterwards "a"
has the two stops of "b". -/
theorem resolveReference_copies_template_witness :
    WellFormedStore (sampleBindEnv false) storeAReferencesBFixed ∧
    (storeAReferencesBFixed 0).fTemplateReference ≠ [] ∧
    (sampleBindEnv false).findNodeByHref (storeAReferencesBFixed 0).fTemplateReference =
      some (NodeRef.gradient 1) ∧
    refChainEnds (sampleBindEnv false) storeAReferencesBFixed 1 1 = true ∧
    (∃ bVar store1 store2,
      SVGGradient.getVariant (sampleBindEnv false) 1 storeAReferencesBFixed 1 =
        some (bVar, store1) ∧
      SVGGradient.resolveReference (sampleBindEnv false)
          (SVGGradient.getVariant (sampleBindEnv false) 1) storeAReferencesBFixed 0 =
        some store2 ∧
      (store2 0).fGradient.stops = (store1 1).fGradient.stops ∧
      (store2 0).fGradientUnits = (store1 1).fGradientUnits ∧
      (store2 0).fGradient.stops = (store2 1).fGradient.stops ∧
      (store2 0).fGradientUnits = (store2 1).fGradientUnits) ∧
    (SVGGradient.resolveReference (sampleBindEnv false)
        (SVGGradient.getVariant (sampleBindEnv false) 1) storeAReferencesBFixed 0).map
      (fun s => (s 0).fGradient.stops) =
      some [{ offset := 0, rgba := 4278190335 }, { offset := 1, rgba := 4278255360 }] :=
  ⟨storeAReferencesBFixed_wellFormed false, by decide, by decide, by decide,
    resolveReference_copies_template (sampleBindEnv false) 1 storeAReferencesBFixed 0 1
      (storeAReferencesBFixed_wellFormed false) (by decide) (by decide) (by decide),
    by decide!⟩

/-- Running `bindSelfToContext` twice is running it once: in a well-formed document the
second run returns whenever the first does and leaves the document as the first run left
it (both runs fail together when the fuel does not reach the end of the reference chain). -/
theorem SVGGradient.bindSelfToContextN_idem (env : BindEnv) (fuel : Nat) (store : GradientStore)
    (a : Nat) (hwf : WellFormedStore env store) :
    (SVGGradient.bindSelfToContextN env fuel store a).bind
        (fun store1 => SVGGradient.bindSelfToContextN env fuel store1 a) =
      SVGGradient.bindSelfToContextN env fuel store a := by
  obtain ⟨hfix, -⟩ := hwf a
  unfold SVGGradient.bindSelfToContextN SVGGradient.bindSelfToContext
  cases htgt : refTarget env (store a) with
  | none =>
    rw [SVGGradient.resolveReference_of_no_target env _ store a hfix htgt]
    obtain ⟨hattrs, href, -⟩ := SVGGradient.bindSelfLocal_static env (store a)
    have hfix' : ((store.set a (SVGGradient.bindSelfLocal env (store a))) a).fixupSelfStyleAttributes
        = (store.set a (SVGGradient.bindSelfLocal env (store a))) a := by
      rw [GradientStore.set_same]
      exact SVGGradient.fixup_eq_self_of (store a) _ hattrs href hfix
    have htgt' : refTarget env ((store.set a (SVGGradient.bindSelfLocal env (store a))) a) =
        none := by
      rw [GradientStore.set_same]
      exact (refTarget_congr env (store a) _ hattrs href).trans htgt
    simp only [Option.some_bind]
    rw [SVGGradient.resolveReference_of_no_target env _ _ a hfix' htgt']
    simp only [GradientStore.set_same, SVGGradient.bindSelfLocal_idem, GradientStore.set_set]
  | some b =>
    cases hb : SVGGradient.getVariant env fuel store b with
    | none =>
      rw [SVGGradient.resolveReference_of_unbound_target env fuel store a b hfix htgt hb]
      rfl
    | some r =>
      obtain ⟨bVar, storeB⟩ := r
      rw [SVGGradient.resolveReference_of_bound_target env fuel store storeB a b bVar hfix htgt hb]
      obtain ⟨hframe, hstable⟩ := SVGGradient.getVariant_stable env fuel store b bVar storeB hwf hb
      have hba : ¬ Reaches env store b a := by
        intro hreach
        rw [SVGGradient.getVariant_none_on_cycle env store hwf a b htgt hreach fuel] at hb
        exact Option.noConfusion hb
      have hne : b ≠ a := by
        rintro rfl
        exact hba Relation.ReflTransGen.refl
      have hBa : storeB a = store a := hframe a hba
      have hstat := SVGGradient.bindSelfLocal_static env
        (SVGGradient.applyTemplate (storeB a) (storeB b))
      have hattrs : (SVGGradient.bindSelfLocal env
          (SVGGradient.applyTemplate (storeB a) (storeB b))).attrs = (store a).attrs := by
        rw [hstat.1, ← hBa]
        rfl
      have href : (SVGGradient.bindSelfLocal env
          (SVGGradient.applyTemplate (storeB a) (storeB b))).fTemplateReference =
          (store a).fTemplateReference := by
        rw [hstat.2.1, ← hBa]
        rfl
      simp only [GradientStore.set_same, GradientStore.set_set, Option.some_bind]
      have hfix' : ((storeB.set a (SVGGradient.bindSelfLocal env
          (SVGGradient.applyTemplate (storeB a) (storeB b)))) a).fixupSelfStyleAttributes =
          (storeB.set a (SVGGradient.bindSelfLocal env
            (SVGGradient.applyTemplate (storeB a) (storeB b)))) a := by
        rw [GradientStore.set_same]
        exact SVGGradient.fixup_eq_self_of (store a) _ hattrs href hfix
      have htgt' : refTarget env ((storeB.set a (SVGGradient.bindSelfLocal env
          (SVGGradient.applyTemplate (storeB a) (storeB b)))) a) = some b := by
        rw [GradientStore.set_same]
        exact (refTarget_congr env (store a) _ hattrs href).trans htgt
      have hagain := hstable (storeB.set a (SVGGradient.bindSelfLocal env
          (SVGGradient.applyTemplate (storeB a) (storeB b)))) (by
        intro i hi
        have hia : i ≠ a := by
          rintro rfl
          exact hba hi
        rw [GradientStore.set_other _ _ _ _ hia])
      rw [SVGGradient.resolveReference_of_bound_target env fuel _ _ a b bVar hfix' htgt' hagain]
      simp only [GradientStore.set_same, GradientStore.set_other _ _ _ _ hne,
        GradientStore.set_set, SVGGradient.applyTemplate_bindSelfLocal_idem]

/-- On a reference chain that ends, `bindSelfToContext` returns. -/
theorem SVGGradient.bindSelfToContextN_returns (env : BindEnv) (fuel : Nat)
    (store : GradientStore) (a : Nat) (hwf : WellFormedStore env store)
    (hchain : refChainEnds env store (fuel + 1) a = true) :
    ∃ store1, SVGGradient.bindSelfToContextN env fuel store a = some store1 := by
  obtain ⟨hfix, -⟩ := hwf a
  unfold SVGGradient.bindSelfToContextN SVGGradient.bindSelfToContext
  cases htgt : refTarget env (store a) with
  | none =>
    rw [SVGGradient.resolveReference_of_no_target env _ store a hfix htgt]
    exact ⟨_, rfl⟩
  | some b =>
    simp only [refChainEnds, htgt] at hchain
    obtain ⟨bVar, storeB, hb⟩ :=
      SVGGradient.getVariant_returns_on_finite_chain env store hwf fuel b hchain
    rw [SVGGradient.resolveReference_of_bound_target env fuel store storeB a b bVar hfix htgt hb]
    exact ⟨_, rfl⟩

/-- C20: binding is idempotent. For every linear or radial gradient of a well-formed
document (the attribute pass has run) whose reference chain ends within the fuel, and every
fixed context, `bindSelfToContext` returns a document, and running `bindSelfToContext` on
that document again returns the very same document: the gradient keeps exactly the geometry
values, spread mode, transform and stop sequence of the first run, and so does every other
gradient. -/
theorem bindSelfToContext_twice (env : BindEnv) (fuel : Nat) (store : GradientStore)
    (a : Nat) (hwf : WellFormedStore env store)
    (hchain : refChainEnds env store (fuel + 1) a = true) :
    ∃ store1, SVGGradient.bindSelfToContextN env fuel store a = some store1 ∧
      SVGGradient.bindSelfToContextN env fuel store1 a = some store1 := by
  obtain ⟨store1, h1⟩ := SVGGradient.bindSelfToContextN_returns env fuel store a hwf hchain
  have h2 := SVGGradient.bindSelfToContextN_idem env fuel store a hwf
  rw [h1, Option.some_bind] at h2
  exact ⟨store1, h1, h2⟩

/-- C20 at gradient "a" of the document in which "a" references "b": the first run
returns, and the second run changes nothing. -/
theorem bindSelfToContext_twice_witness :
    WellFormedStore (sampleBindEnv false) storeAReferencesBFixed ∧
    refChainEnds (sampleBindEnv false) storeAReferencesBFixed (1 + 1) 0 = true ∧
    ∃ store1,
      SVGGradient.bindSelfToContextN (sampleBindEnv false) 1 storeAReferencesBFixed 0 =
        some store1 ∧
      SVGGradient.bindSelfToContextN (sampleBindEnv false) 1 store1 0 = some store1 :=
  ⟨storeAReferencesBFixed_wellFormed false, by decide,
    bindSelfToContext_twice (sampleBindEnv false) 1 storeAReferencesBFixed 0
      (storeAReferencesBFixed_wellFormed false) (by decide)⟩

/-! ## Well-formed spans -/

theorem ByteSpan.Within.refl (a : ByteSpan) (h : a.fStart ≤ a.fEnd) : ByteSpan.Within a a :=
  ⟨le_refl _, h, le_refl _⟩

theorem ByteSpan.Within.trans {a b c : ByteSpan} (h1 : ByteSpan.Within a b)
    (h2 : ByteSpan.Within b c) : ByteSpan.Within a c := by
  unfold ByteSpan.Within at *
  omega

/-- On a well-formed span `empty()` and `size() == 0` agree. -/
theorem ByteSpan.Within.empty_iff {a b : ByteSpan} (h : ByteSpan.Within a b) :
    b.empty = true ↔ b.size = 0 := by
  unfold ByteSpan.Within at h
  simp only [ByteSpan.empty, ByteSpan.size_eq, decide_eq_true_eq]
  omega

theorem ByteSpan.advance_within (s : ByteSpan) (n : Nat) (h : s.fStart ≤ s.fEnd) :
    ByteSpan.Within s (s.advance n) := by
  unfold ByteSpan.Within ByteSpan.advance
  simp only [ByteSpan.size_eq]
  split_ifs <;> omega

theorem ByteSpan.inc_within (s : ByteSpan) (h : s.fStart ≤ s.fEnd) :
    ByteSpan.Within s s.inc :=
  ByteSpan.advance_within s 1 h

theorem chunk_skip_within (s : ByteSpan) (n : Nat) (h : s.fStart ≤ s.fEnd) :
    ByteSpan.Within s (chunk_skip s n) := by
  unfold ByteSpan.Within chunk_skip
  simp only [ByteSpan.size_eq]
  split_ifs <;> omega

theorem ByteSpan.subSpan_within (s : ByteSpan) (startAt sz : Nat) (h : s.fStart ≤ s.fEnd)
    (hsum : s.fStart + startAt + sz < SIZE_MOD) :
    ByteSpan.Within s (s.subSpan startAt sz) := by
  have hM : SIZE_MOD = 18446744073709551616 := rfl
  rw [hM] at hsum
  unfold ByteSpan.Within ByteSpan.subSpan
  simp only [ByteSpan.size_eq, hM]
  have h1 : (s.fStart + startAt) % 18446744073709551616 = s.fStart + startAt :=
    Nat.mod_eq_of_lt (by omega)
  have h2 : (s.fStart + startAt + sz) % 18446744073709551616 = s.fStart + startAt + sz :=
    Nat.mod_eq_of_lt hsum
  rw [h1, h2]
  split_ifs <;> simp only <;> omega

theorem ltrimLoop_bounds (mem : Memory) (S : Nat → Bool) (stop fuel t : Nat) (ht : t ≤ stop) :
    t ≤ ltrimLoop mem S stop fuel t ∧ ltrimLoop mem S stop fuel t ≤ stop := by
  induction fuel generalizing t with
  | zero => exact ⟨le_refl _, ht⟩
  | succ fuel ih =>
    rw [ltrimLoop]
    split_ifs with h
    · obtain ⟨h1, h2⟩ := ih (t + 1) (by omega)
      exact ⟨by omega, h2⟩
    · exact ⟨le_refl _, ht⟩

theorem rtrimLoop_bounds (mem : Memory) (S : Nat → Bool) (start fuel t : Nat)
    (ht : start ≤ t) :
    start ≤ rtrimLoop mem S start fuel t ∧ rtrimLoop mem S start fuel t ≤ t := by
  induction fuel generalizing t with
  | zero => exact ⟨ht, le_refl _⟩
  | succ fuel ih =>
    rw [rtrimLoop]
    split_ifs with h
    · obtain ⟨h1, h2⟩ := ih (t - 1) (by omega)
      exact ⟨h1, by omega⟩
    · exact ⟨ht, le_refl _⟩

theorem chunk_ltrim_within (mem : Memory) (a : ByteSpan) (S : Nat → Bool)
    (h : a.fStart ≤ a.fEnd) : ByteSpan.Within a (chunk_ltrim mem a S) := by
  obtain ⟨h1, h2⟩ := ltrimLoop_bounds mem S a.fEnd a.size a.fStart h
  exact ⟨h1, h2, le_refl _⟩

theorem chunk_rtrim_within (mem : Memory) (a : ByteSpan) (S : Nat → Bool)
    (h : a.fStart ≤ a.fEnd) : ByteSpan.Within a (chunk_rtrim mem a S) := by
  obtain ⟨h1, h2⟩ := rtrimLoop_bounds mem S a.fStart a.size a.fEnd h
  exact ⟨le_refl _, h1, h2⟩

theorem chunk_trim_within (mem : Memory) (a : ByteSpan) (S : Nat → Bool)
    (h : a.fStart ≤ a.fEnd) : ByteSpan.Within a (chunk_trim mem a S) := by
  obtain ⟨h1, h2⟩ := ltrimLoop_bounds mem S a.fEnd a.size a.fStart h
  obtain ⟨h3, h4⟩ := rtrimLoop_bounds mem S (ltrimLoop mem S a.fEnd a.size a.fStart) a.size
    a.fEnd h2
  exact ⟨h1, h3, h4⟩

theorem u64Loop_within (mem : Memory) (a : ByteSpan) (fuel v : Nat) (s : ByteSpan)
    (h : ByteSpan.Within a s) : ByteSpan.Within a (u64Loop mem fuel v s).2 := by
  induction fuel generalizing v s with
  | zero => exact h
  | succ fuel ih =>
    rw [u64Loop]
    split_ifs with hc
    · exact ih _ _ (h.trans (ByteSpan.inc_within s h.2.1))
    · exact h

theorem bracketLoop_within (mem : Memory) (a : ByteSpan) (r fuel : Nat) (s : ByteSpan)
    (h : ByteSpan.Within a s) : ByteSpan.Within a (bracketLoop mem r fuel s) := by
  induction fuel generalizing s with
  | zero => exact h
  | succ fuel ih =>
    rw [bracketLoop]
    split_ifs with hc
    · exact ih _ (h.trans (ByteSpan.inc_within s h.2.1))
    · exact h

/-- The span that `chunk_read_bracketed` leaves behind lies within its argument. -/
theorem chunk_read_bracketed_src_within (mem : Memory) (wsp : Nat → Bool) (src : ByteSpan)
    (l r : Nat) (h : src.fStart ≤ src.fEnd) :
    ByteSpan.Within src (chunk_read_bracketed mem wsp src l r).2 := by
  have h1 := chunk_ltrim_within mem src wsp h
  have h2 := h1.trans (ByteSpan.inc_within _ h1.2.1)
  have h3 := bracketLoop_within mem src r (chunk_ltrim mem src wsp).inc.size _ h2
  unfold chunk_read_bracketed
  simp only
  split_ifs
  · exact h1
  · exact h3.trans (ByteSpan.inc_within _ h3.2.1)
  · exact h3

/-- The span that `chunk_read_bracketed` returns is the null span, or lies within its
argument, or starts within its argument and ends at `nullptr`. -/
theorem chunk_read_bracketed_result_cases (mem : Memory) (wsp : Nat → Bool) (src : ByteSpan)
    (l r : Nat) (h : src.fStart ≤ src.fEnd) :
    (chunk_read_bracketed mem wsp src l r).1 = ByteSpan.null ∨
    ByteSpan.Within src (chunk_read_bracketed mem wsp src l r).1 ∨
    ((chunk_read_bracketed mem wsp src l r).1.fEnd = 0 ∧
      src.fStart < (chunk_read_bracketed mem wsp src l r).1.fStart ∧
      (chunk_read_bracketed mem wsp src l r).1.fStart ≤ src.fEnd ∧
      (chunk_read_bracketed mem wsp src l r).2.toBool = false) := by
  have h1 := chunk_ltrim_within mem src wsp h
  have h2 := h1.trans (ByteSpan.inc_within _ h1.2.1)
  have h3 := bracketLoop_within mem (chunk_ltrim mem src wsp).inc r
    (chunk_ltrim mem src wsp).inc.size _ (ByteSpan.Within.refl _ h2.2.1)
  unfold chunk_read_bracketed
  simp only
  split_ifs with hc hb
  · exact Or.inl rfl
  · refine Or.inr (Or.inl ?_)
    unfold ByteSpan.Within at *
    simp only
    omega
  · refine Or.inr (Or.inr ⟨rfl, ?_, ?_, ?_⟩)
    · simp only
      push_neg at hc
      have hlt := (ByteSpan.toBool_iff _).mp (by simpa using hc.1)
      have hinc : (chunk_ltrim mem src wsp).inc.fStart = (chunk_ltrim mem src wsp).fStart + 1 := by
        have := ByteSpan.inc_of_lt _ _ hlt
        rw [this]
      unfold ByteSpan.Within at h1
      omega
    · simp only
      unfold ByteSpan.Within at h2
      omega
    · simpa using hb

/-- The token that `chunk_token` returns on a non-empty span lies within the span; the span
it leaves behind does so when the byte at `fEnd` is no delimiter, or when a delimiter lies
in the span. -/
theorem chunk_token_within (mem : Memory) (a : ByteSpan) (delims : Nat → Bool)
    (hne : a.toBool = true) :
    ByteSpan.Within a (chunk_token mem a delims).1 ∧
    ((delims (mem a.fEnd) = false ∨ ∃ c, c ∈ a.bytes mem ∧ delims c = true) →
      ByteSpan.Within a (chunk_token mem a delims).2) := by
  have hlt : a.fStart < a.fEnd := (ByteSpan.toBool_iff a).mp hne
  obtain ⟨h1, h2, h3, h4⟩ :=
    tokenEndLoop_spec mem delims a.fEnd a.size a.fStart (by omega) (by rw [ByteSpan.size_eq])
  unfold chunk_token
  simp only [hne, Bool.true_eq_false, if_false]
  generalize tokenEndLoop mem delims a.fEnd a.size a.fStart = r at *
  unfold ByteSpan.Within
  split_ifs with hd
  · refine ⟨⟨le_refl _, h1, h2⟩, ?_⟩
    intro hcond
    have hr : r < a.fEnd := by
      by_contra hge
      have hre : r = a.fEnd := by omega
      subst hre
      rcases hcond with hpast | ⟨c, hc, hdc⟩
      · rw [hpast] at hd
        exact Bool.noConfusion hd
      · rw [ByteSpan.mem_bytes_iff] at hc
        obtain ⟨i, hi, hci⟩ := hc
        rw [ByteSpan.size_eq] at hi
        have := h3 (a.fStart + i) (by omega) (by omega)
        rw [hci, hdc] at this
        exact Bool.noConfusion this
    simp only
    omega
  · refine ⟨⟨le_refl _, h1, h2⟩, fun _ => ?_⟩
    simp only
    omega

/-- C27, as stated, fails: `chunk_read_bracketed` on the well-formed span "(ab", which has
no closing bracket, returns the span `{begin, nullptr}`: its `fStart` is above its `fEnd`,
it lies outside the range of the argument, and its `empty()` is false though its `size()`
is 0. -/
theorem chunk_read_bracketed_unterminated_span :
    (ByteSpan.mk 4096 4099).fStart ≤ (ByteSpan.mk 4096 4099).fEnd ∧
    ByteSpan.bytes (memOf 4096 (cstr "(ab")) ⟨4096, 4099⟩ = cstr "(ab" ∧
    (chunk_read_bracketed (memOf 4096 (cstr "(ab")) sampleWsp ⟨4096, 4099⟩ 40 41).1 =
      ⟨4097, 0⟩ ∧
    ¬ (ByteSpan.mk 4097 0).fStart ≤ (ByteSpan.mk 4097 0).fEnd ∧
    ¬ ByteSpan.Within ⟨4096, 4099⟩ ⟨4097, 0⟩ ∧
    (ByteSpan.mk 4097 0).empty = false ∧
    (ByteSpan.mk 4097 0).size = 0 := by
  refine ⟨by decide, by decide!, by decide!, by decide, by decide, by decide, by decide⟩

/-- C27, amended: starting from a span `a` with `fStart <= fEnd`, the spans left behind by
`operator+=`, `operator++`, `chunk_skip`, `chunk_to_u64` and `chunk_read_bracketed`, and
the spans produced by `chunk_ltrim`, `chunk_rtrim` and `chunk_trim`, satisfy
`fStart <= fEnd` and lie within the range of `a`. So do the spans produced by `subSpan` and
`take` when the pointer sum stays in the address space, the token that `chunk_token` and
`chunk_token_char` return on a non-empty span, and the span these leave behind when the
byte at `fEnd` is no delimiter or a delimiter lies in the span. The span that
`chunk_read_bracketed` returns is the null span, or lies within `a`, or is
`{begin, nullptr}` with `begin` within `a` and the argument left empty. On every span
within `a`, `empty()` and `size() == 0` agree. -/
theorem span_operations_stay_within (mem : Memory) (a : ByteSpan)
    (h : a.fStart ≤ a.fEnd) :
    (∀ n, ByteSpan.Within a (a.advance n)) ∧
    ByteSpan.Within a a.inc ∧
    (∀ n, ByteSpan.Within a (chunk_skip a n)) ∧
    ByteSpan.Within a (chunk_to_u64 mem a).2 ∧
    (∀ S, ByteSpan.Within a (chunk_ltrim mem a S) ∧ ByteSpan.Within a (chunk_rtrim mem a S) ∧
      ByteSpan.Within a (chunk_trim mem a S)) ∧
    (∀ startAt sz, a.fStart + startAt + sz < SIZE_MOD →
      ByteSpan.Within a (a.subSpan startAt sz)) ∧
    (∀ n, a.fStart + n < SIZE_MOD → ByteSpan.Within a (a.take n)) ∧
    (∀ delims, a.toBool = true →
      ByteSpan.Within a (chunk_token mem a delims).1 ∧
      ((delims (mem a.fEnd) = false ∨ ∃ c, c ∈ a.bytes mem ∧ delims c = true) →
        ByteSpan.Within a (chunk_token mem a delims).2)) ∧
    (∀ delim, a.toBool = true →
      ByteSpan.Within a (chunk_token_char mem a delim).1 ∧
      ((isDelimChar delim (mem a.fEnd) = false ∨
          ∃ c, c ∈ a.bytes mem ∧ isDelimChar delim c = true) →
        ByteSpan.Within a (chunk_token_char mem a delim).2)) ∧
    (∀ wsp l r,
      ByteSpan.Within a (chunk_read_bracketed mem wsp a l r).2 ∧
      ((chunk_read_bracketed mem wsp a l r).1 = ByteSpan.null ∨
        ByteSpan.Within a (chunk_read_bracketed mem wsp a l r).1 ∨
        ((chunk_read_bracketed mem wsp a l r).1.fEnd = 0 ∧
          a.fStart < (chunk_read_bracketed mem wsp a l r).1.fStart ∧
          (chunk_read_bracketed mem wsp a l r).1.fStart ≤ a.fEnd ∧
          (chunk_read_bracketed mem wsp a l r).2.toBool = false))) ∧
    (∀ b, ByteSpan.Within a b → (b.empty = true ↔ b.size = 0)) := by
  refine ⟨fun n => ByteSpan.advance_within a n h, ByteSpan.inc_within a h,
    fun n => chunk_skip_within a n h,
    u64Loop_within mem a a.size 0 a (ByteSpan.Within.refl a h),
    fun S => ⟨chunk_ltrim_within mem a S h, chunk_rtrim_within mem a S h,
      chunk_trim_within mem a S h⟩,
    fun startAt sz hsum => ByteSpan.subSpan_within a startAt sz h hsum,
    fun n hsum => ByteSpan.subSpan_within a 0 n h (by simpa using hsum),
    fun delims hne => chunk_token_within mem a delims hne,
    fun delim hne => chunk_token_within mem a (isDelimChar delim) hne,
    fun wsp l r => ⟨chunk_read_bracketed_src_within mem wsp a l r h,
      chunk_read_bracketed_result_cases mem wsp a l r h⟩,
    fun b hb => hb.empty_iff⟩

/-- C27, amended, at the span "ab,cd": trimming, tokenising and reading a number leave
spans within it. -/
theorem span_operations_stay_within_witness :
    (ByteSpan.mk 4096 4101).fStart ≤ (ByteSpan.mk 4096 4101).fEnd ∧
    ByteSpan.Within ⟨4096, 4101⟩ (chunk_to_u64 (memOf 4096 (cstr "ab,cd")) ⟨4096, 4101⟩).2 ∧
    (∀ S, ByteSpan.Within ⟨4096, 4101⟩ (chunk_ltrim (memOf 4096 (cstr "ab,cd")) ⟨4096, 4101⟩ S) ∧
      ByteSpan.Within ⟨4096, 4101⟩ (chunk_rtrim (memOf 4096 (cstr "ab,cd")) ⟨4096, 4101⟩ S) ∧
      ByteSpan.Within ⟨4096, 4101⟩ (chunk_trim (memOf 4096 (cstr "ab,cd")) ⟨4096, 4101⟩ S)) ∧
    chunk_token (memOf 4096 (cstr "ab,cd")) ⟨4096, 4101⟩ (fun c => c == 44) =
      (⟨4096, 4098⟩, ⟨4099, 4101⟩) :=
  ⟨by decide,
    (span_operations_stay_within (memOf 4096 (cstr "ab,cd")) ⟨4096, 4101⟩ (by decide)).2.2.2.1,
    (span_operations_stay_within (memOf 4096 (cstr "ab,cd")) ⟨4096, 4101⟩ (by decide)).2.2.2.2.1,
    by decide!⟩

/-- C28: the code on two buffers that agree inside the span and differ after it. The span
"ab" views the same bytes in the buffers "ab,cd" and "abxcd"; no byte of it is a delimiter
of {','}. `chunk_token` and `chunk_token_char` read the byte at `fEnd` and leave
`{fEnd + 1, fEnd}` in the first buffer and `{fEnd, fEnd}` in the second. -/
theorem chunk_token_depends_on_byte_after_span :
    ByteSpan.bytes (memOf 4096 (cstr "ab,cd")) ⟨4096, 4098⟩ =
      ByteSpan.bytes (memOf 4096 (cstr "abxcd")) ⟨4096, 4098⟩ ∧
    (ByteSpan.mk 4096 4098).toBool = true ∧
    chunk_token (memOf 4096 (cstr "ab,cd")) ⟨4096, 4098⟩ (fun c => c == 44) =
      (⟨4096, 4098⟩, ⟨4099, 4098⟩) ∧
    chunk_token (memOf 4096 (cstr "abxcd")) ⟨4096, 4098⟩ (fun c => c == 44) =
      (⟨4096, 4098⟩, ⟨4098, 4098⟩) ∧
    chunk_token_char (memOf 4096 (cstr "ab,cd")) ⟨4096, 4098⟩ 44 =
      (⟨4096, 4098⟩, ⟨4099, 4098⟩) ∧
    chunk_token_char (memOf 4096 (cstr "abxcd")) ⟨4096, 4098⟩ 44 =
      (⟨4096, 4098⟩, ⟨4098, 4098⟩) := by
  refine ⟨by decide!, by decide, by decide!, by decide!, by decide!, by decide!⟩

/-- What `chunk_find_char` returns on a well-formed span: the span from the first
occurrence of `c` to the end of `a`, which is empty when `c` does not occur. -/
theorem chunk_find_char_from_first_match (mem : Memory) (a : ByteSpan) (c : Int)
    (h : a.fStart ≤ a.fEnd) :
    (chunk_find_char mem a c).fEnd = a.fEnd ∧
    a.fStart ≤ (chunk_find_char mem a c).fStart ∧
    (chunk_find_char mem a c).fStart ≤ a.fEnd ∧
    (∀ i, a.fStart ≤ i → i < (chunk_find_char mem a c).fStart → (mem i : Int) ≠ c) ∧
    ((chunk_find_char mem a c).fStart < a.fEnd →
      (mem (chunk_find_char mem a c).fStart : Int) = c) := by
  obtain ⟨h1, h2, h3, h4⟩ :=
    tokenEndLoop_spec mem (isDelimChar c) a.fEnd a.size a.fStart h (by rw [ByteSpan.size_eq])
  refine ⟨rfl, h1, h2, ?_, ?_⟩
  · intro i hi1 hi2
    have := h3 i hi1 hi2
    simpa [isDelimChar] using this
  · intro hlt
    have := h4 hlt
    simpa [isDelimChar] using this

/-- C30: the code on "ab,cd" and on "abcd" with the character ','. `chunk_find_char` returns
the chunk that starts at the first ',' (",cd"), not the chunk "ab" that precedes it, and an
empty chunk at the end of the input when there is no ',', not the whole chunk. -/
theorem chunk_find_char_returns_rest :
    chunk_find_char (memOf 4096 (cstr "ab,cd")) ⟨4096, 4101⟩ 44 = ⟨4098, 4101⟩ ∧
    (chunk_find_char (memOf 4096 (cstr "ab,cd")) ⟨4096, 4101⟩ 44).bytes
      (memOf 4096 (cstr "ab,cd")) = cstr ",cd" ∧
    chunk_find_char (memOf 4096 (cstr "abcd")) ⟨4096, 4100⟩ 44 = ⟨4100, 4100⟩ ∧
    (chunk_find_char (memOf 4096 (cstr "abcd")) ⟨4096, 4100⟩ 44).size = 0 ∧
    ByteSpan.bytes (memOf 4096 (cstr "abcd")) ⟨4096, 4100⟩ = cstr "abcd" := by
  refine ⟨by decide!, by decide!, by decide!, by decide!, by decide!⟩

/-! ## `chunk_ltrim` and `chunk_read_bracketed` on the bytes -/

/-- The bytes of the span that covers a prefix of the content. -/
theorem ByteSpan.bytes_of_prefix (mem : Memory) (p q : Nat) (l1 l2 : List Nat)
    (h : ByteSpan.bytes mem ⟨p, q⟩ = l1 ++ l2) :
    ByteSpan.bytes mem ⟨p, p + l1.length⟩ = l1 := by
  have hlen := ByteSpan.prefix_length_le mem p q l1 l2 h
  by_cases hpq : p ≤ q
  · rw [ByteSpan.bytes_split mem p (p + l1.length) q (by omega) (by omega)] at h
    have hl : (ByteSpan.bytes mem ⟨p, p + l1.length⟩).length = l1.length := by
      rw [ByteSpan.bytes_length, ByteSpan.size_eq]
      simp
    exact (List.append_inj h hl).1
  · have h0 : l1.length = 0 := by omega
    have h1 : l1 = [] := List.eq_nil_of_length_eq_zero h0
    subst h1
    exact ByteSpan.bytes_eq_nil mem _ (by rw [ByteSpan.size_eq]; simp)

/-- The left-trim loop with enough fuel skips exactly the leading bytes of the set. -/
theorem ltrimLoop_bytes (mem : Memory) (S : Nat → Bool) (q fuel p : Nat)
    (hpq : p ≤ q) (hf : q - p ≤ fuel) :
    ByteSpan.bytes mem ⟨ltrimLoop mem S q fuel p, q⟩ =
      (ByteSpan.bytes mem ⟨p, q⟩).dropWhile S := by
  induction fuel generalizing p with
  | zero =>
    have hz : ByteSpan.bytes mem ⟨p, q⟩ = [] :=
      ByteSpan.bytes_eq_nil mem _ (by rw [ByteSpan.size_eq]; simp only; omega)
    simp only [ltrimLoop, hz, List.dropWhile_nil]
  | succ fuel ih =>
    rw [ltrimLoop]
    split_ifs with h
    · rw [ih (p + 1) (by omega) (by omega), ByteSpan.bytes_cons mem p q h.1,
        List.dropWhile_cons_of_pos h.2]
    · by_cases hlt : p < q
      · have hS : ¬ S (mem p) = true := fun hs => h ⟨hlt, hs⟩
        rw [ByteSpan.bytes_cons mem p q hlt, List.dropWhile_cons_of_neg hS]
      · have hz : ByteSpan.bytes mem ⟨p, q⟩ = [] :=
          ByteSpan.bytes_eq_nil mem _ (by rw [ByteSpan.size_eq]; simp only; omega)
        rw [hz, List.dropWhile_nil]

/-- The function `chunk_ltrim` drops the leading bytes of the set from the content. -/
theorem chunk_ltrim_bytes (mem : Memory) (a : ByteSpan) (S : Nat → Bool) :
    (chunk_ltrim mem a S).bytes mem = (a.bytes mem).dropWhile S := by
  obtain ⟨p, q⟩ := a
  by_cases hpq : p ≤ q
  · exact ltrimLoop_bytes mem S q _ p hpq (by rw [ByteSpan.size_eq])
  · have hsz : (ByteSpan.mk p q).size = 0 := by rw [ByteSpan.size_eq]; simp only; omega
    have hz : ByteSpan.bytes mem ⟨p, q⟩ = [] := ByteSpan.bytes_eq_nil mem _ hsz
    unfold chunk_ltrim
    rw [hsz, hz]
    simp only [ltrimLoop, List.dropWhile_nil]
    exact hz

/-- The bracket loop with enough fuel stops at the first closing bracket. -/
theorem bracketLoop_found (mem : Memory) (r : Nat) (inner rest : List Nat) :
    ∀ (fuel p q : Nat), ByteSpan.bytes mem ⟨p, q⟩ = inner ++ r :: rest → r ∉ inner →
      inner.length ≤ fuel → bracketLoop mem r fuel ⟨p, q⟩ = ⟨p + inner.length, q⟩ := by
  induction inner with
  | nil =>
    intro fuel p q hb _ _
    obtain ⟨hlt, hmem, -⟩ := ByteSpan.bytes_eq_cons mem p q r rest hb
    cases fuel with
    | zero => rfl
    | succ fuel =>
      rw [bracketLoop]
      have hpeek : ByteSpan.peek mem ⟨p, q⟩ = r := by
        rw [ByteSpan.peek_of_lt mem p q hlt, hmem]
      simp [hpeek]
  | cons d inner ih =>
    intro fuel p q hb hr hf
    obtain ⟨hlt, hmem, hb1⟩ := ByteSpan.bytes_eq_cons mem p q d (inner ++ r :: rest) hb
    cases fuel with
    | zero => simp at hf
    | succ fuel =>
      rw [bracketLoop]
      have hpeek : ByteSpan.peek mem ⟨p, q⟩ = d := by
        rw [ByteSpan.peek_of_lt mem p q hlt, hmem]
      have hne : d ≠ r := fun hdr => hr (by rw [hdr]; exact List.mem_cons_self _ _)
      have htb : (ByteSpan.mk p q).toBool = true := (ByteSpan.toBool_iff _).mpr hlt
      rw [if_pos ⟨htb, by rw [hpeek]; exact hne⟩, ByteSpan.inc_of_lt p q hlt,
        ih fuel (p + 1) q hb1 (fun hin => hr (List.mem_cons_of_mem _ hin))
          (by simpa using hf)]
      simp only [List.length_cons, ByteSpan.mk.injEq, and_true]
      omega

/-- Without a closing bracket the bracket loop with enough fuel runs to the end. -/
theorem bracketLoop_not_found (mem : Memory) (r : Nat) (inner : List Nat) :
    ∀ (fuel p q : Nat), p ≤ q → ByteSpan.bytes mem ⟨p, q⟩ = inner → r ∉ inner →
      inner.length ≤ fuel → bracketLoop mem r fuel ⟨p, q⟩ = ⟨q, q⟩ := by
  induction inner with
  | nil =>
    intro fuel p q hpq hb _ _
    have hlen := congrArg List.length hb
    rw [ByteSpan.bytes_length, ByteSpan.size_eq] at hlen
    simp only [List.length_nil] at hlen
    have hqp : p = q := by omega
    subst hqp
    cases fuel with
    | zero => rfl
    | succ fuel =>
      rw [bracketLoop]
      have htb : (ByteSpan.mk p p).toBool = false := (ByteSpan.toBool_false_iff _).mpr (le_refl _)
      simp [htb]
  | cons d inner ih =>
    intro fuel p q hpq hb hr hf
    obtain ⟨hlt, hmem, hb1⟩ := ByteSpan.bytes_eq_cons mem p q d inner hb
    cases fuel with
    | zero => simp at hf
    | succ fuel =>
      rw [bracketLoop]
      have hpeek : ByteSpan.peek mem ⟨p, q⟩ = d := by
        rw [ByteSpan.peek_of_lt mem p q hlt, hmem]
      have hne : d ≠ r := fun hdr => hr (by rw [hdr]; exact List.mem_cons_self _ _)
      have htb : (ByteSpan.mk p q).toBool = true := (ByteSpan.toBool_iff _).mpr hlt
      rw [if_pos ⟨htb, by rw [hpeek]; exact hne⟩, ByteSpan.inc_of_lt p q hlt,
        ih fuel (p + 1) q (by omega) hb1 (fun hin => hr (List.mem_cons_of_mem _ hin))
          (by simpa using hf)]

/-- C29: `chunk_read_bracketed` on the content of `src` after its leading whitespace. If
that content is `lbracket`, bytes without `rbracket`, `rbracket`, and a rest, the function
returns exactly the bytes between the brackets and leaves `src` on the rest, just past the
closing bracket. If the content does not begin with `lbracket` the function returns the
null span (size 0) and leaves `src` on that content. If the content is `lbracket` followed
by bytes without `rbracket` (unterminated), the function returns a span of size 0 and
leaves `src` empty. No case signals an error: the function is total. -/
theorem chunk_read_bracketed_spec (mem : Memory) (wsp : Nat → Bool) (src : ByteSpan)
    (l r : Nat) :
    (∀ inner rest, (src.bytes mem).dropWhile wsp = l :: (inner ++ r :: rest) → r ∉ inner →
      (chunk_read_bracketed mem wsp src l r).1.bytes mem = inner ∧
      (chunk_read_bracketed mem wsp src l r).2.bytes mem = rest ∧
      (chunk_read_bracketed mem wsp src l r).2.fStart =
        (chunk_read_bracketed mem wsp src l r).1.fEnd + 1 ∧
      mem (chunk_read_bracketed mem wsp src l r).1.fEnd = r ∧
      (chunk_read_bracketed mem wsp src l r).2.fEnd = src.fEnd) ∧
    (((src.bytes mem).dropWhile wsp).head? ≠ some l →
      (chunk_read_bracketed mem wsp src l r).1 = ByteSpan.null ∧
      (chunk_read_bracketed mem wsp src l r).1.size = 0 ∧
      (chunk_read_bracketed mem wsp src l r).2.bytes mem = (src.bytes mem).dropWhile wsp) ∧
    (∀ inner, (src.bytes mem).dropWhile wsp = l :: inner → r ∉ inner →
      (chunk_read_bracketed mem wsp src l r).1.size = 0 ∧
      (chunk_read_bracketed mem wsp src l r).2.empty = true ∧
      (chunk_read_bracketed mem wsp src l r).2.size = 0) := by
  have hl := chunk_ltrim_bytes mem src wsp
  have hend : (chunk_ltrim mem src wsp).fEnd = src.fEnd := rfl
  unfold chunk_read_bracketed
  simp only
  generalize chunk_ltrim mem src wsp = src1 at hl hend ⊢
  generalize (src.bytes mem).dropWhile wsp = t at hl ⊢
  obtain ⟨p, q⟩ := src1
  simp only at hend
  refine ⟨?_, ?_, ?_⟩
  · intro inner rest ht hr
    subst ht
    obtain ⟨hlt, hmem, hb1⟩ := ByteSpan.bytes_eq_cons mem p q l _ hl
    have htb : (ByteSpan.mk p q).toBool = true := (ByteSpan.toBool_iff _).mpr hlt
    have hpeek : ByteSpan.peek mem ⟨p, q⟩ = l := by
      rw [ByteSpan.peek_of_lt mem p q hlt, hmem]
    have hlen := ByteSpan.prefix_length_le mem (p + 1) q (inner ++ [r]) rest
      (by simpa using hb1)
    simp only [List.length_append, List.length_singleton] at hlen
    have hloop := bracketLoop_found mem r inner rest (q - (p + 1)) (p + 1) q hb1 hr (by omega)
    have hrest := ByteSpan.bytes_after_prefix mem (p + 1) q inner (r :: rest) hb1
    obtain ⟨hlt2, hmem2, hb2⟩ := ByteSpan.bytes_eq_cons mem _ q r rest hrest
    have htb2 : (ByteSpan.mk (p + 1 + inner.length) q).toBool = true :=
      (ByteSpan.toBool_iff _).mpr hlt2
    simp only [htb, hpeek, Bool.true_eq_false, ne_eq, not_true_eq_false, or_self, if_false,
      ByteSpan.inc_of_lt p q hlt, ByteSpan.size_eq, hloop, htb2, if_true,
      ByteSpan.inc_of_lt _ q hlt2]
    exact ⟨ByteSpan.bytes_of_prefix mem (p + 1) q inner (r :: rest) hb1, hb2, trivial, hmem2,
      hend⟩
  · intro hhead
    have hcond : (ByteSpan.mk p q).toBool = false ∨ ByteSpan.peek mem ⟨p, q⟩ ≠ l := by
      by_cases hlt : p < q
      · right
        rw [ByteSpan.peek_of_lt mem p q hlt]
        intro hpl
        rw [ByteSpan.bytes_cons mem p q hlt] at hl
        rw [← hl, hpl] at hhead
        exact hhead rfl
      · left
        exact (ByteSpan.toBool_false_iff _).mpr (by simpa using hlt)
    rw [if_pos hcond]
    exact ⟨rfl, rfl, hl⟩
  · intro inner ht hr
    subst ht
    obtain ⟨hlt, hmem, hb1⟩ := ByteSpan.bytes_eq_cons mem p q l _ hl
    have htb : (ByteSpan.mk p q).toBool = true := (ByteSpan.toBool_iff _).mpr hlt
    have hpeek : ByteSpan.peek mem ⟨p, q⟩ = l := by
      rw [ByteSpan.peek_of_lt mem p q hlt, hmem]
    have hlen := congrArg List.length hb1
    rw [ByteSpan.bytes_length, ByteSpan.size_eq] at hlen
    simp only at hlen
    have hloop := bracketLoop_not_found mem r inner (q - (p + 1)) (p + 1) q (by omega) hb1 hr
      (by omega)
    have htb2 : (ByteSpan.mk q q).toBool = false := (ByteSpan.toBool_false_iff _).mpr (le_refl _)
    simp only [htb, hpeek, Bool.true_eq_false, ne_eq, not_true_eq_false, or_self, if_false,
      ByteSpan.inc_of_lt p q hlt, ByteSpan.size_eq, hloop, htb2]
    refine ⟨?_, ?_, ?_⟩
    · simp
    · simp [ByteSpan.empty]
    · simp

/-- C29 at the inputs " (ab) c", "ab)" and "(ab" with the brackets '(' and ')'. -/
theorem chunk_read_bracketed_spec_witness :
    ((ByteSpan.bytes (memOf 4096 (cstr " (ab) c")) ⟨4096, 4103⟩).dropWhile sampleWsp =
        40 :: (cstr "ab" ++ 41 :: cstr " c") ∧ 41 ∉ cstr "ab" ∧
      (chunk_read_bracketed (memOf 4096 (cstr " (ab) c")) sampleWsp ⟨4096, 4103⟩ 40 41).1.bytes
        (memOf 4096 (cstr " (ab) c")) = cstr "ab" ∧
      (chunk_read_bracketed (memOf 4096 (cstr " (ab) c")) sampleWsp ⟨4096, 4103⟩ 40 41).2.bytes
        (memOf 4096 (cstr " (ab) c")) = cstr " c") ∧
    (((ByteSpan.bytes (memOf 4096 (cstr "ab)")) ⟨4096, 4099⟩).dropWhile sampleWsp).head? ≠
        some 40 ∧
      (chunk_read_bracketed (memOf 4096 (cstr "ab)")) sampleWsp ⟨4096, 4099⟩ 40 41).1.size = 0) ∧
    ((ByteSpan.bytes (memOf 4096 (cstr "(ab")) ⟨4096, 4099⟩).dropWhile sampleWsp =
        40 :: cstr "ab" ∧ 41 ∉ cstr "ab" ∧
      (chunk_read_bracketed (memOf 4096 (cstr "(ab")) sampleWsp ⟨4096, 4099⟩ 40 41).1.size = 0 ∧
      (chunk_read_bracketed (memOf 4096 (cstr "(ab")) sampleWsp ⟨4096, 4099⟩ 40 41).2.empty =
        true) :=
  ⟨⟨by decide!, by decide,
      ((chunk_read_bracketed_spec (memOf 4096 (cstr " (ab) c")) sampleWsp ⟨4096, 4103⟩ 40 41).1
        (cstr "ab") (cstr " c") (by decide!) (by decide)).1,
      ((chunk_read_bracketed_spec (memOf 4096 (cstr " (ab) c")) sampleWsp ⟨4096, 4103⟩ 40 41).1
        (cstr "ab") (cstr " c") (by decide!) (by decide)).2.1⟩,
    ⟨by decide!,
      ((chunk_read_bracketed_spec (memOf 4096 (cstr "ab)")) sampleWsp ⟨4096, 4099⟩ 40 41).2.1
        (by decide!)).2.1⟩,
    ⟨by decide!, by decide,
      ((chunk_read_bracketed_spec (memOf 4096 (cstr "(ab")) sampleWsp ⟨4096, 4099⟩ 40 41).2.2
        (cstr "ab") (by decide!) (by decide)).1,
      ((chunk_read_bracketed_spec (memOf 4096 (cstr "(ab")) sampleWsp ⟨4096, 4099⟩ 40 41).2.2
        (cstr "ab") (by decide!) (by decide)).2.1⟩⟩

/-! ## User space -/

/-- The values a linear gradient gets in user space. -/
theorem SVGLinearGradient.bindSelfLocal_user_values (env : BindEnv) (g : SVGGradient)
    (h : g.readCommonAttributes.fGradientUnits = SpaceUnitsKind.SVG_SPACE_USER) :
    (SVGLinearGradient.bindSelfLocal env g).fGradient.values.x0 =
      (if g.attrs.x1.isSet then env.calculatePixels g.attrs.x1 env.viewport.w 0 env.dpi
        else 0) ∧
    (SVGLinearGradient.bindSelfLocal env g).fGradient.values.y0 =
      (if g.attrs.y1.isSet then env.calculatePixels g.attrs.y1 env.viewport.h 0 env.dpi
        else 0) ∧
    (SVGLinearGradient.bindSelfLocal env g).fGradient.values.x1 =
      (if g.attrs.x2.isSet then env.calculatePixels g.attrs.x2 env.viewport.w 0 env.dpi
        else 0) ∧
    (SVGLinearGradient.bindSelfLocal env g).fGradient.values.y1 =
      (if g.attrs.y2.isSet then env.calculatePixels g.attrs.y2 env.viewport.h 0 env.dpi
        else 1) := by
  unfold SVGLinearGradient.bindSelfLocal
  simp only [h]
  by_cases ht : g.readCommonAttributes.fHasGradientTransform = true <;>
    simp [ht, BLGradient.setLinearValues, BLGradient.setTransform]

/-- C21: in user space the geometry of a linear gradient depends only on the width and
height of the viewport, the dpi and the attributes. Each of x1, x2 that is set resolves to
`calculatePixels(viewport.w, 0, dpi)` and each of y1, y2 to `calculatePixels(viewport.h, 0,
dpi)`, nothing is added, and the unset ones keep 0, 0, 0, 1. Two bindings of gradients with
the same attributes, both in user space, in contexts that agree on the width and height of
the viewport and on the dpi, give the same x1, y1, x2, y2, whatever the object frames, the
origins of the viewports and the earlier states of the gradients are. -/
theorem user_space_linear_geometry (env1 env2 : BindEnv) (g1 g2 : SVGGradient)
    (hattrs : g1.attrs = g2.attrs)
    (hu1 : g1.readCommonAttributes.fGradientUnits = SpaceUnitsKind.SVG_SPACE_USER)
    (hu2 : g2.readCommonAttributes.fGradientUnits = SpaceUnitsKind.SVG_SPACE_USER)
    (hw : env1.viewport.w = env2.viewport.w) (hh : env1.viewport.h = env2.viewport.h)
    (hdpi : env1.dpi = env2.dpi) (hcalc : env1.calculatePixels = env2.calculatePixels) :
    ((SVGLinearGradient.bindSelfLocal env1 g1).fGradient.values.x0 =
        (if g1.attrs.x1.isSet then env1.calculatePixels g1.attrs.x1 env1.viewport.w 0 env1.dpi
          else 0) ∧
      (SVGLinearGradient.bindSelfLocal env1 g1).fGradient.values.y0 =
        (if g1.attrs.y1.isSet then env1.calculatePixels g1.attrs.y1 env1.viewport.h 0 env1.dpi
          else 0) ∧
      (SVGLinearGradient.bindSelfLocal env1 g1).fGradient.values.x1 =
        (if g1.attrs.x2.isSet then env1.calculatePixels g1.attrs.x2 env1.viewport.w 0 env1.dpi
          else 0) ∧
      (SVGLinearGradient.bindSelfLocal env1 g1).fGradient.values.y1 =
        (if g1.attrs.y2.isSet then env1.calculatePixels g1.attrs.y2 env1.viewport.h 0 env1.dpi
          else 1)) ∧
    (SVGLinearGradient.bindSelfLocal env1 g1).fGradient.values.x0 =
      (SVGLinearGradient.bindSelfLocal env2 g2).fGradient.values.x0 ∧
    (SVGLinearGradient.bindSelfLocal env1 g1).fGradient.values.y0 =
      (SVGLinearGradient.bindSelfLocal env2 g2).fGradient.values.y0 ∧
    (SVGLinearGradient.bindSelfLocal env1 g1).fGradient.values.x1 =
      (SVGLinearGradient.bindSelfLocal env2 g2).fGradient.values.x1 ∧
    (SVGLinearGradient.bindSelfLocal env1 g1).fGradient.values.y1 =
      (SVGLinearGradient.bindSelfLocal env2 g2).fGradient.values.y1 := by
  obtain ⟨a1, a2, a3, a4⟩ := SVGLinearGradient.bindSelfLocal_user_values env1 g1 hu1
  obtain ⟨b1, b2, b3, b4⟩ := SVGLinearGradient.bindSelfLocal_user_values env2 g2 hu2
  refine ⟨⟨a1, a2, a3, a4⟩, ?_, ?_, ?_, ?_⟩
  · rw [a1, b1, hattrs, hw, hdpi, hcalc]
  · rw [a2, b2, hattrs, hh, hdpi, hcalc]
  · rw [a3, b3, hattrs, hw, hdpi, hcalc]
  · rw [a4, b4, hattrs, hh, hdpi, hcalc]

/-- C21 at the gradient with `x1="10"`, `x2="50"` in user space: bound against the object
frame (10, 20, 200, 100) in the viewport (0, 0, 800, 600), and against the object frame
(300, 400, 50, 60) in the viewport (5, 7, 800, 600) after an earlier binding, it has the
geometry (10, 0, 50, 1) both times. -/
theorem user_space_linear_geometry_witness :
    (SVGLinearGradient.bindSelfLocal
        (sampleViewEnv { x := 10, y := 20, w := 200, h := 100 }
          { x := 0, y := 0, w := 800, h := 600 }) sampleUserSpaceGradient).fGradient.values.x0 =
      (SVGLinearGradient.bindSelfLocal
        (sampleViewEnv { x := 300, y := 400, w := 50, h := 60 }
          { x := 5, y := 7, w := 800, h := 600 })
        (SVGLinearGradient.bindSelfLocal
          (sampleViewEnv { x := 10, y := 20, w := 200, h := 100 }
            { x := 0, y := 0, w := 800, h := 600 })
          sampleUserSpaceGradient)).fGradient.values.x0 ∧
    (SVGLinearGradient.bindSelfLocal
        (sampleViewEnv { x := 10, y := 20, w := 200, h := 100 }
          { x := 0, y := 0, w := 800, h := 600 }) sampleUserSpaceGradient).fGradient.values =
      { x0 := 10, y0 := 0, x1 := 50, y1 := 1, r0 := 0 } :=
  ⟨(user_space_linear_geometry
      (sampleViewEnv { x := 10, y := 20, w := 200, h := 100 }
        { x := 0, y := 0, w := 800, h := 600 })
      (sampleViewEnv { x := 300, y := 400, w := 50, h := 60 }
        { x := 5, y := 7, w := 800, h := 600 })
      sampleUserSpaceGradient
      (SVGLinearGradient.bindSelfLocal
        (sampleViewEnv { x := 10, y := 20, w := 200, h := 100 }
          { x := 0, y := 0, w := 800, h := 600 })
        sampleUserSpaceGradient)
      (by decide!) (by decide!) (by decide!) rfl rfl rfl rfl).2.1,
    by decide!⟩

/-! ## Loading stops -/

theorem SVGGradient.loadSelfClosingNode_other (env : LoadEnv) (g : SVGGradient)
    (elem : XmlElement) (h : elem.name ≠ cstr "stop") :
    SVGGradient.loadSelfClosingNode env g elem = g := by
  unfold SVGGradient.loadSelfClosingNode
  rw [if_pos h]

theorem SVGGradient.loadSelfClosingNode_stop (env : LoadEnv) (g : SVGGradient)
    (elem : XmlElement) (h : elem.name = cstr "stop") :
    SVGGradient.loadSelfClosingNode env g elem =
      { g with
        fGradient := env.addStop g.fGradient (elem.stop env).offset (elem.stop env).rgba } := by
  unfold SVGGradient.loadSelfClosingNode
  rw [if_neg (not_not.mpr h)]
  rfl

/-- Loading the self-closing children is adding the stops of the children named "stop",
in their order. -/
theorem SVGGradient.loadSelfClosingNodes_eq_filter (env : LoadEnv)
    (children : List XmlElement) :
    ∀ g : SVGGradient, SVGGradient.loadSelfClosingNodes env g children =
      (children.filter (fun e => decide (e.name = cstr "stop"))).foldl
        (fun g e =>
          { g with
            fGradient := env.addStop g.fGradient (e.stop env).offset (e.stop env).rgba }) g := by
  induction children with
  | nil => intro g; rfl
  | cons e rest ih =>
    intro g
    unfold SVGGradient.loadSelfClosingNodes at ih ⊢
    rw [List.foldl_cons, ih]
    by_cases h : e.name = cstr "stop"
    · rw [List.filter_cons_of_pos (by simpa using h), List.foldl_cons,
        SVGGradient.loadSelfClosingNode_stop env g e h]
    · rw [List.filter_cons_of_neg (by simpa using h),
        SVGGradient.loadSelfClosingNode_other env g e h]

/-- C23, as stated, fails: the stop elements with the offsets "2", "-1" and "150%" store
the offsets 2, -1 and 3/2, none of which lies in [0, 1], and `loadSelfClosingNode` passes
the 2 to `addStop` as it is. -/
theorem stop_offset_not_clamped :
    (SVGStopNode.loadFromXmlElement sampleLoadEnv
      (sampleElement "stop" (SVGDimension.bareNumber 2) 4294901760)).fOffset = 2 ∧
    (SVGStopNode.loadFromXmlElement sampleLoadEnv
      (sampleElement "stop" (SVGDimension.bareNumber (-1)) 4294901760)).fOffset = -1 ∧
    (SVGStopNode.loadFromXmlElement sampleLoadEnv
      (sampleElement "stop" (SVGDimension.percentage 150) 4294901760)).fOffset = 3 / 2 ∧
    ¬ ((2 : ℚ) ≤ 1) ∧ ¬ ((0 : ℚ) ≤ -1) ∧ ¬ ((3 / 2 : ℚ) ≤ 1) ∧
    (SVGGradient.loadSelfClosingNode sampleLoadEnv
        (SVGGradient.construct GradientKind.linearGradient GradientAttributes.none)
        (sampleElement "stop" (SVGDimension.bareNumber 2) 4294901760)).fGradient.stops =
      [{ offset := 2, rgba := 4294901760 }] := by
  refine ⟨by decide!, by decide!, by decide!, by decide!, by decide!, by decide!, by decide!⟩

/-- C23, amended: the offset that `SVGStopNode::loadFromXmlElement` stores is the default 0
when the offset attribute is not set and otherwise exactly what `calculatePixels(1)` returns
for it, with no clamping; `loadSelfClosingNode` passes that value to `addStop` unchanged.
The stored offset lies in [0, 1] exactly when the attribute is not set or the value that
`calculatePixels(1)` returns does. -/
theorem stop_offset_is_resolved_value (env : LoadEnv) (g : SVGGradient) (elem : XmlElement) :
    (SVGStopNode.loadFromXmlElement env elem).fOffset =
      (if elem.stopOffset.isSet then env.calculatePixels elem.stopOffset 1 0 96 else 0) ∧
    (SVGGradient.loadSelfClosingNode env g { elem with name := cstr "stop" }).fGradient =
      env.addStop g.fGradient
        (if elem.stopOffset.isSet then env.calculatePixels elem.stopOffset 1 0 96 else 0)
        (SVGStopNode.loadFromXmlElement env elem).fColor ∧
    ((0 ≤ (SVGStopNode.loadFromXmlElement env elem).fOffset ∧
        (SVGStopNode.loadFromXmlElement env elem).fOffset ≤ 1) ↔
      (elem.stopOffset.isSet = false ∨
        (0 ≤ env.calculatePixels elem.stopOffset 1 0 96 ∧
          env.calculatePixels elem.stopOffset 1 0 96 ≤ 1))) := by
  have hoff : (SVGStopNode.loadFromXmlElement env elem).fOffset =
      (if elem.stopOffset.isSet then env.calculatePixels elem.stopOffset 1 0 96 else 0) := by
    unfold SVGStopNode.loadFromXmlElement SVGStopNode.construct
    by_cases h1 : elem.stopOffset.isSet = true <;>
      by_cases h2 : elem.stopOpacity.isSet = true <;> simp [h1, h2]
  refine ⟨hoff, ?_, ?_⟩
  · rw [← hoff]
    rfl
  · rw [hoff]
    by_cases h1 : elem.stopOffset.isSet = true
    · simp [h1]
    · simp [h1]

/-! ## Text positioning -/

/-- C24: `calcTextPosition` returns `x` for LEFT (start) alignment, `x - cx/2` for CENTER
and `x - cx` for RIGHT (end), where `(cx, cy)` is the measured extent of the text, and
always returns the width `cx` and the height `cy`, whatever the vertical alignment and the
baseline mode are. -/
theorem calcTextPosition_horizontal (fs : SVGFontSelection) (txt : List Nat) (x y : ℚ)
    (vAlignment : ALIGNMENT) (baseline : DOMINANTBASELINE) :
    (fs.calcTextPosition txt x y ALIGNMENT.LEFT vAlignment baseline).x = x ∧
    (fs.calcTextPosition txt x y ALIGNMENT.CENTER vAlignment baseline).x =
      x - (fs.textMeasure txt).x / 2 ∧
    (fs.calcTextPosition txt x y ALIGNMENT.RIGHT vAlignment baseline).x =
      x - (fs.textMeasure txt).x ∧
    (∀ hAlignment : ALIGNMENT,
      (fs.calcTextPosition txt x y hAlignment vAlignment baseline).w = (fs.textMeasure txt).x ∧
      (fs.calcTextPosition txt x y hAlignment vAlignment baseline).h =
        (fs.textMeasure txt).y) := by
  refine ⟨rfl, rfl, rfl, fun hAlignment => ⟨rfl, rfl⟩⟩

/-- C25: `calcTextPosition` shifts `y` by the vertical alignment (TOP: `y + cy - descent`,
CENTER: `y + cy/2`, BOTTOM: `y - descent`, BASELINE and every other value: unchanged) and
then by the dominant baseline (HANGING: plus `emHeight`, CENTRAL and MIDDLE: plus
`exHeight/2`, every other value: nothing). With BASELINE and AUTO the result is the `y`
given. -/
theorem calcTextPosition_vertical (fs : SVGFontSelection) (txt : List Nat) (x y : ℚ)
    (hAlignment vAlignment : ALIGNMENT) (baseline : DOMINANTBASELINE) :
    (fs.calcTextPosition txt x y hAlignment vAlignment baseline).y =
      (match vAlignment with
        | ALIGNMENT.TOP => y + (fs.textMeasure txt).y - fs.descent
        | ALIGNMENT.CENTER => y + (fs.textMeasure txt).y / 2
        | ALIGNMENT.BOTTOM => y - fs.descent
        | _ => y) +
      (match baseline with
        | DOMINANTBASELINE.HANGING => fs.emHeight
        | DOMINANTBASELINE.CENTRAL => fs.exHeight / 2
        | DOMINANTBASELINE.MIDDLE => fs.exHeight / 2
        | _ => 0) ∧
    (fs.calcTextPosition txt x y hAlignment ALIGNMENT.BASELINE DOMINANTBASELINE.AUTO).y = y := by
  refine ⟨?_, rfl⟩
  cases vAlignment <;> cases baseline <;> simp [SVGFontSelection.calcTextPosition]

/-! ## The text cursor -/

theorem runAnchors_length (width : List Nat → ℚ) (texts : List (List Nat)) :
    ∀ x, (runAnchors width x texts).length = texts.length := by
  induction texts with
  | nil => intro x; rfl
  | cons t rest ih => intro x; simp [runAnchors, ih]

theorem runAnchors_getElem? (width : List Nat → ℚ) (texts : List (List Nat)) :
    ∀ (x : ℚ) (i : Nat), i < texts.length →
      (runAnchors width x texts)[i]? = some (x + ((texts.take i).map width).sum) := by
  induction texts with
  | nil => intro x i hi; simp at hi
  | cons t rest ih =>
    intro x i hi
    cases i with
    | zero => simp [runAnchors]
    | succ i =>
      simp only [runAnchors, List.getElem?_cons_succ, List.take_succ_cons, List.map_cons,
        List.sum_cons]
      rw [ih (x + width t) i (by simpa using hi), add_assoc]

/-- The loop of `drawChildren` over text runs, with start alignment: each run is drawn at
the cursor, and the cursor advances by the width of the run. -/
theorem SVGTSpanNode.foldl_textRuns (fs : SVGFontSelection) (v : ALIGNMENT)
    (b : DOMINANTBASELINE) (texts : List (List Nat)) :
    ∀ (ctx : RenderCtx) (cursor : BLPoint),
      ((texts.map TextChild.textRun).foldl
          (SVGTSpanNode.drawChild fs ALIGNMENT.LEFT v b) (ctx, cursor)).1.texts.map
        (fun d => (d.text, d.x)) =
        ctx.texts.map (fun d => (d.text, d.x)) ++
          texts.zip (runAnchors fs.fFont.textWidth cursor.x texts) ∧
      ((texts.map TextChild.textRun).foldl
          (SVGTSpanNode.drawChild fs ALIGNMENT.LEFT v b) (ctx, cursor)).2 =
        { x := cursor.x + (texts.map fs.fFont.textWidth).sum, y := cursor.y } := by
  induction texts with
  | nil =>
    intro ctx cursor
    simp [runAnchors]
  | cons t rest ih =>
    intro ctx cursor
    simp only [List.map_cons, List.foldl_cons]
    obtain ⟨h1, h2⟩ := ih
      (((fs.draw ctx).text t cursor.x
        (fs.calcTextPosition t cursor.x cursor.y ALIGNMENT.LEFT v b).y))
      { cursor with x := cursor.x + fs.fFont.textWidth t }
    have hstep : SVGTSpanNode.drawChild fs ALIGNMENT.LEFT v b (ctx, cursor)
        (TextChild.textRun t) =
        ((fs.draw ctx).text t cursor.x
          (fs.calcTextPosition t cursor.x cursor.y ALIGNMENT.LEFT v b).y,
          { cursor with x := cursor.x + fs.fFont.textWidth t }) := rfl
    rw [hstep]
    refine ⟨?_, ?_⟩
    · rw [h1]
      have hdraw : (fs.draw ctx).texts = ctx.texts := by
        unfold SVGFontSelection.draw
        split_ifs <;> rfl
      simp [RenderCtx.text, hdraw, runAnchors]
    · rw [h2]
      simp only [List.sum_cons, BLPoint.mk.injEq, and_true]
      ring

/-- C26, as stated, fails: the tspan with `y="40"` and `dy="5"` (no x attribute, start
alignment) and two text runs has the cursor (0, 45) after `resolvePosition`; `drawChildren`
sets the cursor's y to `fY = 40` before it draws, and ends with the cursor (30, 40): the
cursor's y has changed. -/
theorem drawChildren_resets_cursor_y :
    (SVGTSpanNode.resolvePosition sampleTextEnv
      (SVGTSpanNode.construct
        { TSpanAttributes.none with
          y := SVGDimension.bareNumber 40, dy := SVGDimension.bareNumber 5 }
        { fFont := sampleFont, fIsSet := false }
        [TextChild.textRun (cstr "ab"), TextChild.textRun (cstr "cde")])).fTextCursor =
      { x := 0, y := 45 } ∧
    (SVGTSpanNode.resolvePosition sampleTextEnv
      (SVGTSpanNode.construct
        { TSpanAttributes.none with
          y := SVGDimension.bareNumber 40, dy := SVGDimension.bareNumber 5 }
        { fFont := sampleFont, fIsSet := false }
        [TextChild.textRun (cstr "ab"), TextChild.textRun (cstr "cde")])).fDimX.isSet =
      false ∧
    (SVGTSpanNode.resolvePosition sampleTextEnv
      (SVGTSpanNode.construct
        { TSpanAttributes.none with
          y := SVGDimension.bareNumber 40, dy := SVGDimension.bareNumber 5 }
        { fFont := sampleFont, fIsSet := false }
        [TextChild.textRun (cstr "ab"), TextChild.textRun (cstr "cde")])).fTextHAlignment =
      ALIGNMENT.LEFT ∧
    (SVGTSpanNode.drawChildren { font := sampleFont, texts := [] }
      (SVGTSpanNode.resolvePosition sampleTextEnv
        (SVGTSpanNode.construct
          { TSpanAttributes.none with
            y := SVGDimension.bareNumber 40, dy := SVGDimension.bareNumber 5 }
          { fFont := sampleFont, fIsSet := false }
          [TextChild.textRun (cstr "ab"), TextChild.textRun (cstr "cde")]))).2.fTextCursor =
      { x := 30, y := 40 } ∧
    (SVGTSpanNode.drawChildren { font := sampleFont, texts := [] }
      (SVGTSpanNode.resolvePosition sampleTextEnv
        (SVGTSpanNode.construct
          { TSpanAttributes.none with
            y := SVGDimension.bareNumber 40, dy := SVGDimension.bareNumber 5 }
          { fFont := sampleFont, fIsSet := false }
          [TextChild.textRun (cstr "ab"), TextChild.textRun (cstr "cde")]))).1.texts =
      [{ text := cstr "ab", x := 0, y := 40 }, { text := cstr "cde", x := 12, y := 40 }] := by
  refine ⟨by decide!, by decide!, by decide!, by decide!, by decide!⟩

/-- C26, amended: for a tspan with start alignment and no x attribute whose children are
text runs, `drawChildren` draws run `i` at the anchor `x0` plus the measured widths of the
runs before it, where `x0` is the cursor's x on entry, and ends with the cursor's x at `x0`
plus the widths of all runs. The cursor's y ends as it was on entry when the tspan has no
y attribute, and as `fY` when it has one. The widths are measured with the font of the
font selection, which is the font of the context when the selection is not set. -/
theorem drawChildren_advances_cursor (ctx : RenderCtx) (n : SVGTSpanNode)
    (texts : List (List Nat))
    (hnodes : n.fNodes = texts.map TextChild.textRun)
    (halign : n.fTextHAlignment = ALIGNMENT.LEFT)
    (hx : n.fDimX.isSet = false) :
    (∀ i, i < texts.length →
      ((SVGTSpanNode.drawChildren ctx n).1.texts[ctx.texts.length + i]?).map
          (fun d => (d.text, d.x)) =
        texts[i]?.map (fun t => (t, n.fTextCursor.x +
          ((texts.take i).map
            (if n.fFontSelection.isSet = false then ctx.font
              else n.fFontSelection.fFont).textWidth).sum))) ∧
    (SVGTSpanNode.drawChildren ctx n).1.texts.length = ctx.texts.length + texts.length ∧
    (SVGTSpanNode.drawChildren ctx n).2.fTextCursor.x =
      n.fTextCursor.x +
        (texts.map
          (if n.fFontSelection.isSet = false then ctx.font
            else n.fFontSelection.fFont).textWidth).sum ∧
    (SVGTSpanNode.drawChildren ctx n).2.fTextCursor.y =
      (if n.fDimY.isSet then n.fY else n.fTextCursor.y) := by
  have hfont : (if n.fFontSelection.isSet = false then n.fFontSelection.font ctx.font
      else n.fFontSelection).fFont =
      (if n.fFontSelection.isSet = false then ctx.font else n.fFontSelection.fFont) := by
    split_ifs <;> rfl
  obtain ⟨h1, h2⟩ := SVGTSpanNode.foldl_textRuns
    (if n.fFontSelection.isSet = false then n.fFontSelection.font ctx.font
      else n.fFontSelection) n.fTextVAlignment n.fDominantBaseline texts ctx
    (if n.fDimY.isSet then { n.fTextCursor with y := n.fY } else n.fTextCursor)
  rw [hfont] at h1 h2
  have hdc1 : (SVGTSpanNode.drawChildren ctx n).1 =
      ((texts.map TextChild.textRun).foldl
        (SVGTSpanNode.drawChild
          (if n.fFontSelection.isSet = false then n.fFontSelection.font ctx.font
            else n.fFontSelection) ALIGNMENT.LEFT n.fTextVAlignment n.fDominantBaseline)
        (ctx, if n.fDimY.isSet then { n.fTextCursor with y := n.fY } else n.fTextCursor)).1 := by
    unfold SVGTSpanNode.drawChildren
    simp only [hnodes, halign, hx, Bool.false_eq_true, if_false]
  have hdc2 : (SVGTSpanNode.drawChildren ctx n).2.fTextCursor =
      ((texts.map TextChild.textRun).foldl
        (SVGTSpanNode.drawChild
          (if n.fFontSelection.isSet = false then n.fFontSelection.font ctx.font
            else n.fFontSelection) ALIGNMENT.LEFT n.fTextVAlignment n.fDominantBaseline)
        (ctx, if n.fDimY.isSet then { n.fTextCursor with y := n.fY } else n.fTextCursor)).2 := by
    unfold SVGTSpanNode.drawChildren
    simp only [hnodes, halign, hx, Bool.false_eq_true, if_false]
  have hcx : (if n.fDimY.isSet then { n.fTextCursor with y := n.fY }
      else n.fTextCursor).x = n.fTextCursor.x := by
    split_ifs <;> rfl
  have hcy : (if n.fDimY.isSet then { n.fTextCursor with y := n.fY }
      else n.fTextCursor).y = (if n.fDimY.isSet then n.fY else n.fTextCursor.y) := by
    split_ifs <;> rfl
  rw [hcx] at h1 h2
  rw [hcy] at h2
  rw [← hdc1] at h1
  rw [← hdc2] at h2
  have hlen := congrArg List.length h1
  simp only [List.length_map, List.length_append, List.length_zip, runAnchors_length,
    min_self] at hlen
  refine ⟨?_, hlen, ?_, ?_⟩
  · intro i hi
    have hget := congrArg (fun l => l[ctx.texts.length + i]?) h1
    simp only [List.getElem?_map] at hget
    rw [hget, List.getElem?_append_right (by simp)]
    simp only [List.length_map, add_tsub_cancel_left]
    have hz : (texts.zip (runAnchors
        (if n.fFontSelection.isSet = false then ctx.font
          else n.fFontSelection.fFont).textWidth n.fTextCursor.x texts))[i]? =
        some (texts[i], n.fTextCursor.x +
          ((texts.take i).map
            (if n.fFontSelection.isSet = false then ctx.font
              else n.fFontSelection.fFont).textWidth).sum) :=
      List.getElem?_zip_eq_some.mpr ⟨List.getElem?_eq_getElem hi,
        runAnchors_getElem? _ texts _ i hi⟩
    rw [hz, List.getElem?_eq_getElem hi]
    rfl
  · rw [h2]
  · rw [h2]

/-- C26, amended, at a tspan with the cursor (10, 20) and the runs "ab" and "cde" in a
font in which every byte is 6 wide: the runs are drawn at x = 10 and x = 22, and the cursor
ends at (40, 20). -/
theorem drawChildren_advances_cursor_witness :
    (SVGTSpanNode.drawChildren { font := sampleFont, texts := [] }
      { SVGTSpanNode.construct TSpanAttributes.none { fFont := sampleFont, fIsSet := false }
          [TextChild.textRun (cstr "ab"), TextChild.textRun (cstr "cde")] with
        fTextCursor := { x := 10, y := 20 } }).2.fTextCursor.x = 40 ∧
    (SVGTSpanNode.drawChildren { font := sampleFont, texts := [] }
      { SVGTSpanNode.construct TSpanAttributes.none { fFont := sampleFont, fIsSet := false }
          [TextChild.textRun (cstr "ab"), TextChild.textRun (cstr "cde")] with
        fTextCursor := { x := 10, y := 20 } }).2.fTextCursor.y = 20 ∧
    (SVGTSpanNode.drawChildren { font := sampleFont, texts := [] }
      { SVGTSpanNode.construct TSpanAttributes.none { fFont := sampleFont, fIsSet := false }
          [TextChild.textRun (cstr "ab"), TextChild.textRun (cstr "cde")] with
        fTextCursor := { x := 10, y := 20 } }).1.texts =
      [{ text := cstr "ab", x := 10, y := 20 }, { text := cstr "cde", x := 22, y := 20 }] :=
  ⟨((drawChildren_advances_cursor { font := sampleFont, texts := [] }
      { SVGTSpanNode.construct TSpanAttributes.none { fFont := sampleFont, fIsSet := false }
          [TextChild.textRun (cstr "ab"), TextChild.textRun (cstr "cde")] with
        fTextCursor := { x := 10, y := 20 } }
      [cstr "ab", cstr "cde"] rfl rfl rfl).2.2.1).trans (by decide!),
    ((drawChildren_advances_cursor { font := sampleFont, texts := [] }
      { SVGTSpanNode.construct TSpanAttributes.none { fFont := sampleFont, fIsSet := false }
          [TextChild.textRun (cstr "ab"), TextChild.textRun (cstr "cde")] with
        fTextCursor := { x := 10, y := 20 } }
      [cstr "ab", cstr "cde"] rfl rfl rfl).2.2.2).trans (by decide!),
    by decide!⟩

/-! ## Integer parsing without digits -/

/-- The digit loop of `chunk_to_i64` on a span that does not start with a digit: it does
not run. -/
theorem i64Loop_no_digit (mem : Memory) (fuel : Nat) (v : Int) (s : ByteSpan)
    (h : chrDecDigits ((s.bytes mem).headD 0) = false) :
    i64Loop mem fuel v s = (v, s) := by
  cases fuel with
  | zero => rfl
  | succ fuel =>
    rw [i64Loop]
    have hcond : ¬ (s.toBool = true ∧ chrDecDigits (s.peek mem) = true) := by
      rintro ⟨-, h2⟩
      rw [ByteSpan.peek_of_bytes mem s _ rfl, h] at h2
      exact Bool.noConfusion h2
    rw [if_neg hcond]

/-- C31, as stated, fails: on "-abc" and on "-" the function `chunk_to_i64` returns 0 and
leaves the span one byte further, past the '-'; only on "abc" is the span left unchanged. -/
theorem chunk_to_i64_consumes_lone_minus :
    chunk_to_i64 (memOf 4096 (cstr "-abc")) ⟨4096, 4100⟩ = (0, ⟨4097, 4100⟩) ∧
    (chunk_to_i64 (memOf 4096 (cstr "-abc")) ⟨4096, 4100⟩).2.bytes (memOf 4096 (cstr "-abc")) =
      cstr "abc" ∧
    chunk_to_i64 (memOf 4096 (cstr "-")) ⟨4096, 4097⟩ = (0, ⟨4097, 4097⟩) ∧
    chunk_to_i64 (memOf 4096 (cstr "abc")) ⟨4096, 4099⟩ = (0, ⟨4096, 4099⟩) := by
  refine ⟨by decide!, by decide!, by decide!, by decide!⟩

/-- C31, amended: when integer parsing matches no digits, `chunk_to_i64` returns 0. A span
that starts neither with '-' nor with a decimal digit (the empty span included) is left
unchanged; a span that starts with '-' not followed by a decimal digit is left one byte
further, just past the '-'. -/
theorem chunk_to_i64_without_digits (mem : Memory) (s : ByteSpan) :
    (chrDecDigits ((s.bytes mem).headD 0) = false → (s.bytes mem).headD 0 ≠ 45 →
      chunk_to_i64 mem s = (0, s)) ∧
    (∀ r, s.bytes mem = 45 :: r → chrDecDigits (r.headD 0) = false →
      chunk_to_i64 mem s = (0, ⟨s.fStart + 1, s.fEnd⟩) ∧
      ByteSpan.bytes mem ⟨s.fStart + 1, s.fEnd⟩ = r) := by
  constructor
  · intro hdig hminus
    have hpeek : s.peek mem = (s.bytes mem).headD 0 := ByteSpan.peek_of_bytes mem s _ rfl
    have hneg : (s.toBool && s.peek mem == 45) = false := by
      rw [hpeek, beq_false_of_ne hminus, Bool.and_false]
    unfold chunk_to_i64
    simp only [hneg, Bool.false_eq_true, if_false]
    rw [i64Loop_no_digit mem _ 0 s hdig]
  · intro r hb hdig
    obtain ⟨hinc, hrest⟩ := ByteSpan.inc_of_bytes_cons mem s 45 r hb
    obtain ⟨p, q⟩ := s
    obtain ⟨hlt, hd, -⟩ := ByteSpan.bytes_eq_cons mem p q 45 r hb
    have hpeek : ByteSpan.peek mem ⟨p, q⟩ = 45 := by
      rw [ByteSpan.peek_of_lt mem p q hlt, hd]
    have htb : (ByteSpan.mk p q).toBool = true := (ByteSpan.toBool_iff _).mpr hlt
    refine ⟨?_, hrest⟩
    unfold chunk_to_i64
    simp only [htb, hpeek, beq_self_eq_true, Bool.and_self, if_true, hinc]
    rw [i64Loop_no_digit mem _ 0 ⟨p + 1, q⟩ (by rw [hrest]; exact hdig)]
    rfl

/-- C31, amended, at "abc" (unchanged) and at "-abc" (the '-' is consumed). -/
theorem chunk_to_i64_without_digits_witness :
    chunk_to_i64 (memOf 4096 (cstr "abc")) ⟨4096, 4099⟩ = (0, ⟨4096, 4099⟩) ∧
    (chunk_to_i64 (memOf 4096 (cstr "-abc")) ⟨4096, 4100⟩ = (0, ⟨4096 + 1, 4100⟩) ∧
      ByteSpan.bytes (memOf 4096 (cstr "-abc")) ⟨4096 + 1, 4100⟩ = cstr "abc") :=
  ⟨(chunk_to_i64_without_digits (memOf 4096 (cstr "abc")) ⟨4096, 4099⟩).1
      (by decide!) (by decide!),
    (chunk_to_i64_without_digits (memOf 4096 (cstr "-abc")) ⟨4096, 4100⟩).2
      (cstr "abc") (by decide!) (by decide)⟩

/-! ## `chunk_to_u64` on any span -/

theorem u64Step_foldl_mod (digits : List Nat) :
    ∀ v, digits.foldl u64Step (v % SIZE_MOD) = (digits.foldl decimalStep v) % SIZE_MOD := by
  induction digits with
  | nil => intro v; rfl
  | cons d ds ih =>
    intro v
    rw [List.foldl_cons, List.foldl_cons, ← ih (decimalStep v d)]
    congr 1
    unfold u64Step decimalStep
    have hM : SIZE_MOD = 18446744073709551616 := rfl
    rw [hM]
    omega

/-- The loop of `chunk_to_u64` over a run of digits that is followed by a non-digit or by
the end of the span: with fuel for every digit it accumulates the value in `uint64_t`
arithmetic and stops right after the run. -/
theorem u64Loop_run (mem : Memory) (rest : List Nat)
    (hrest : ∀ c, rest.head? = some c → chrDecDigits c = false) (digits : List Nat) :
    ∀ (fuel v p q : Nat), (∀ d, d ∈ digits → chrDecDigits d = true) →
      ByteSpan.bytes mem ⟨p, q⟩ = digits ++ rest → digits.length ≤ fuel →
      u64Loop mem fuel v ⟨p, q⟩ = (digits.foldl u64Step v, ⟨p + digits.length, q⟩) := by
  induction digits with
  | nil =>
    intro fuel v p q _ hb _
    cases fuel with
    | zero => rfl
    | succ fuel =>
      rw [u64Loop]
      have hcond : ¬ ((ByteSpan.mk p q).toBool = true ∧
          chrDecDigits (ByteSpan.peek mem ⟨p, q⟩) = true) := by
        rintro ⟨h1, h2⟩
        rw [ByteSpan.toBool_iff] at h1
        rw [ByteSpan.peek_of_lt mem p q h1] at h2
        rw [ByteSpan.bytes_cons mem p q h1] at hb
        have := hrest (mem p) (by rw [← List.nil_append rest, ← hb]; rfl)
        rw [h2] at this
        exact Bool.noConfusion this
      rw [if_neg hcond]
      rfl
  | cons d ds ih =>
    intro fuel v p q hdig hb hfuel
    obtain ⟨hlt, hd, hb2⟩ := ByteSpan.bytes_eq_cons mem p q d (ds ++ rest) hb
    cases fuel with
    | zero => simp at hfuel
    | succ fuel =>
      rw [u64Loop]
      have hcond : (ByteSpan.mk p q).toBool = true ∧
          chrDecDigits (ByteSpan.peek mem ⟨p, q⟩) = true := by
        refine ⟨(ByteSpan.toBool_iff _).mpr hlt, ?_⟩
        rw [ByteSpan.peek_of_lt mem p q hlt, hd]
        exact hdig d (List.mem_cons_self d ds)
      rw [if_pos hcond, ByteSpan.peek_of_lt mem p q hlt, hd, ByteSpan.inc_of_lt p q hlt]
      rw [ih fuel _ (p + 1) q
        (fun x hx => hdig x (List.mem_cons_of_mem d hx)) hb2 (by simpa using hfuel)]
      rw [List.foldl_cons, List.length_cons]
      have : p + 1 + ds.length = p + (ds.length + 1) := by omega
      rw [this]
      rfl

/-- A run of `n` decimal digits has a value below `10^n`. -/
theorem decimalValue_lt_pow (digits : List Nat)
    (hdig : ∀ d, d ∈ digits → chrDecDigits d = true) :
    ∀ v, digits.foldl decimalStep v < (v + 1) * 10 ^ digits.length := by
  induction digits with
  | nil => intro v; simp
  | cons d ds ih =>
    intro v
    rw [List.foldl_cons, List.length_cons]
    have h1 := ih (fun x hx => hdig x (List.mem_cons_of_mem d hx)) (decimalStep v d)
    have hd := hdig d (List.mem_cons_self d ds)
    simp only [chrDecDigits, decide_eq_true_eq] at hd
    have h2 : decimalStep v d + 1 ≤ (v + 1) * 10 := by
      unfold decimalStep
      omega
    calc ds.foldl decimalStep (decimalStep v d)
        < (decimalStep v d + 1) * 10 ^ ds.length := h1
      _ ≤ ((v + 1) * 10) * 10 ^ ds.length := Nat.mul_le_mul_right _ h2
      _ = (v + 1) * 10 ^ (ds.length + 1) := by ring

theorem List.head?_dropWhile_false (p : Nat → Bool) (l : List Nat) :
    ∀ c, (l.dropWhile p).head? = some c → p c = false := by
  induction l with
  | nil => intro c h; simp at h
  | cons x l ih =>
    intro c h
    by_cases hx : p x = true
    · rw [List.dropWhile_cons_of_pos hx] at h
      exact ih c h
    · rw [List.dropWhile_cons_of_neg hx] at h
      simp only [List.head?_cons, Option.some.injEq] at h
      subst h
      simpa using hx

/-- C33: `chunk_to_u64` returns the value of the maximal leading run of decimal digits of
the span, reduced modulo `2^64` (0 when the run is empty), and leaves the span positioned
exactly after that run: the remainder is what follows the run, and is empty or starts with
a byte that is no digit. For a run of at most 19 digits the value is exact. -/
theorem chunk_to_u64_maximal_run (mem : Memory) (s : ByteSpan) :
    (chunk_to_u64 mem s).1 =
      decimalValue ((s.bytes mem).takeWhile chrDecDigits) % SIZE_MOD ∧
    (chunk_to_u64 mem s).2 =
      ⟨s.fStart + ((s.bytes mem).takeWhile chrDecDigits).length, s.fEnd⟩ ∧
    (chunk_to_u64 mem s).2.bytes mem = (s.bytes mem).dropWhile chrDecDigits ∧
    (∀ c, ((chunk_to_u64 mem s).2.bytes mem).head? = some c → chrDecDigits c = false) ∧
    ((s.bytes mem).takeWhile chrDecDigits = [] → (chunk_to_u64 mem s).1 = 0) ∧
    (((s.bytes mem).takeWhile chrDecDigits).length ≤ 19 →
      (chunk_to_u64 mem s).1 = decimalValue ((s.bytes mem).takeWhile chrDecDigits)) := by
  obtain ⟨p, q⟩ := s
  have hsplit : ByteSpan.bytes mem ⟨p, q⟩ =
      (ByteSpan.bytes mem ⟨p, q⟩).takeWhile chrDecDigits ++
        (ByteSpan.bytes mem ⟨p, q⟩).dropWhile chrDecDigits :=
    (List.takeWhile_append_dropWhile _ _).symm
  have hdig : ∀ d, d ∈ (ByteSpan.bytes mem ⟨p, q⟩).takeWhile chrDecDigits →
      chrDecDigits d = true := fun d hd => List.mem_takeWhile_imp hd
  have hrest := List.head?_dropWhile_false chrDecDigits (ByteSpan.bytes mem ⟨p, q⟩)
  have hle := ByteSpan.prefix_length_le mem p q _ _ hsplit
  have hloop := u64Loop_run mem _ hrest _ (ByteSpan.size ⟨p, q⟩) 0 p q hdig hsplit
    (by rw [ByteSpan.size_eq]; exact hle)
  have hval : (chunk_to_u64 mem ⟨p, q⟩).1 =
      decimalValue ((ByteSpan.bytes mem ⟨p, q⟩).takeWhile chrDecDigits) % SIZE_MOD := by
    unfold chunk_to_u64
    rw [hloop]
    exact u64Step_foldl_mod _ 0
  have hspan : (chunk_to_u64 mem ⟨p, q⟩).2 =
      ⟨p + ((ByteSpan.bytes mem ⟨p, q⟩).takeWhile chrDecDigits).length, q⟩ := by
    unfold chunk_to_u64
    rw [hloop]
  have hbytes := ByteSpan.bytes_after_prefix mem p q _ _ hsplit
  refine ⟨hval, hspan, ?_, ?_, ?_, ?_⟩
  · rw [hspan]
    exact hbytes
  · rw [hspan, hbytes]
    exact hrest
  · intro hnil
    rw [hval, hnil]
    rfl
  · intro hlen
    rw [hval]
    apply Nat.mod_eq_of_lt
    have h1 := decimalValue_lt_pow _ hdig 0
    have h2 : 10 ^ ((ByteSpan.bytes mem ⟨p, q⟩).takeWhile chrDecDigits).length ≤ 10 ^ 19 :=
      Nat.pow_le_pow_right (by decide) hlen
    have hM : SIZE_MOD = 18446744073709551616 := rfl
    unfold decimalValue
    rw [hM]
    simp only [zero_add, one_mul] at h1
    have h3 : (10 : Nat) ^ 19 < 18446744073709551616 := by norm_num
    omega

/-- C33 at "123abc": the value is 123 and the span is left on "abc"; and at the 20 digits
"18446744073709551617", whose value is `2^64 + 1`: the result is 1. -/
theorem chunk_to_u64_maximal_run_witness :
    ((ByteSpan.bytes (memOf 4096 (cstr "123abc")) ⟨4096, 4102⟩).takeWhile chrDecDigits).length
      ≤ 19 ∧
    (chunk_to_u64 (memOf 4096 (cstr "123abc")) ⟨4096, 4102⟩).1 =
      decimalValue ((ByteSpan.bytes (memOf 4096 (cstr "123abc")) ⟨4096, 4102⟩).takeWhile
        chrDecDigits) ∧
    chunk_to_u64 (memOf 4096 (cstr "123abc")) ⟨4096, 4102⟩ = (123, ⟨4099, 4102⟩) ∧
    (chunk_to_u64 (memOf 4096 (cstr "18446744073709551617")) ⟨4096, 4116⟩).1 = 1 :=
  ⟨by decide!,
    (chunk_to_u64_maximal_run (memOf 4096 (cstr "123abc")) ⟨4096, 4102⟩).2.2.2.2.2
      (by decide!),
    by decide!, by decide!⟩

/-! ## Tokenising terminates -/

/-- One call of `chunk_token` on a non-empty span leaves a span of smaller size. -/
theorem chunk_token_size_lt (mem : Memory) (a : ByteSpan) (delims : Nat → Bool)
    (hne : a.toBool = true) : (chunk_token mem a delims).2.size < a.size := by
  obtain ⟨p, q⟩ := a
  have hlt : p < q := (ByteSpan.toBool_iff _).mp hne
  obtain ⟨h1, h2, -, h4⟩ :=
    tokenEndLoop_spec mem delims q (ByteSpan.size ⟨p, q⟩) p (by omega)
      (by rw [ByteSpan.size_eq])
  unfold chunk_token
  simp only [hne, Bool.true_eq_false, if_false]
  generalize tokenEndLoop mem delims q (ByteSpan.size ⟨p, q⟩) p = r at *
  split_ifs with hd
  · simp only [ByteSpan.size_eq]
    omega
  · have hr : r = q := by
      by_contra hne2
      exact hd (h4 (by omega))
    simp only [ByteSpan.size_eq]
    omega

theorem tokenizeLoop_stops (mem : Memory) (delims : Nat → Bool) (fuel : Nat) :
    ∀ a : ByteSpan, a.size ≤ fuel →
      ∃ k final, tokenizeLoop mem delims fuel a = some (k, final) ∧ k ≤ a.size ∧
        final.toBool = false := by
  induction fuel with
  | zero =>
    intro a ha
    have htb : a.toBool = false := by
      rw [ByteSpan.toBool_false_iff]
      rw [ByteSpan.size_eq] at ha
      omega
    exact ⟨0, a, by simp [tokenizeLoop, htb], Nat.zero_le _, htb⟩
  | succ fuel ih =>
    intro a ha
    by_cases htb : a.toBool = true
    · have hlt := chunk_token_size_lt mem a delims htb
      obtain ⟨k, final, hk, hkle, hfin⟩ := ih (chunk_token mem a delims).2 (by omega)
      refine ⟨k + 1, final, ?_, by omega, hfin⟩
      rw [tokenizeLoop, if_pos htb, hk]
    · refine ⟨0, a, ?_, Nat.zero_le _, by simpa using htb⟩
      rw [tokenizeLoop, if_neg htb]

/-- C34: tokenizing terminates. One call of `chunk_token` or of `chunk_token_char` on a
non-empty span `a` leaves `a` with a strictly smaller size, and the loop `while (a)
chunk_token(a, delims);` stops after at most `size(a)` calls, with `a` empty. -/
theorem tokenizing_terminates (mem : Memory) (a : ByteSpan) (delims : Nat → Bool)
    (delim : Int) :
    (a.toBool = true → (chunk_token mem a delims).2.size < a.size) ∧
    (a.toBool = true → (chunk_token_char mem a delim).2.size < a.size) ∧
    (∃ k final, tokenizeLoop mem delims a.size a = some (k, final) ∧ k ≤ a.size ∧
      final.toBool = false ∧ final.size = 0) := by
  refine ⟨fun h => chunk_token_size_lt mem a delims h,
    fun h => chunk_token_size_lt mem a (isDelimChar delim) h, ?_⟩
  obtain ⟨k, final, h1, h2, h3⟩ := tokenizeLoop_stops mem delims a.size a (le_refl _)
  refine ⟨k, final, h1, h2, h3, ?_⟩
  rw [ByteSpan.toBool_false_iff] at h3
  rw [ByteSpan.size_eq]
  omega

/-- C34 at "ab,cd,e" with the delimiter ',': three calls empty the span; and at the span
"ab" of the buffer "ab,cd", where the byte after the span is a ',': one call. -/
theorem tokenizing_terminates_witness :
    (ByteSpan.mk 4096 4103).toBool = true ∧
    (chunk_token (memOf 4096 (cstr "ab,cd,e")) ⟨4096, 4103⟩ (fun c => c == 44)).2.size <
      (ByteSpan.mk 4096 4103).size ∧
    tokenizeLoop (memOf 4096 (cstr "ab,cd,e")) (fun c => c == 44) 7 ⟨4096, 4103⟩ =
      some (3, ⟨4103, 4103⟩) ∧
    tokenizeLoop (memOf 4096 (cstr "ab,cd")) (fun c => c == 44) 2 ⟨4096, 4098⟩ =
      some (1, ⟨4099, 4098⟩) :=
  ⟨by decide,
    (tokenizing_terminates (memOf 4096 (cstr "ab,cd,e")) ⟨4096, 4103⟩ (fun c => c == 44) 44).1
      (by decide),
    by decide!, by decide!⟩

/-! ## Trimming on the bytes -/

theorem ByteSpan.bytes_snoc (mem : Memory) (p q : Nat) (h : p < q) :
    ByteSpan.bytes mem ⟨p, q⟩ = ByteSpan.bytes mem ⟨p, q - 1⟩ ++ [mem (q - 1)] := by
  rw [ByteSpan.bytes_split mem p (q - 1) q (by omega) (by omega)]
  have h1 : q - 1 < q := by omega
  rw [ByteSpan.bytes_cons mem (q - 1) q h1]
  have h2 : ByteSpan.bytes mem ⟨q - 1 + 1, q⟩ = [] :=
    ByteSpan.bytes_eq_nil mem _ (by rw [ByteSpan.size_eq]; simp only; omega)
  rw [h2]

/-- The right-trim loop with enough fuel drops exactly the trailing bytes of the set. -/
theorem rtrimLoop_bytes (mem : Memory) (S : Nat → Bool) (p fuel q : Nat)
    (hpq : p ≤ q) (hf : q - p ≤ fuel) :
    ByteSpan.bytes mem ⟨p, rtrimLoop mem S p fuel q⟩ =
      (ByteSpan.bytes mem ⟨p, q⟩).rdropWhile S := by
  induction fuel generalizing q with
  | zero =>
    have hz : ByteSpan.bytes mem ⟨p, q⟩ = [] :=
      ByteSpan.bytes_eq_nil mem _ (by rw [ByteSpan.size_eq]; simp only; omega)
    simp only [rtrimLoop, hz, List.rdropWhile_nil]
  | succ fuel ih =>
    rw [rtrimLoop]
    split_ifs with h
    · rw [ih (q - 1) (by omega) (by omega), ByteSpan.bytes_snoc mem p q h.1,
        List.rdropWhile_concat_pos _ _ _ h.2]
    · by_cases hlt : p < q
      · have hS : ¬ S (mem (q - 1)) = true := fun hs => h ⟨hlt, hs⟩
        rw [ByteSpan.bytes_snoc mem p q hlt, List.rdropWhile_concat_neg _ _ _ hS]
      · have hz : ByteSpan.bytes mem ⟨p, q⟩ = [] :=
          ByteSpan.bytes_eq_nil mem _ (by rw [ByteSpan.size_eq]; simp only; omega)
        rw [hz, List.rdropWhile_nil]

/-- The function `chunk_rtrim` drops the trailing bytes of the set from the content. -/
theorem chunk_rtrim_bytes (mem : Memory) (a : ByteSpan) (S : Nat → Bool) :
    (chunk_rtrim mem a S).bytes mem = (a.bytes mem).rdropWhile S := by
  obtain ⟨p, q⟩ := a
  by_cases hpq : p ≤ q
  · exact rtrimLoop_bytes mem S p _ q hpq (by rw [ByteSpan.size_eq])
  · have hsz : (ByteSpan.mk p q).size = 0 := by rw [ByteSpan.size_eq]; simp only; omega
    have hz : ByteSpan.bytes mem ⟨p, q⟩ = [] := ByteSpan.bytes_eq_nil mem _ hsz
    unfold chunk_rtrim
    rw [hsz, hz]
    simp only [rtrimLoop, List.rdropWhile_nil]
    exact hz

/-- The function `chunk_trim` drops the leading and then the trailing bytes of the set. -/
theorem chunk_trim_bytes (mem : Memory) (a : ByteSpan) (S : Nat → Bool) :
    (chunk_trim mem a S).bytes mem = ((a.bytes mem).dropWhile S).rdropWhile S := by
  obtain ⟨p, q⟩ := a
  by_cases hpq : p ≤ q
  · obtain ⟨h1, h2⟩ := ltrimLoop_bounds mem S q (ByteSpan.size ⟨p, q⟩) p hpq
    have hl := ltrimLoop_bytes mem S q (ByteSpan.size ⟨p, q⟩) p hpq (by rw [ByteSpan.size_eq])
    unfold chunk_trim
    simp only
    rw [rtrimLoop_bytes mem S _ (ByteSpan.size ⟨p, q⟩) q h2
      (by have := ByteSpan.size_eq ⟨p, q⟩; simp only at this; omega), hl]
  · have hsz : (ByteSpan.mk p q).size = 0 := by rw [ByteSpan.size_eq]; simp only; omega
    have hz : ByteSpan.bytes mem ⟨p, q⟩ = [] := ByteSpan.bytes_eq_nil mem _ hsz
    unfold chunk_trim
    rw [hsz, hz]
    simp only [rtrimLoop, ltrimLoop, List.dropWhile_nil, List.rdropWhile_nil]
    exact hz

/-! ## Facts about lists -/

theorem List.rdropWhile_prefix_split (p : Nat → Bool) (l : List Nat) :
    ∃ suf, l = l.rdropWhile p ++ suf ∧ ∀ c, c ∈ suf → p c = true := by
  induction l using List.reverseRecOn with
  | nil => exact ⟨[], by simp, by simp⟩
  | append_singleton l x ih =>
    by_cases hx : p x = true
    · obtain ⟨suf, h1, h2⟩ := ih
      refine ⟨suf ++ [x], ?_, ?_⟩
      · rw [List.rdropWhile_concat_pos _ _ _ hx, ← List.append_assoc, ← h1]
      · intro c hc
        rcases List.mem_append.mp hc with h | h
        · exact h2 c h
        · rw [List.mem_singleton.mp h]
          exact hx
    · exact ⟨[], by rw [List.rdropWhile_concat_neg _ _ _ hx, List.append_nil], by simp⟩

theorem List.getLast?_rdropWhile_false (p : Nat → Bool) (l : List Nat) :
    ∀ c, (l.rdropWhile p).getLast? = some c → p c = false := by
  induction l using List.reverseRecOn with
  | nil => intro c h; simp at h
  | append_singleton l x ih =>
    intro c h
    by_cases hx : p x = true
    · rw [List.rdropWhile_concat_pos _ _ _ hx] at h
      exact ih c h
    · rw [List.rdropWhile_concat_neg _ _ _ hx] at h
      rw [List.getLast?_concat, Option.some.injEq] at h
      subst h
      simpa using hx

theorem List.dropWhile_eq_self_of_head (p : Nat → Bool) (l : List Nat)
    (h : ∀ c, l.head? = some c → p c = false) : l.dropWhile p = l := by
  cases l with
  | nil => rfl
  | cons x l =>
    have hx := h x rfl
    rw [List.dropWhile_cons_of_neg (by simp [hx])]

theorem List.rdropWhile_eq_self_of_last (p : Nat → Bool) (l : List Nat)
    (h : ∀ c, l.getLast? = some c → p c = false) : l.rdropWhile p = l := by
  induction l using List.reverseRecOn with
  | nil => rfl
  | append_singleton l x _ =>
    have hx := h x (by simp)
    rw [List.rdropWhile_concat_neg _ _ _ (by simp [hx])]

theorem List.rdropWhile_append_of_all (p : Nat → Bool) (l suf : List Nat)
    (h : ∀ c, c ∈ suf → p c = true) : (l ++ suf).rdropWhile p = l.rdropWhile p := by
  induction suf using List.reverseRecOn with
  | nil => rw [List.append_nil]
  | append_singleton suf x ih =>
    rw [← List.append_assoc, List.rdropWhile_concat_pos _ _ _
      (h x (List.mem_append_right _ (List.mem_singleton_self x)))]
    exact ih (fun c hc => h c (List.mem_append_left _ hc))

/-- The head of a list survives a right trim that leaves something. -/
theorem List.head?_rdropWhile (p : Nat → Bool) (l : List Nat)
    (hne : l.rdropWhile p ≠ []) : (l.rdropWhile p).head? = l.head? := by
  obtain ⟨suf, h1, -⟩ := List.rdropWhile_prefix_split p l
  cases hr : l.rdropWhile p with
  | nil => exact absurd hr hne
  | cons x r =>
    rw [hr] at h1
    rw [h1]
    rfl

/-- The last element of a list survives a left trim that leaves something. -/
theorem List.getLast?_dropWhile (p : Nat → Bool) (l : List Nat)
    (hne : l.dropWhile p ≠ []) : (l.dropWhile p).getLast? = l.getLast? := by
  have h1 := List.takeWhile_append_dropWhile p l
  conv_rhs => rw [← h1]
  rw [List.getLast?_append_of_ne_nil _ hne]

/-- Left trim and right trim commute. -/
theorem List.dropWhile_rdropWhile_comm (p : Nat → Bool) (l : List Nat) :
    (l.rdropWhile p).dropWhile p = (l.dropWhile p).rdropWhile p := by
  by_cases hne : (l.dropWhile p).rdropWhile p = []
  · rw [hne]
    by_cases hd : l.dropWhile p = []
    · have hall : ∀ c, c ∈ l → p c = true := by
        intro c hc
        have h1 := List.takeWhile_append_dropWhile p l
        rw [hd, List.append_nil] at h1
        rw [← h1] at hc
        exact List.mem_takeWhile_imp hc
      obtain ⟨suf, h1, -⟩ := List.rdropWhile_prefix_split p l
      apply List.dropWhile_eq_nil_iff.mpr
      intro c hc
      exact hall c (by rw [h1]; exact List.mem_append_left _ hc)
    · exfalso
      obtain ⟨x, r, hxr⟩ := List.exists_cons_of_ne_nil hd
      have hx := List.head?_dropWhile_false p l x (by rw [hxr]; rfl)
      have hnil := List.rdropWhile_eq_nil_iff.mp hne x (by rw [hxr]; exact List.mem_cons_self _ _)
      rw [hx] at hnil
      exact Bool.noConfusion hnil
  · have hd : l.dropWhile p ≠ [] := by
      intro h0
      rw [h0, List.rdropWhile_nil] at hne
      exact hne rfl
    have h1 := List.takeWhile_append_dropWhile p l
    obtain ⟨suf, h2, h3⟩ := List.rdropWhile_prefix_split p (l.dropWhile p)
    have hlast := List.getLast?_rdropWhile_false p (l.dropWhile p)
    have hhead : ∀ c, ((l.dropWhile p).rdropWhile p).head? = some c → p c = false := by
      intro c hc
      rw [List.head?_rdropWhile p _ hne] at hc
      exact List.head?_dropWhile_false p l c hc
    have hl : l = (l.takeWhile p ++ (l.dropWhile p).rdropWhile p) ++ suf := by
      rw [List.append_assoc, ← h2, h1]
    have hr : l.rdropWhile p = l.takeWhile p ++ (l.dropWhile p).rdropWhile p := by
      conv_lhs => rw [hl]
      rw [List.rdropWhile_append_of_all p _ suf h3, List.rdropWhile_eq_self_of_last]
      intro c hc
      rw [List.getLast?_append_of_ne_nil _ hne] at hc
      exact hlast c hc
    rw [hr, List.dropWhile_append_of_pos (fun c hc => List.mem_takeWhile_imp hc),
      List.dropWhile_eq_self_of_head p _ hhead]

/-- A trimmed list is empty or begins with an element outside the set. -/
theorem List.head?_trim_false (p : Nat → Bool) (l : List Nat) :
    ∀ c, ((l.dropWhile p).rdropWhile p).head? = some c → p c = false := by
  intro c hc
  by_cases hne : (l.dropWhile p).rdropWhile p = []
  · rw [hne] at hc
    exact Option.noConfusion hc
  · rw [List.head?_rdropWhile p _ hne] at hc
    exact List.head?_dropWhile_false p l c hc

/-- C35: `chunk_trim(a, S)` is the contiguous sub-span of `a` left when the longest prefix
and then the longest suffix of bytes in `S` are removed. The content of `a` is a prefix of
bytes in `S`, the content of the result, and a suffix of bytes in `S`; the result is empty
or begins and ends with a byte that is not in `S`; on a well-formed span it starts after
the prefix and ends before the suffix. `chunk_ltrim` removes the prefix only and keeps
`fEnd`, `chunk_rtrim` removes the suffix only and keeps `fStart`. -/
theorem chunk_trim_removes_longest_affixes (mem : Memory) (a : ByteSpan) (S : Nat → Bool) :
    (∃ pre suf, a.bytes mem = pre ++ (chunk_trim mem a S).bytes mem ++ suf ∧
      (∀ c, c ∈ pre → S c = true) ∧ (∀ c, c ∈ suf → S c = true) ∧
      (a.fStart ≤ a.fEnd →
        chunk_trim mem a S = ⟨a.fStart + pre.length, a.fEnd - suf.length⟩ ∧
        a.fStart + pre.length ≤ a.fEnd - suf.length)) ∧
    (∀ c, ((chunk_trim mem a S).bytes mem).head? = some c → S c = false) ∧
    (∀ c, ((chunk_trim mem a S).bytes mem).getLast? = some c → S c = false) ∧
    (∃ pre, a.bytes mem = pre ++ (chunk_ltrim mem a S).bytes mem ∧
      (∀ c, c ∈ pre → S c = true) ∧
      (a.fStart ≤ a.fEnd → chunk_ltrim mem a S = ⟨a.fStart + pre.length, a.fEnd⟩)) ∧
    (∀ c, ((chunk_ltrim mem a S).bytes mem).head? = some c → S c = false) ∧
    (∃ suf, a.bytes mem = (chunk_rtrim mem a S).bytes mem ++ suf ∧
      (∀ c, c ∈ suf → S c = true) ∧
      (a.fStart ≤ a.fEnd → chunk_rtrim mem a S = ⟨a.fStart, a.fEnd - suf.length⟩)) ∧
    (∀ c, ((chunk_rtrim mem a S).bytes mem).getLast? = some c → S c = false) := by
  have hT := chunk_trim_bytes mem a S
  have hL := chunk_ltrim_bytes mem a S
  have hR := chunk_rtrim_bytes mem a S
  have hsplit := List.takeWhile_append_dropWhile S (a.bytes mem)
  have hpre : ∀ c, c ∈ (a.bytes mem).takeWhile S → S c = true :=
    fun c hc => List.mem_takeWhile_imp hc
  have hlen := ByteSpan.bytes_length mem a
  refine ⟨?_, ?_, ?_, ?_, ?_, ?_, ?_⟩
  · obtain ⟨suf, h1, h2⟩ := List.rdropWhile_prefix_split S ((a.bytes mem).dropWhile S)
    refine ⟨(a.bytes mem).takeWhile S, suf, ?_, hpre, h2, ?_⟩
    · rw [hT, List.append_assoc, ← h1, hsplit]
    · intro hwf
      obtain ⟨w1, w2, w3⟩ := chunk_trim_within mem a S hwf
      have hTlen := congrArg List.length hT
      rw [ByteSpan.bytes_length, ByteSpan.size_eq] at hTlen
      have hlen1 := congrArg List.length h1
      have hlen2 := congrArg List.length hsplit
      rw [List.length_append] at hlen1 hlen2
      rw [hlen, ByteSpan.size_eq] at hlen2
      have hLl := congrArg List.length hL
      rw [ByteSpan.bytes_length, ByteSpan.size_eq] at hLl
      have hLb := ltrimLoop_bounds mem S a.fEnd a.size a.fStart hwf
      have hstart : (chunk_trim mem a S).fStart = (chunk_ltrim mem a S).fStart := rfl
      have hLs : (chunk_ltrim mem a S).fStart = ltrimLoop mem S a.fEnd a.size a.fStart := rfl
      have hLe : (chunk_ltrim mem a S).fEnd = a.fEnd := rfl
      generalize chunk_trim mem a S = t at *
      generalize chunk_ltrim mem a S = u at *
      obtain ⟨ts, te⟩ := t
      obtain ⟨us, ue⟩ := u
      simp only at hstart hLs hLe hTlen hLl w1 w2 w3
      simp only [ByteSpan.mk.injEq]
      omega
  · intro c hc
    rw [hT] at hc
    exact List.head?_trim_false S _ c hc
  · intro c hc
    rw [hT] at hc
    exact List.getLast?_rdropWhile_false S _ c hc
  · refine ⟨(a.bytes mem).takeWhile S, by rw [hL, hsplit], hpre, ?_⟩
    intro hwf
    have hlen2 := congrArg List.length hsplit
    rw [List.length_append, hlen, ByteSpan.size_eq] at hlen2
    have hLl := congrArg List.length hL
    rw [ByteSpan.bytes_length, ByteSpan.size_eq] at hLl
    obtain ⟨w1, w2, w3⟩ := chunk_ltrim_within mem a S hwf
    have hLe : (chunk_ltrim mem a S).fEnd = a.fEnd := rfl
    generalize chunk_ltrim mem a S = u at *
    obtain ⟨us, ue⟩ := u
    simp only at hLe hLl w1 w2 w3
    simp only [ByteSpan.mk.injEq]
    omega
  · intro c hc
    rw [hL] at hc
    exact List.head?_dropWhile_false S _ c hc
  · obtain ⟨suf, h1, h2⟩ := List.rdropWhile_prefix_split S (a.bytes mem)
    refine ⟨suf, by rw [hR, ← h1], h2, ?_⟩
    intro hwf
    have hlen2 := congrArg List.length h1
    rw [List.length_append, hlen, ByteSpan.size_eq] at hlen2
    have hRl := congrArg List.length hR
    rw [ByteSpan.bytes_length, ByteSpan.size_eq] at hRl
    obtain ⟨w1, w2, w3⟩ := chunk_rtrim_within mem a S hwf
    have hRs : (chunk_rtrim mem a S).fStart = a.fStart := rfl
    generalize chunk_rtrim mem a S = u at *
    obtain ⟨us, ue⟩ := u
    simp only at hRs hRl w1 w2 w3
    simp only [ByteSpan.mk.injEq]
    omega
  · intro c hc
    rw [hR] at hc
    exact List.getLast?_rdropWhile_false S _ c hc

/-- C35 at the span "  ab c " with the whitespace set: the result is "ab c". -/
theorem chunk_trim_removes_longest_affixes_witness :
    (ByteSpan.mk 4096 4103).fStart ≤ (ByteSpan.mk 4096 4103).fEnd ∧
    (∀ c, ((chunk_trim (memOf 4096 (cstr "  ab c ")) ⟨4096, 4103⟩ sampleWsp).bytes
        (memOf 4096 (cstr "  ab c "))).head? = some c → sampleWsp c = false) ∧
    chunk_trim (memOf 4096 (cstr "  ab c ")) ⟨4096, 4103⟩ sampleWsp = ⟨4098, 4102⟩ ∧
    (chunk_trim (memOf 4096 (cstr "  ab c ")) ⟨4096, 4103⟩ sampleWsp).bytes
      (memOf 4096 (cstr "  ab c ")) = cstr "ab c" ∧
    chunk_ltrim (memOf 4096 (cstr "  ab c ")) ⟨4096, 4103⟩ sampleWsp = ⟨4098, 4103⟩ ∧
    chunk_rtrim (memOf 4096 (cstr "  ab c ")) ⟨4096, 4103⟩ sampleWsp = ⟨4096, 4102⟩ :=
  ⟨by decide,
    (chunk_trim_removes_longest_affixes (memOf 4096 (cstr "  ab c ")) ⟨4096, 4103⟩
      sampleWsp).2.1,
    by decide!, by decide!, by decide!, by decide!⟩

/-- C36: trimming is idempotent, and two-sided trimming is the composition of the
one-sided trims in either order, where `==` is `operator==` of `ByteSpan` (equal size and
equal bytes): `chunk_trim(chunk_trim(a, S), S) == chunk_trim(a, S)` and `chunk_trim(a, S) ==
chunk_ltrim(chunk_rtrim(a, S), S) == chunk_rtrim(chunk_ltrim(a, S), S)`. The one-sided
trims are idempotent too. -/
theorem chunk_trim_idempotent_and_composed (mem : Memory) (a : ByteSpan) (S : Nat → Bool) :
    ByteSpan.eq mem (chunk_trim mem (chunk_trim mem a S) S) (chunk_trim mem a S) = true ∧
    ByteSpan.eq mem (chunk_trim mem a S) (chunk_ltrim mem (chunk_rtrim mem a S) S) = true ∧
    ByteSpan.eq mem (chunk_ltrim mem (chunk_rtrim mem a S) S)
      (chunk_rtrim mem (chunk_ltrim mem a S) S) = true ∧
    ByteSpan.eq mem (chunk_trim mem a S) (chunk_rtrim mem (chunk_ltrim mem a S) S) = true ∧
    ByteSpan.eq mem (chunk_ltrim mem (chunk_ltrim mem a S) S) (chunk_ltrim mem a S) = true ∧
    ByteSpan.eq mem (chunk_rtrim mem (chunk_rtrim mem a S) S) (chunk_rtrim mem a S) = true := by
  have hT := chunk_trim_bytes mem a S
  have hhead := List.head?_trim_false S (a.bytes mem)
  have hlast := List.getLast?_rdropWhile_false S ((a.bytes mem).dropWhile S)
  have hLR : (chunk_ltrim mem (chunk_rtrim mem a S) S).bytes mem =
      ((a.bytes mem).dropWhile S).rdropWhile S := by
    rw [chunk_ltrim_bytes, chunk_rtrim_bytes, List.dropWhile_rdropWhile_comm]
  have hRL : (chunk_rtrim mem (chunk_ltrim mem a S) S).bytes mem =
      ((a.bytes mem).dropWhile S).rdropWhile S := by
    rw [chunk_rtrim_bytes, chunk_ltrim_bytes]
  simp only [ByteSpan.eq_iff_bytes]
  refine ⟨?_, ?_, ?_, ?_, ?_, ?_⟩
  · rw [chunk_trim_bytes, hT, List.dropWhile_eq_self_of_head S _ hhead,
      List.rdropWhile_eq_self_of_last S _ hlast]
  · rw [hT, hLR]
  · rw [hLR, hRL]
  · rw [hT, hRL]
  · rw [chunk_ltrim_bytes, chunk_ltrim_bytes,
      List.dropWhile_eq_self_of_head S _ (List.head?_dropWhile_false S _)]
  · rw [chunk_rtrim_bytes, chunk_rtrim_bytes,
      List.rdropWhile_eq_self_of_last S _ (List.getLast?_rdropWhile_false S _)]

/-! ## Object-space defaults -/

/-- C38: with none of x1, y1, x2, y2 given, a linear gradient in object space on the
bounding box (x, y, w, h) gets the horizontal vector from (x, y) to (x + w, y). -/
theorem object_space_linear_defaults (env : BindEnv) (g : SVGGradient)
    (hunits : g.readCommonAttributes.fGradientUnits = SpaceUnitsKind.SVG_SPACE_OBJECT)
    (hx1 : g.attrs.x1.isSet = false) (hy1 : g.attrs.y1.isSet = false)
    (hx2 : g.attrs.x2.isSet = false) (hy2 : g.attrs.y2.isSet = false) :
    (SVGLinearGradient.bindSelfLocal env g).fGradient.values.x0 = env.objectFrame.x ∧
    (SVGLinearGradient.bindSelfLocal env g).fGradient.values.y0 = env.objectFrame.y ∧
    (SVGLinearGradient.bindSelfLocal env g).fGradient.values.x1 =
      env.objectFrame.x + env.objectFrame.w ∧
    (SVGLinearGradient.bindSelfLocal env g).fGradient.values.y1 = env.objectFrame.y := by
  obtain ⟨h1, h2, h3, h4⟩ := SVGLinearGradient.bindSelfLocal_object_values env g hunits
  rw [h1, h2, h3, h4]
  simp [objectCoordinate, hx1, hy1, hx2, hy2]

/-- C38 at the gradient element without attributes on the box (10, 20, 200, 100): the
vector runs from (10, 20) to (210, 20). -/
theorem object_space_linear_defaults_witness :
    (SVGLinearGradient.bindSelfLocal
        (sampleViewEnv { x := 10, y := 20, w := 200, h := 100 }
          { x := 0, y := 0, w := 800, h := 600 })
        (SVGGradient.construct GradientKind.linearGradient
          GradientAttributes.none)).fGradient.values.x1 = 10 + 200 ∧
    (SVGLinearGradient.bindSelfLocal
        (sampleViewEnv { x := 10, y := 20, w := 200, h := 100 }
          { x := 0, y := 0, w := 800, h := 600 })
        (SVGGradient.construct GradientKind.linearGradient
          GradientAttributes.none)).fGradient.values =
      { x0 := 10, y0 := 20, x1 := 210, y1 := 20, r0 := 0 } :=
  ⟨(object_space_linear_defaults
      (sampleViewEnv { x := 10, y := 20, w := 200, h := 100 }
        { x := 0, y := 0, w := 800, h := 600 })
      (SVGGradient.construct GradientKind.linearGradient GradientAttributes.none)
      (by decide) (by decide) (by decide) (by decide) (by decide)).2.2.1,
    by decide!⟩

/-! ## `parseDominantBaseline` -/

/-- A recognised keyword determines the value, whatever the output argument held. -/
theorem dominantBaselineChain_value_independent (inChunk k0 k1 k2 k3 k4 k5 k6 k7 k8 k9 k10 k11 k12 k13 : List Nat)
    (v1 v2 : DOMINANTBASELINE)
    (h : (dominantBaselineChain inChunk k0 k1 k2 k3 k4 k5 k6 k7 k8 k9 k10 k11 k12 k13 v1).1 = true) :
    dominantBaselineChain inChunk k0 k1 k2 k3 k4 k5 k6 k7 k8 k9 k10 k11 k12 k13 v1 = dominantBaselineChain inChunk k0 k1 k2 k3 k4 k5 k6 k7 k8 k9 k10 k11 k12 k13 v2 := by
  unfold dominantBaselineChain at h ⊢
  by_cases c0 : inChunk = k0
  · simp only [if_pos c0]
  · simp only [if_neg c0] at h ⊢
    by_cases c1 : inChunk = k1
    · simp only [if_pos c1]
    · simp only [if_neg c1] at h ⊢
      by_cases c2 : inChunk = k2
      · simp only [if_pos c2]
      · simp only [if_neg c2] at h ⊢
        by_cases c3 : inChunk = k3
        · simp only [if_pos c3]
        · simp only [if_neg c3] at h ⊢
          by_cases c4 : inChunk = k4
          · simp only [if_pos c4]
          · simp only [if_neg c4] at h ⊢
            by_cases c5 : inChunk = k5
            · simp only [if_pos c5]
            · simp only [if_neg c5] at h ⊢
              by_cases c6 : inChunk = k6
              · simp only [if_pos c6]
              · simp only [if_neg c6] at h ⊢
                by_cases c7 : inChunk = k7
                · simp only [if_pos c7]
                · simp only [if_neg c7] at h ⊢
                  by_cases c8 : inChunk = k8
                  · simp only [if_pos c8]
                  · simp only [if_neg c8] at h ⊢
                    by_cases c9 : inChunk = k9
                    · simp only [if_pos c9]
                    · simp only [if_neg c9] at h ⊢
                      by_cases c10 : inChunk = k10
                      · simp only [if_pos c10]
                      · simp only [if_neg c10] at h ⊢
                        by_cases c11 : inChunk = k11
                        · simp only [if_pos c11]
                        · simp only [if_neg c11] at h ⊢
                          by_cases c12 : inChunk = k12
                          · simp only [if_pos c12]
                          · simp only [if_neg c12] at h ⊢
                            by_cases c13 : inChunk = k13
                            · simp only [if_pos c13]
                            · simp only [if_neg c13] at h ⊢
                              exact absurd h (by decide)

theorem dominantBaselineChain_true_iff (inChunk k0 k1 k2 k3 k4 k5 k6 k7 k8 k9 k10 k11 k12 k13 : List Nat)
    (value : DOMINANTBASELINE) :
    (dominantBaselineChain inChunk k0 k1 k2 k3 k4 k5 k6 k7 k8 k9 k10 k11 k12 k13 value).1 = true ↔
      (inChunk = k0 ∨ inChunk = k1 ∨ inChunk = k2 ∨ inChunk = k3 ∨ inChunk = k4 ∨ inChunk = k5 ∨ inChunk = k6 ∨ inChunk = k7 ∨ inChunk = k8 ∨ inChunk = k9 ∨ inChunk = k10 ∨ inChunk = k11 ∨ inChunk = k12 ∨ inChunk = k13) := by
  unfold dominantBaselineChain
  by_cases c0 : inChunk = k0
  · simp only [if_pos c0]
    exact ⟨fun _ => Or.inl c0, fun _ => by trivial⟩
  · simp only [if_neg c0]
    by_cases c1 : inChunk = k1
    · simp only [if_pos c1]
      exact ⟨fun _ => Or.inr (Or.inl c1), fun _ => by trivial⟩
    · simp only [if_neg c1]
      by_cases c2 : inChunk = k2
      · simp only [if_pos c2]
        exact ⟨fun _ => Or.inr (Or.inr (Or.inl c2)), fun _ => by trivial⟩
      · simp only [if_neg c2]
        by_cases c3 : inChunk = k3
        · simp only [if_pos c3]
          exact ⟨fun _ => Or.inr (Or.inr (Or.inr (Or.inl c3))), fun _ => by trivial⟩
        · simp only [if_neg c3]
          by_cases c4 : inChunk = k4
          · simp only [if_pos c4]
            exact ⟨fun _ => Or.inr (Or.inr (Or.inr (Or.inr (Or.inl c4)))), fun _ => by trivial⟩
          · simp only [if_neg c4]
            by_cases c5 : inChunk = k5
            · simp only [if_pos c5]
              exact ⟨fun _ => Or.inr (Or.inr (Or.inr (Or.inr (Or.inr (Or.inl c5))))), fun _ => by trivial⟩
            · simp only [if_neg c5]
              by_cases c6 : inChunk = k6
              · simp only [if_pos c6]
                exact ⟨fun _ => Or.inr (Or.inr (Or.inr (Or.inr (Or.inr (Or.inr (Or.inl c6)))))), fun _ => by trivial⟩
              · simp only [if_neg c6]
                by_cases c7 : inChunk = k7
                · simp only [if_pos c7]
                  exact ⟨fun _ => Or.inr (Or.inr (Or.inr (Or.inr (Or.inr (Or.inr (Or.inr (Or.inl c7))))))), fun _ => by trivial⟩
                · simp only [if_neg c7]
                  by_cases c8 : inChunk = k8
                  · simp only [if_pos c8]
                    exact ⟨fun _ => Or.inr (Or.inr (Or.inr (Or.inr (Or.inr (Or.inr (Or.inr (Or.inr (Or.inl c8)))))))), fun _ => by trivial⟩
                  · simp only [if_neg c8]
                    by_cases c9 : inChunk = k9
                    · simp only [if_pos c9]
                      exact ⟨fun _ => Or.inr (Or.inr (Or.inr (Or.inr (Or.inr (Or.inr (Or.inr (Or.inr (Or.inr (Or.inl c9))))))))), fun _ => by trivial⟩
                    · simp only [if_neg c9]
                      by_cases c10 : inChunk = k10
                      · simp only [if_pos c10]
                        exact ⟨fun _ => Or.inr (Or.inr (Or.inr (Or.inr (Or.inr (Or.inr (Or.inr (Or.inr (Or.inr (Or.inr (Or.inl c10)))))))))), fun _ => by trivial⟩
                      · simp only [if_neg c10]
                        by_cases c11 : inChunk = k11
                        · simp only [if_pos c11]
                          exact ⟨fun _ => Or.inr (Or.inr (Or.inr (Or.inr (Or.inr (Or.inr (Or.inr (Or.inr (Or.inr (Or.inr (Or.inr (Or.inl c11))))))))))), fun _ => by trivial⟩
                        · simp only [if_neg c11]
                          by_cases c12 : inChunk = k12
                          · simp only [if_pos c12]
                            exact ⟨fun _ => Or.inr (Or.inr (Or.inr (Or.inr (Or.inr (Or.inr (Or.inr (Or.inr (Or.inr (Or.inr (Or.inr (Or.inr (Or.inl c12)))))))))))), fun _ => by trivial⟩
                          · simp only [if_neg c12]
                            by_cases c13 : inChunk = k13
                            · simp only [if_pos c13]
                              exact ⟨fun _ => Or.inr (Or.inr (Or.inr (Or.inr (Or.inr (Or.inr (Or.inr (Or.inr (Or.inr (Or.inr (Or.inr (Or.inr (Or.inr (c13))))))))))))), fun _ => by trivial⟩
                            · simp only [if_neg c13]
                              refine ⟨fun h => absurd h (by decide), fun h => ?_⟩
                              rcases h with h | h | h | h | h | h | h | h | h | h | h | h | h | h <;> contradiction

theorem dominantBaselineChain_false (inChunk k0 k1 k2 k3 k4 k5 k6 k7 k8 k9 k10 k11 k12 k13 : List Nat)
    (value : DOMINANTBASELINE)
    (h : ¬ (dominantBaselineChain inChunk k0 k1 k2 k3 k4 k5 k6 k7 k8 k9 k10 k11 k12 k13 value).1 = true) :
    dominantBaselineChain inChunk k0 k1 k2 k3 k4 k5 k6 k7 k8 k9 k10 k11 k12 k13 value = (false, value) := by
  unfold dominantBaselineChain at h ⊢
  by_cases c0 : inChunk = k0
  · simp only [if_pos c0] at h
    exact absurd trivial h
  · simp only [if_neg c0] at h ⊢
    by_cases c1 : inChunk = k1
    · simp only [if_pos c1] at h
      exact absurd trivial h
    · simp only [if_neg c1] at h ⊢
      by_cases c2 : inChunk = k2
      · simp only [if_pos c2] at h
        exact absurd trivial h
      · simp only [if_neg c2] at h ⊢
        by_cases c3 : inChunk = k3
        · simp only [if_pos c3] at h
          exact absurd trivial h
        · simp only [if_neg c3] at h ⊢
          by_cases c4 : inChunk = k4
          · simp only [if_pos c4] at h
            exact absurd trivial h
          · simp only [if_neg c4] at h ⊢
            by_cases c5 : inChunk = k5
            · simp only [if_pos c5] at h
              exact absurd trivial h
            · simp only [if_neg c5] at h ⊢
              by_cases c6 : inChunk = k6
              · simp only [if_pos c6] at h
                exact absurd trivial h
              · simp only [if_neg c6] at h ⊢
                by_cases c7 : inChunk = k7
                · simp only [if_pos c7] at h
                  exact absurd trivial h
                · simp only [if_neg c7] at h ⊢
                  by_cases c8 : inChunk = k8
                  · simp only [if_pos c8] at h
                    exact absurd trivial h
                  · simp only [if_neg c8] at h ⊢
                    by_cases c9 : inChunk = k9
                    · simp only [if_pos c9] at h
                      exact absurd trivial h
                    · simp only [if_neg c9] at h ⊢
                      by_cases c10 : inChunk = k10
                      · simp only [if_pos c10] at h
                        exact absurd trivial h
                      · simp only [if_neg c10] at h ⊢
                        by_cases c11 : inChunk = k11
                        · simp only [if_pos c11] at h
                          exact absurd trivial h
                        · simp only [if_neg c11] at h ⊢
                          by_cases c12 : inChunk = k12
                          · simp only [if_pos c12] at h
                            exact absurd trivial h
                          · simp only [if_neg c12] at h ⊢
                            by_cases c13 : inChunk = k13
                            · simp only [if_pos c13] at h
                              exact absurd trivial h
                            · simp only [if_neg c13] at h ⊢

theorem parseDominantBaseline_eq_chain (inChunk : List Nat) (value : DOMINANTBASELINE) :
    parseDominantBaseline inChunk value =
      dominantBaselineChain inChunk (cstr "auto") (cstr "alphabetic") (cstr "central") (cstr "hanging") (cstr "ideographic") (cstr "mathematical") (cstr "middle") (cstr "no-change") (cstr "reset-size") (cstr "text-after-edge") (cstr "text-before-edge") (cstr "text-bottom") (cstr "text-top") (cstr "use-script") value := rfl

theorem mem_dominantBaselineKeywords (inChunk : List Nat) :
    inChunk ∈ dominantBaselineKeywords ↔
      (inChunk = cstr "auto" ∨ inChunk = cstr "alphabetic" ∨ inChunk = cstr "central" ∨ inChunk = cstr "hanging" ∨ inChunk = cstr "ideographic" ∨ inChunk = cstr "mathematical" ∨ inChunk = cstr "middle" ∨ inChunk = cstr "no-change" ∨ inChunk = cstr "reset-size" ∨ inChunk = cstr "text-after-edge" ∨ inChunk = cstr "text-before-edge" ∨ inChunk = cstr "text-bottom" ∨ inChunk = cstr "text-top" ∨ inChunk = cstr "use-script") := by
  unfold dominantBaselineKeywords
  simp only [List.mem_cons, List.mem_singleton, List.not_mem_nil, or_false]

theorem parseDominantBaseline_value_independent (inChunk : List Nat)
    (v1 v2 : DOMINANTBASELINE) (h : (parseDominantBaseline inChunk v1).1 = true) :
    parseDominantBaseline inChunk v1 = parseDominantBaseline inChunk v2 := by
  rw [parseDominantBaseline_eq_chain] at h ⊢
  rw [parseDominantBaseline_eq_chain]
  exact dominantBaselineChain_value_independent inChunk _ _ _ _ _ _ _ _ _ _ _ _ _ _ v1 v2 h

theorem parseDominantBaseline_true_iff (inChunk : List Nat) (value : DOMINANTBASELINE) :
    (parseDominantBaseline inChunk value).1 = true ↔ inChunk ∈ dominantBaselineKeywords := by
  rw [parseDominantBaseline_eq_chain, mem_dominantBaselineKeywords]
  exact dominantBaselineChain_true_iff inChunk _ _ _ _ _ _ _ _ _ _ _ _ _ _ value

theorem parseDominantBaseline_other (inChunk : List Nat) (value : DOMINANTBASELINE)
    (h : inChunk ∉ dominantBaselineKeywords) :
    parseDominantBaseline inChunk value = (false, value) := by
  have h1 : ¬ (parseDominantBaseline inChunk value).1 = true :=
    fun ht => h ((parseDominantBaseline_true_iff inChunk value).mp ht)
  rw [parseDominantBaseline_eq_chain] at h1 ⊢
  exact dominantBaselineChain_false inChunk _ _ _ _ _ _ _ _ _ _ _ _ _ _ value h1

/-- C39: `parseDominantBaseline` returns true exactly for the 14 keywords, compared byte
for byte (so case-sensitively), and maps distinct keywords to distinct values; for every
other input it returns false and leaves the output value unchanged. -/
theorem parseDominantBaseline_keywords (inChunk : List Nat) (value : DOMINANTBASELINE) :
    ((parseDominantBaseline inChunk value).1 = true ↔ inChunk ∈ dominantBaselineKeywords) ∧
    (inChunk ∉ dominantBaselineKeywords →
      parseDominantBaseline inChunk value = (false, value)) ∧
    (∀ k1, k1 ∈ dominantBaselineKeywords → ∀ k2, k2 ∈ dominantBaselineKeywords →
      ∀ v1 v2, (parseDominantBaseline k1 v1).2 = (parseDominantBaseline k2 v2).2 → k1 = k2) ∧
    dominantBaselineKeywords.length = 14 ∧ dominantBaselineKeywords.Nodup := by
  refine ⟨parseDominantBaseline_true_iff inChunk value,
    parseDominantBaseline_other inChunk value, ?_, rfl, by decide!⟩
  intro k1 hk1 k2 hk2 v1 v2 h
  have h1 := parseDominantBaseline_value_independent k1 v1 DOMINANTBASELINE.AUTO
    ((parseDominantBaseline_true_iff k1 v1).mpr hk1)
  have h2 := parseDominantBaseline_value_independent k2 v2 DOMINANTBASELINE.AUTO
    ((parseDominantBaseline_true_iff k2 v2).mpr hk2)
  rw [h1, h2] at h
  have hall : ∀ a, a ∈ dominantBaselineKeywords → ∀ b, b ∈ dominantBaselineKeywords →
      (parseDominantBaseline a DOMINANTBASELINE.AUTO).2 =
        (parseDominantBaseline b DOMINANTBASELINE.AUTO).2 → a = b := by
    decide!
  exact hall k1 hk1 k2 hk2 h

/-- C39 at the inputs "Auto" and "baseline", which are no keywords, and at "middle". -/
theorem parseDominantBaseline_keywords_witness :
    cstr "Auto" ∉ dominantBaselineKeywords ∧
    parseDominantBaseline (cstr "Auto") DOMINANTBASELINE.HANGING =
      (false, DOMINANTBASELINE.HANGING) ∧
    parseDominantBaseline (cstr "baseline") DOMINANTBASELINE.HANGING =
      (false, DOMINANTBASELINE.HANGING) ∧
    parseDominantBaseline (cstr "middle") DOMINANTBASELINE.HANGING =
      (true, DOMINANTBASELINE.MIDDLE) :=
  ⟨by decide!,
    (parseDominantBaseline_keywords (cstr "Auto") DOMINANTBASELINE.HANGING).2.1 (by decide!),
    (parseDominantBaseline_keywords (cstr "baseline") DOMINANTBASELINE.HANGING).2.1
      (by decide!),
    by decide!⟩

/-! ## `resolvePosition`, called again -/

/-- What a second `resolvePosition` makes of the node the first one left: `fDx` and `fDy`
stay, an axis with its position attribute set is resolved as before, and an axis without
it takes the cursor the first call left, which lies `fDx` (or `fDy`) further. -/
theorem SVGTSpanNode.resolvePosition_again (env : TextEnv) (n : SVGTSpanNode) :
    (SVGTSpanNode.resolvePosition env (SVGTSpanNode.resolvePosition env n)).fDx =
      (SVGTSpanNode.resolvePosition env n).fDx ∧
    (SVGTSpanNode.resolvePosition env (SVGTSpanNode.resolvePosition env n)).fDy =
      (SVGTSpanNode.resolvePosition env n).fDy ∧
    (SVGTSpanNode.resolvePosition env (SVGTSpanNode.resolvePosition env n)).fX =
      (if n.attrs.x.isSet then (SVGTSpanNode.resolvePosition env n).fX
        else (SVGTSpanNode.resolvePosition env n).fX +
          (SVGTSpanNode.resolvePosition env n).fDx) ∧
    (SVGTSpanNode.resolvePosition env (SVGTSpanNode.resolvePosition env n)).fY =
      (if n.attrs.y.isSet then (SVGTSpanNode.resolvePosition env n).fY
        else (SVGTSpanNode.resolvePosition env n).fY +
          (SVGTSpanNode.resolvePosition env n).fDy) ∧
    (SVGTSpanNode.resolvePosition env (SVGTSpanNode.resolvePosition env n)).fTextCursor.x =
      (if n.attrs.x.isSet then (SVGTSpanNode.resolvePosition env n).fTextCursor.x
        else (SVGTSpanNode.resolvePosition env n).fTextCursor.x +
          (SVGTSpanNode.resolvePosition env n).fDx) ∧
    (SVGTSpanNode.resolvePosition env (SVGTSpanNode.resolvePosition env n)).fTextCursor.y =
      (if n.attrs.y.isSet then (SVGTSpanNode.resolvePosition env n).fTextCursor.y
        else (SVGTSpanNode.resolvePosition env n).fTextCursor.y +
          (SVGTSpanNode.resolvePosition env n).fDy) := by
  unfold SVGTSpanNode.resolvePosition
  by_cases hx : n.attrs.x.isSet = true <;> by_cases hy : n.attrs.y.isSet = true <;>
    by_cases hdx : n.attrs.dx.isSet = true <;> by_cases hdy : n.attrs.dy.isSet = true <;>
    simp [hx, hy, hdx, hdy]

/-- C32, as stated, fails: for the tspan with `dx="5"` and no x attribute, one call of
`resolvePosition` leaves `fX = 0` and the cursor at x = 5, and a second call leaves
`fX = 5` and the cursor at x = 10. -/
theorem resolvePosition_twice_moves_cursor :
    ((SVGTSpanNode.resolvePosition sampleTextEnv
        (SVGTSpanNode.construct { TSpanAttributes.none with dx := SVGDimension.bareNumber 5 }
          { fFont := sampleFont, fIsSet := false } [])).fX,
      (SVGTSpanNode.resolvePosition sampleTextEnv
        (SVGTSpanNode.construct { TSpanAttributes.none with dx := SVGDimension.bareNumber 5 }
          { fFont := sampleFont, fIsSet := false } [])).fDx,
      (SVGTSpanNode.resolvePosition sampleTextEnv
        (SVGTSpanNode.construct { TSpanAttributes.none with dx := SVGDimension.bareNumber 5 }
          { fFont := sampleFont, fIsSet := false } [])).fTextCursor) =
      (0, 5, { x := 5, y := 0 }) ∧
    ((SVGTSpanNode.resolvePosition sampleTextEnv
        (SVGTSpanNode.resolvePosition sampleTextEnv
          (SVGTSpanNode.construct { TSpanAttributes.none with dx := SVGDimension.bareNumber 5 }
            { fFont := sampleFont, fIsSet := false } []))).fX,
      (SVGTSpanNode.resolvePosition sampleTextEnv
        (SVGTSpanNode.resolvePosition sampleTextEnv
          (SVGTSpanNode.construct { TSpanAttributes.none with dx := SVGDimension.bareNumber 5 }
            { fFont := sampleFont, fIsSet := false } []))).fDx,
      (SVGTSpanNode.resolvePosition sampleTextEnv
        (SVGTSpanNode.resolvePosition sampleTextEnv
          (SVGTSpanNode.construct { TSpanAttributes.none with dx := SVGDimension.bareNumber 5 }
            { fFont := sampleFont, fIsSet := false } []))).fTextCursor) =
      (5, 5, { x := 10, y := 0 }) := by
  refine ⟨by decide!, by decide!⟩

/-- C32, amended: calling `resolvePosition` twice leaves `fDx` and `fDy` as calling it
once does, and on an axis whose position attribute (x, respectively y) is set, or whose
resolved offset (`fDx`, respectively `fDy`) is 0, it leaves `fX` (`fY`) and the text cursor
as calling it once does. On an axis with the offset set and the position unset, the second
call moves `fX` (`fY`) and the cursor by the offset once more. -/
theorem resolvePosition_twice (env : TextEnv) (n : SVGTSpanNode) :
    (SVGTSpanNode.resolvePosition env (SVGTSpanNode.resolvePosition env n)).fDx =
      (SVGTSpanNode.resolvePosition env n).fDx ∧
    (SVGTSpanNode.resolvePosition env (SVGTSpanNode.resolvePosition env n)).fDy =
      (SVGTSpanNode.resolvePosition env n).fDy ∧
    ((n.attrs.x.isSet = true ∨ (SVGTSpanNode.resolvePosition env n).fDx = 0) →
      (SVGTSpanNode.resolvePosition env (SVGTSpanNode.resolvePosition env n)).fX =
        (SVGTSpanNode.resolvePosition env n).fX ∧
      (SVGTSpanNode.resolvePosition env (SVGTSpanNode.resolvePosition env n)).fTextCursor.x =
        (SVGTSpanNode.resolvePosition env n).fTextCursor.x) ∧
    ((n.attrs.y.isSet = true ∨ (SVGTSpanNode.resolvePosition env n).fDy = 0) →
      (SVGTSpanNode.resolvePosition env (SVGTSpanNode.resolvePosition env n)).fY =
        (SVGTSpanNode.resolvePosition env n).fY ∧
      (SVGTSpanNode.resolvePosition env (SVGTSpanNode.resolvePosition env n)).fTextCursor.y =
        (SVGTSpanNode.resolvePosition env n).fTextCursor.y) ∧
    (n.attrs.x.isSet = false →
      (SVGTSpanNode.resolvePosition env (SVGTSpanNode.resolvePosition env n)).fX =
        (SVGTSpanNode.resolvePosition env n).fX + (SVGTSpanNode.resolvePosition env n).fDx ∧
      (SVGTSpanNode.resolvePosition env (SVGTSpanNode.resolvePosition env n)).fTextCursor.x =
        (SVGTSpanNode.resolvePosition env n).fTextCursor.x +
          (SVGTSpanNode.resolvePosition env n).fDx) ∧
    (n.attrs.y.isSet = false →
      (SVGTSpanNode.resolvePosition env (SVGTSpanNode.resolvePosition env n)).fY =
        (SVGTSpanNode.resolvePosition env n).fY + (SVGTSpanNode.resolvePosition env n).fDy ∧
      (SVGTSpanNode.resolvePosition env (SVGTSpanNode.resolvePosition env n)).fTextCursor.y =
        (SVGTSpanNode.resolvePosition env n).fTextCursor.y +
          (SVGTSpanNode.resolvePosition env n).fDy) := by
  obtain ⟨h1, h2, h3, h4, h5, h6⟩ := SVGTSpanNode.resolvePosition_again env n
  refine ⟨h1, h2, ?_, ?_, ?_, ?_⟩
  · intro h
    rw [h3, h5]
    rcases h with h | h
    · simp [h]
    · rw [h]
      simp
  · intro h
    rw [h4, h6]
    rcases h with h | h
    · simp [h]
    · rw [h]
      simp
  · intro h
    rw [h3, h5]
    simp [h]
  · intro h
    rw [h4, h6]
    simp [h]

/-- C32, amended, at the tspan with `x="10"`, `dx="5"` and `dy="3"`: the x axis is the
same after one call and after two (fX = 10, cursor x = 15), the y axis moves by 3 again. -/
theorem resolvePosition_twice_witness :
    ((SVGTSpanNode.construct
        { TSpanAttributes.none with
          x := SVGDimension.bareNumber 10, dx := SVGDimension.bareNumber 5,
          dy := SVGDimension.bareNumber 3 }
        { fFont := sampleFont, fIsSet := false } []).attrs.x.isSet = true ∨
      (SVGTSpanNode.resolvePosition sampleTextEnv
        (SVGTSpanNode.construct
          { TSpanAttributes.none with
            x := SVGDimension.bareNumber 10, dx := SVGDimension.bareNumber 5,
            dy := SVGDimension.bareNumber 3 }
          { fFont := sampleFont, fIsSet := false } [])).fDx = 0) ∧
    ((SVGTSpanNode.resolvePosition sampleTextEnv
        (SVGTSpanNode.resolvePosition sampleTextEnv
          (SVGTSpanNode.construct
            { TSpanAttributes.none with
              x := SVGDimension.bareNumber 10, dx := SVGDimension.bareNumber 5,
              dy := SVGDimension.bareNumber 3 }
            { fFont := sampleFont, fIsSet := false } []))).fX =
        (SVGTSpanNode.resolvePosition sampleTextEnv
          (SVGTSpanNode.construct
            { TSpanAttributes.none with
              x := SVGDimension.bareNumber 10, dx := SVGDimension.bareNumber 5,
              dy := SVGDimension.bareNumber 3 }
            { fFont := sampleFont, fIsSet := false } [])).fX ∧
      (SVGTSpanNode.resolvePosition sampleTextEnv
        (SVGTSpanNode.resolvePosition sampleTextEnv
          (SVGTSpanNode.construct
            { TSpanAttributes.none with
              x := SVGDimension.bareNumber 10, dx := SVGDimension.bareNumber 5,
              dy := SVGDimension.bareNumber 3 }
            { fFont := sampleFont, fIsSet := false } []))).fTextCursor.x =
        (SVGTSpanNode.resolvePosition sampleTextEnv
          (SVGTSpanNode.construct
            { TSpanAttributes.none with
              x := SVGDimension.bareNumber 10, dx := SVGDimension.bareNumber 5,
              dy := SVGDimension.bareNumber 3 }
            { fFont := sampleFont, fIsSet := false } [])).fTextCursor.x) ∧
    (SVGTSpanNode.resolvePosition sampleTextEnv
      (SVGTSpanNode.resolvePosition sampleTextEnv
        (SVGTSpanNode.construct
          { TSpanAttributes.none with
            x := SVGDimension.bareNumber 10, dx := SVGDimension.bareNumber 5,
            dy := SVGDimension.bareNumber 3 }
          { fFont := sampleFont, fIsSet := false } []))).fTextCursor = { x := 15, y := 6 } :=
  ⟨Or.inl (by decide),
    (resolvePosition_twice sampleTextEnv
      (SVGTSpanNode.construct
        { TSpanAttributes.none with
          x := SVGDimension.bareNumber 10, dx := SVGDimension.bareNumber 5,
          dy := SVGDimension.bareNumber 3 }
        { fFont := sampleFont, fIsSet := false } [])).2.2.1 (Or.inl (by decide)),
    by decide!⟩

/-! ## The children a text container loads -/

theorem SVGTSpanNode.addNode_nodes (env : TextLoadEnv) (n : SVGTSpanNode) (node : LoadedNode) :
    (env.addNodeTestsStructural = false ∨ node.isStructural = true →
      (SVGTSpanNode.addNode env n node).fNodes = n.fNodes ++ [node.node]) ∧
    (env.addNodeTestsStructural = true → node.isStructural = false →
      SVGTSpanNode.addNode env n node = n) := by
  unfold SVGTSpanNode.addNode
  constructor
  · intro h
    rw [if_neg]
    rintro ⟨h1, h2⟩
    rcases h with h | h
    · rw [h] at h1
      exact Bool.noConfusion h1
    · rw [h] at h2
      exact Bool.noConfusion h2
  · intro h1 h2
    rw [if_pos ⟨h1, h2⟩]

/-- What `loadContentNode` hands to `addNode` is one text run. -/
theorem SVGTSpanNode.loadContentNode_nodes (env : TextLoadEnv) (n : SVGTSpanNode)
    (elem : XmlChild) :
    SVGTSpanNode.loadContentNode env n elem =
      n.addNode env
        { node := TextChild.textRun elem.data, isStructural := env.structuralByDefault } :=
  rfl

/-- For a self-closing `tspan`, `loadSelfClosingNode` hands one tspan node to `addNode`; for
any other tag it leaves the container as it is. -/
theorem SVGTSpanNode.loadSelfClosingNode_nodes (env : TextLoadEnv) (n : SVGTSpanNode)
    (elem : XmlChild) :
    (elem.tagName = cstr "tspan" →
      SVGTSpanNode.loadSelfClosingNode env n elem =
        n.addNode env
          { node := TextChild.tspanNode (env.tspanDraw elem)
            isStructural := env.structuralByDefault }) ∧
    (elem.tagName ≠ cstr "tspan" → SVGTSpanNode.loadSelfClosingNode env n elem = n) := by
  unfold SVGTSpanNode.loadSelfClosingNode
  constructor
  · intro h
    rw [if_pos h]
  · intro h
    rw [if_neg h]

/-- What `loadCompoundNode` does with the compound element the iterator stands on: a
`tspan` is handed to `addNode`; any other tag goes to the base class, which hands the node
of the registered factory to `addNode`, or nothing when the tag has no factory; the
iterator is left after the element in every case. -/
theorem SVGTSpanNode.loadCompoundNode_nodes (env : TextLoadEnv) (n : SVGTSpanNode)
    (elem : XmlChild) (rest : List XmlChild) :
    (elem.tagName = cstr "tspan" →
      SVGTSpanNode.loadCompoundNode env n (elem :: rest) =
        (n.addNode env
          { node := TextChild.tspanNode (env.tspanDraw elem)
            isStructural := env.structuralByDefault }, rest)) ∧
    (elem.tagName ≠ cstr "tspan" → env.factory elem.tagName = none →
      SVGTSpanNode.loadCompoundNode env n (elem :: rest) = (n, rest)) ∧
    (∀ build, elem.tagName ≠ cstr "tspan" → env.factory elem.tagName = some build →
      SVGTSpanNode.loadCompoundNode env n (elem :: rest) =
        (n.addNode env (build elem), rest)) := by
  refine ⟨?_, ?_, ?_⟩
  · intro h
    simp only [SVGTSpanNode.loadCompoundNode, if_pos h]
  · intro h hf
    simp only [SVGTSpanNode.loadCompoundNode, if_neg h, SVGGraphicsElement.loadCompoundNode, hf]
  · intro build h hf
    simp only [SVGTSpanNode.loadCompoundNode, if_neg h, SVGGraphicsElement.loadCompoundNode, hf]

/-- C37: the code at a text container with a compound child `<missing-glyph>`. The tag is
not "tspan", so `loadCompoundNode` hands the iterator to the base class; the registry
holds a factory for "missing-glyph", whose node is neither a text run nor a tspan and whose
constructor leaves `isStructural` as the base class sets it, like the constructors of the
text run and the tspan. Whether `addNode` tests `isStructural` or not, the node becomes a
child of the container whenever a text run does: in the three readings in which
`loadContentNode` adds its text run, the children after `<missing-glyph>` are one node of
another class; in the fourth (the test is made and nodes are not structural by default) the
container takes no child at all, the text run included. The iterator is left on the
following sibling. A compound `<font>`, whose constructor calls `isStructural(false)`,
becomes a child exactly when `addNode` does not test the flag; a compound `<desc>`, for
which there is no factory, and a self-closing `<missing-glyph/>` add nothing; a compound
`<tspan>` and a nested `<text>` add a tspan node. -/
theorem loadCompoundNode_keeps_registered_node :
    (∀ tests dflt : Bool,
      (SVGTSpanNode.loadCompoundNode (sampleTextLoadEnv tests dflt) sampleTextNode
          [XmlChild.compound (cstr "missing-glyph") (cstr "<path/>"),
            XmlChild.content (cstr "abc")]).1.childKinds =
        (if tests = true ∧ dflt = false then [] else [TextChildKind.otherNode]) ∧
      (SVGTSpanNode.loadCompoundNode (sampleTextLoadEnv tests dflt) sampleTextNode
          [XmlChild.compound (cstr "missing-glyph") (cstr "<path/>"),
            XmlChild.content (cstr "abc")]).2 = [XmlChild.content (cstr "abc")] ∧
      (SVGTSpanNode.loadContentNode (sampleTextLoadEnv tests dflt) sampleTextNode
          (XmlChild.content (cstr "abc"))).childKinds =
        (if tests = true ∧ dflt = false then [] else [TextChildKind.textRun]) ∧
      (SVGTSpanNode.loadCompoundNode (sampleTextLoadEnv tests dflt) sampleTextNode
          [XmlChild.compound (cstr "tspan") (cstr "abc")]).1.childKinds =
        (if tests = true ∧ dflt = false then [] else [TextChildKind.tspanNode]) ∧
      (SVGTSpanNode.loadCompoundNode (sampleTextLoadEnv tests dflt) sampleTextNode
          [XmlChild.compound (cstr "text") (cstr "abc")]).1.childKinds =
        (if tests = true ∧ dflt = false then [] else [TextChildKind.tspanNode]) ∧
      (SVGTSpanNode.loadCompoundNode (sampleTextLoadEnv tests dflt) sampleTextNode
          [XmlChild.compound (cstr "font") (cstr "<font-face/>")]).1.childKinds =
        (if tests = true then [] else [TextChildKind.otherNode]) ∧
      (SVGTSpanNode.loadCompoundNode (sampleTextLoadEnv tests dflt) sampleTextNode
          [XmlChild.compound (cstr "desc") (cstr "text"),
            XmlChild.content (cstr "abc")]) = (sampleTextNode, [XmlChild.content (cstr "abc")]) ∧
      (SVGTSpanNode.loadSelfClosingNode (sampleTextLoadEnv tests dflt) sampleTextNode
          (XmlChild.selfClosing (cstr "missing-glyph") [])).childKinds = []) := by
  intro tests dflt
  cases tests <;> cases dflt <;>
    refine ⟨by decide!, by decide!, by decide!, by decide!, by decide!, by decide!, ?_,
      by decide!⟩ <;> rfl

/-! ## A reference that leads back to the gradient being bound -/

theorem BLGradient.addStop_out_of_range (g : BLGradient) (offset : ℚ) (rgba : Nat)
    (h : ¬ (0 ≤ offset ∧ offset ≤ 1)) : BLGradient.addStop g offset rgba = g := by
  unfold BLGradient.addStop
  rw [if_pos h]

end waavs
